import Mathlib

/-!
ByteC postback proxy (Cloudflare Workers)

A shallow embedding of the two worker scripts of `postback_system`:

* `cloudflare-worker.js`        (namespace `Worker`)
* `cloudflare-worker-ready.js`  (namespace `Ready`)

Conventions of the embedding.

* A JavaScript function that may throw returns `Except JsError _`.
* Process state (`rateLimitCache`, pending `setTimeout` callbacks, the clock read by
  `Date.now()`, the calls made to `fetch`, the console) is the explicit record `World`.
* `fetch` and `new URL(string)` are platform functions; they are the fields of `Env`.
* A URL is kept in parsed form (`URL`); `request.url` is `URL.toString request.url`.
* Header names compare ASCII case-insensitively, `Headers.get` joins repeated values
  with `", "`, `Headers.set` overwrites the first entry and drops the others. The values
  of a `Headers` object are normalised header values; `Headers.set` is given such values,
  the one value a worker builds with a trailing space is normalised at the call.
* `new Response(text, init)` is `Response.create`: each header value of `init` is
  normalised (leading and trailing HTTP whitespace is removed), and the constructor
  throws when a normalised value is not a header value. Status codes are taken as they
  are.
* `handleRequest` is an `async` function: its result is the response its promise
  resolves with, or the error the promise rejects with.
* A member access on an object literal sees the names inherited from `Object.prototype`.
* Time is the field `now`; it moves by the events of `Worker.Event` and never goes back.
  A `setTimeout` callback is a pending timer that runs only once `now` has reached it.
-/

namespace Postback

/-! ## Strings -/

/-- ASCII lower-casing, the normal form of a header name. -/
def lower (s : String) : String := String.mk (s.data.map Char.toLower)

/-- Counterpart of `String.prototype.startsWith`. -/
def startsWith (s p : String) : Bool := p.data.isPrefixOf s.data

/-- Counterpart of `String.prototype.includes`: some suffix of `s` begins with `p`. -/
def includes (s p : String) : Bool := s.data.tails.any (fun t => p.data.isPrefixOf t)

/-- The expression `v || d` for a possibly absent string `v`: `null`, `undefined` and the
empty string are falsy. -/
def orElse (v : Option String) (d : String) : String :=
  match v with
  | some s => if s = "" then d else s
  | none => d

/-- A thrown JavaScript error; only `error.message` is observed by the workers. -/
structure JsError where
  message : String
  deriving DecidableEq, Repr

deriving instance DecidableEq for Except

/-! ## Headers -/

/-- The header list of a `Headers` object, in insertion order. -/
structure Headers where
  entries : List (String × String)
  deriving DecidableEq, Repr

namespace Headers

/-- Two header names denote the same header. -/
def sameName (a b : String) : Bool := lower a == lower b

/-- All values stored under `name`, in order. -/
def getAll (h : Headers) (name : String) : List String :=
  (h.entries.filter (fun p => sameName p.1 name)).map Prod.snd

/-- Counterpart of `Headers.prototype.get`: `null` when absent, otherwise the values
joined with a comma and a space. -/
def get (h : Headers) (name : String) : Option String :=
  match getAll h name with
  | [] => none
  | vs => some (", ".intercalate vs)

/-- Counterpart of `Headers.prototype.has`. -/
def has (h : Headers) (name : String) : Bool := h.entries.any (fun p => sameName p.1 name)

/-- Overwrite on a raw header list: the first entry named `name` takes `value`, the
other entries of that name are removed; without such an entry the pair is appended. -/
def setEntries : List (String × String) → String → String → List (String × String)
  | [], name, value => [(name, value)]
  | (k, x) :: t, name, value =>
    if sameName k name then (k, value) :: t.filter (fun p => !sameName p.1 name)
    else (k, x) :: setEntries t name value

/-- Counterpart of `Headers.prototype.set` for a value that is a normalised header
value, which is stored as it is; a caller whose value can carry leading or trailing
whitespace passes it through `normalizeValue`, as the platform does. -/
def set (h : Headers) (name value : String) : Headers := ⟨setEntries h.entries name value⟩

/-- Counterpart of `Headers.prototype.append`. -/
def append (h : Headers) (name value : String) : Headers := ⟨h.entries ++ [(name, value)]⟩

/-- HTTP whitespace: line feed, carriage return, tab and space. -/
def isHttpWhitespace (c : Char) : Bool :=
  c == Char.ofNat 10 || c == Char.ofNat 13 || c == Char.ofNat 9 || c == Char.ofNat 32

/-- Normalisation of a header value, as the Fetch standard defines it: leading and
trailing HTTP whitespace is removed. -/
def normalizeValue (value : String) : String :=
  String.mk ((value.data.dropWhile isHttpWhitespace).reverse.dropWhile isHttpWhitespace).reverse

/-- A normalised string passes as a header value when it holds no NUL, no line feed and
no carriage return (the header value of the Fetch standard) and every character is a
byte, with no code above 255 (the conversion of the argument to a byte string). -/
def validValue (value : String) : Bool :=
  value.data.all (fun c =>
    c != Char.ofNat 0 && c != Char.ofNat 10 && c != Char.ofNat 13 && decide (c.toNat ≤ 255))

end Headers

/-! ## URLs -/

/-- The list of a `URLSearchParams` object: the name-value pairs of the query string in
order; names compare exactly. -/
structure URLSearchParams where
  entries : List (String × String)
  deriving DecidableEq, Repr

namespace URLSearchParams

/-- Counterpart of `URLSearchParams.prototype.has`. -/
def has (p : URLSearchParams) (name : String) : Bool := p.entries.any (fun e => e.1 == name)

/-- Counterpart of `URLSearchParams.prototype.getAll`. -/
def getAll (p : URLSearchParams) (name : String) : List String :=
  (p.entries.filter (fun e => e.1 == name)).map Prod.snd

/-- Counterpart of `URLSearchParams.prototype.get`: the first value, or `null`. -/
def get (p : URLSearchParams) (name : String) : Option String := (getAll p name).head?

/-- Overwrite on a raw pair list, as for headers but with exact names. -/
def setEntries : List (String × String) → String → String → List (String × String)
  | [], name, value => [(name, value)]
  | (k, x) :: t, name, value =>
    if k == name then (k, value) :: t.filter (fun e => !(e.1 == name))
    else (k, x) :: setEntries t name value

/-- Counterpart of `URLSearchParams.prototype.set`. -/
def set (p : URLSearchParams) (name value : String) : URLSearchParams :=
  ⟨setEntries p.entries name value⟩

end URLSearchParams

/-- The loop `for (const [key, value] of inbound) target.set(key, value)` of both
request builders. -/
def copyParams (target : URLSearchParams) (inbound : List (String × String)) :
    URLSearchParams :=
  inbound.foldl (fun acc kv => acc.set kv.1 kv.2) target

/-- A parsed URL (the fields of a `URL` object the workers read). -/
structure URL where
  protocol : String
  hostname : String
  port : String
  pathname : String
  searchParams : URLSearchParams
  deriving DecidableEq, Repr

namespace URL

/-- The query string of a URL, with its leading question mark; empty without pairs. -/
def search (u : URL) : String :=
  match u.searchParams.entries with
  | [] => ""
  | es => "?" ++ "&".intercalate (es.map (fun e => e.1 ++ "=" ++ e.2))

/-- Counterpart of `URL.prototype.toString` (the `href`); percent-encoding is not
modelled. -/
def toString (u : URL) : String :=
  u.protocol ++ "//" ++ u.hostname ++ (if u.port = "" then "" else ":" ++ u.port)
    ++ u.pathname ++ u.search

end URL

/-! ## Requests and responses -/

/-- An HTTP request object. `cfCountry` is `request.cf?.country`. -/
structure Request where
  method : String
  url : URL
  headers : Headers
  body : Option String
  cfCountry : Option String
  deriving DecidableEq, Repr

/-- An HTTP response object. -/
structure Response where
  status : Nat
  statusText : String
  headers : Headers
  body : Option String
  deriving DecidableEq, Repr

namespace Response

/-- The response `new Response(text, init)` builds from a string body, a status and
header values that are normalised header values: a string body brings the content type
`text/plain;charset=UTF-8` unless the headers name one. -/
def ofText (text : String) (status : Nat) (headers : List (String × String)) : Response :=
  { status := status
    statusText := ""
    headers :=
      if Headers.has ⟨headers⟩ "Content-Type" then ⟨headers⟩
      else Headers.append ⟨headers⟩ "content-type" "text/plain;charset=UTF-8"
    body := some text }

/-- The call `new Response(text, init)` with a string body and `init` holding a status
and a headers record: every value is normalised; a value that is then not a header value
makes the constructor throw a `TypeError`, whose text no worker code reads. -/
def create (text : String) (status : Nat) (headers : List (String × String)) :
    Except JsError Response :=
  let normalized := headers.map (fun p => (p.1, Headers.normalizeValue p.2))
  if normalized.all (fun p => Headers.validValue p.2) then .ok (ofText text status normalized)
  else .error ⟨"Invalid header value"⟩

/-- The call `new Response(body, init)` with a stream or `null` body and `init` holding
status, status text and the `Headers` object of another response: the header list is
copied and no header is added. -/
def ofStream (body : Option String) (status : Nat) (statusText : String)
    (headers : List (String × String)) : Response :=
  { status := status, statusText := statusText, headers := ⟨headers⟩, body := body }

end Response

/-! ## Platform and process state -/

/-- The platform functions the workers call. -/
structure Env where
  /-- The constructor `new URL(string)`; throws on an invalid URL. -/
  newURL : String → Except JsError URL
  /-- The outcome of `fetch(request)`: the backend response, or a transport failure. -/
  fetch : Request → Except JsError Response

/-- The record handed to `JSON.stringify` by `logRequest`. -/
structure LogData where
  timestamp : Nat
  method : String
  url : String
  target : String
  status : Nat
  duration : Option Nat
  userAgent : Option String
  clientIP : Option String
  country : String
  deriving DecidableEq, Repr

/-- The record handed to `JSON.stringify` by `logError`; the stack trace is not
modelled. -/
structure ErrorLog where
  timestamp : Nat
  error : String
  url : String
  method : String
  duration : Nat
  deriving DecidableEq, Repr

/-- One line written to the console: `console.error(label, error)`,
`console.log(label, JSON.stringify(logData))` or
`console.error(label, JSON.stringify(errorLog))`. -/
inductive ConsoleEntry where
  | error (label : String) (message : String)
  | log (label : String) (data : LogData)
  | errorLog (label : String) (data : ErrorLog)
  deriving DecidableEq, Repr

/-- The mutable state around the handlers. -/
structure World where
  /-- The value of `Date.now()`, in milliseconds. -/
  now : Nat
  /-- The module-level `Map` of `cloudflare-worker.js`, in insertion order. -/
  rateLimitCache : List (String × Nat)
  /-- The pending `setTimeout` callbacks: earliest firing time and the key to delete. -/
  timers : List (Nat × String)
  /-- The requests passed to `fetch` so far. -/
  fetched : List Request
  /-- The console output so far. -/
  console : List ConsoleEntry
  deriving DecidableEq, Repr

/-- Counterpart of `Map.prototype.get`. -/
def mapGet (m : List (String × Nat)) (key : String) : Option Nat :=
  (m.find? (fun e => e.1 == key)).map Prod.snd

/-- Counterpart of `Map.prototype.set`: an existing key keeps its position. -/
def mapSet : List (String × Nat) → String → Nat → List (String × Nat)
  | [], key, v => [(key, v)]
  | (k, x) :: t, key, v => if k == key then (k, v) :: t else (k, x) :: mapSet t key v

/-- Counterpart of `Map.prototype.delete`. -/
def mapDelete (m : List (String × Nat)) (key : String) : List (String × Nat) :=
  m.filter (fun e => !(e.1 == key))

/-- The value a JavaScript expression may take where the workers read configuration. -/
inductive JsVal where
  | undefined
  | str (s : String)
  | inherited (name : String)
  deriving DecidableEq, Repr

namespace JsVal

/-- Truthiness of a value, as tested by `||`. -/
def truthy : JsVal → Bool
  | undefined => false
  | str s => !(s == "")
  | inherited _ => true

/-- The expression `a || b`. -/
def or (a b : JsVal) : JsVal := if a.truthy then a else b

/-- Conversion to a string, as applied by `new URL(value)`. -/
def toStr : JsVal → String
  | undefined => "undefined"
  | str s => s
  | inherited name =>
    if name = "__proto__" then "[object Object]"
    else if name = "constructor" then "function Object() \x7b [native code] \x7d"
    else "function " ++ name ++ "() \x7b [native code] \x7d"

end JsVal

/-- The property names every object literal inherits from `Object.prototype`. -/
def objectPrototypeKeys : List String :=
  ["constructor", "hasOwnProperty", "isPrototypeOf", "propertyIsEnumerable",
   "toLocaleString", "toString", "valueOf", "__proto__", "__defineGetter__",
   "__defineSetter__", "__lookupGetter__", "__lookupSetter__"]

/-- The member access `obj[key]` on an object literal of strings: an own property gives
its value (`undefined` when it was left unset), an inherited name gives the inherited
member, anything else gives `undefined`. -/
def getProperty (obj : List (String × Option String)) (key : String) : JsVal :=
  match obj.find? (fun e => e.1 == key) with
  | some (_, some s) => .str s
  | some (_, none) => .undefined
  | none => if objectPrototypeKeys.contains key then .inherited key else .undefined

/-- An object literal followed by a spread of `extra`: a key already present keeps its
position and takes the later value, a new key is added at the end. -/
def spread (base extra : List (String × String)) : List (String × String) :=
  extra.foldl
    (fun acc kv =>
      if acc.any (fun e => e.1 == kv.1) then
        acc.map (fun e => if e.1 == kv.1 then (e.1, kv.2) else e)
      else acc ++ [kv])
    base

/-! ## `cloudflare-worker.js` -/

namespace Worker

/-- The constant `CONFIG` of `cloudflare-worker.js`; an endpoint may be left unset. -/
structure Config where
  productionEnabled : Bool
  productionEndpoint : Option String
  developmentEnabled : Bool
  developmentEndpoint : Option String
  fallbackEndpoint : Option String
  allowedOrigins : List String
  rateLimitPerMinute : Nat
  requiredHeaders : List String
  deriving DecidableEq, Repr

/-- The configuration as written in the source. -/
def CONFIG : Config :=
  { productionEnabled := false
    productionEndpoint := some "https://your-production-server.com/postback/involve/event"
    developmentEnabled := true
    developmentEndpoint := some "https://your-ngrok-url.ngrok.io/postback/involve/event"
    fallbackEndpoint := some "https://httpbin.org/anything"
    allowedOrigins := ["*"]
    rateLimitPerMinute := 1000
    requiredHeaders := [] }

/-- The result object of `performSecurityChecks`. -/
inductive SecurityCheck where
  | allowed
  | rejected (status : Nat) (reason : String)
  deriving DecidableEq, Repr

/-- The function `performSecurityChecks`: method first, then `conversion_id`. -/
def performSecurityChecks (request : Request) : SecurityCheck :=
  let url := request.url
  if !(["GET", "POST"].contains request.method) then
    .rejected 405 "Method Not Allowed"
  else if !(url.searchParams.has "conversion_id") then
    .rejected 400 "Missing required parameter: conversion_id"
  else
    .allowed

/-- The client identifier read by `checkRateLimit`. -/
def clientIP (request : Request) : String :=
  orElse (request.headers.get "CF-Connecting-IP") "unknown"

/-- The bucket index `Math.floor(Date.now() / (60 * 1000))`. -/
def bucket (now : Nat) : Nat := now / (60 * 1000)

/-- The template string of `checkRateLimit`: identifier, underscore, decimal bucket. -/
def rateKey (client : String) (b : Nat) : String := client ++ "_" ++ toString b

/-- The function `checkRateLimit`: the `allowed` flag and the state it leaves. A denied
call touches nothing; an allowed call stores the raised count and registers the timer
that deletes the key 60000 ms later. -/
def checkRateLimit (cfg : Config) (request : Request) (w : World) : Bool × World :=
  let clientIP := clientIP request
  let now := bucket w.now
  let key := rateKey clientIP now
  let currentCount := (mapGet w.rateLimitCache key).getD 0
  if currentCount ≥ cfg.rateLimitPerMinute then
    (false, w)
  else
    (true, { w with
      rateLimitCache := mapSet w.rateLimitCache key (currentCount + 1)
      timers := w.timers ++ [(w.now + 60000, key)] })

/-- The callback registered by `checkRateLimit`, run by the platform for the pending
timer at position `i` once the clock has reached its time. -/
def fireTimer (i : Nat) (w : World) : World :=
  match w.timers.get? i with
  | some (due, key) =>
    if due ≤ w.now then
      { w with rateLimitCache := mapDelete w.rateLimitCache key, timers := w.timers.eraseIdx i }
    else w
  | none => w

/-- The function `getTargetEndpoint`. -/
def getTargetEndpoint (cfg : Config) : Option String :=
  if cfg.productionEnabled then cfg.productionEndpoint
  else if cfg.developmentEnabled then cfg.developmentEndpoint
  else cfg.fallbackEndpoint

/-- The function `buildProxyRequest`; throws when the endpoint is not a URL (an unset
endpoint is converted to the string `undefined`). -/
def buildProxyRequest (env : Env) (originalRequest : Request)
    (targetEndpoint : Option String) (originalUrl : URL) : Except JsError Request :=
  match env.newURL (targetEndpoint.getD "undefined") with
  | .error e => .error e
  | .ok targetUrl =>
    let targetUrl :=
      { targetUrl with
        searchParams := copyParams targetUrl.searchParams originalUrl.searchParams.entries }
    let headers := originalRequest.headers
    let headers :=
      headers.set "X-Forwarded-For" (orElse (originalRequest.headers.get "CF-Connecting-IP") "unknown")
    let headers := headers.set "X-Forwarded-Proto" "https"
    let headers := headers.set "X-Forwarded-Host" originalUrl.hostname
    let headers := headers.set "X-Original-URL" originalUrl.toString
    let headers :=
      headers.set "User-Agent"
        (Headers.normalizeValue
          ("CloudflareWorkers-ByteC-Proxy/1.0 " ++ orElse (headers.get "User-Agent") ""))
    .ok { method := originalRequest.method
          url := targetUrl
          headers := headers
          body := if originalRequest.method = "POST" then originalRequest.body else none
          cfCountry := none }

/-- The function `forwardRequest`: one call to `fetch`; a transport failure is caught
and answered with a synthesized 503. -/
def forwardRequest (env : Env) (proxyRequest : Request) (w : World) :
    Except JsError Response × World :=
  let w := { w with fetched := w.fetched ++ [proxyRequest] }
  match env.fetch proxyRequest with
  | .ok response => (.ok response, w)
  | .error error =>
    (Response.create "Backend Service Unavailable" 503
        [("Content-Type", "text/plain"), ("X-Error-Type", "Backend-Connection-Failed")],
     { w with console := w.console ++ [.error "Forward Request Error:" error.message] })

/-- The function `addResponseHeaders`. -/
def addResponseHeaders (response : Response) : Response :=
  let newResponse :=
    Response.ofStream response.body response.status response.statusText response.headers.entries
  let h := newResponse.headers
  let h := h.set "Access-Control-Allow-Origin" "*"
  let h := h.set "Access-Control-Allow-Methods" "GET, POST, OPTIONS"
  let h := h.set "Access-Control-Allow-Headers" "Content-Type, Authorization"
  let h := h.set "X-Frame-Options" "DENY"
  let h := h.set "X-Content-Type-Options" "nosniff"
  let h := h.set "X-Proxy-By" "Cloudflare-Workers-ByteC"
  let h := h.set "X-Proxy-Version" "1.0.0"
  { newResponse with headers := h }

/-- The function `logRequest`: one console line. -/
def logRequest (request : Request) (response : Response) (targetEndpoint : Option String)
    (w : World) : World :=
  let logData : LogData :=
    { timestamp := w.now
      method := request.method
      url := request.url.toString
      target := targetEndpoint.getD "undefined"
      status := response.status
      duration := none
      userAgent := request.headers.get "User-Agent"
      clientIP := request.headers.get "CF-Connecting-IP"
      country := orElse request.cfCountry "unknown" }
  { w with console := w.console ++ [.log "ByteC Postback Proxy:" logData] }

/-- The body of the `try` block of `handleRequest`. -/
def tryBlock (env : Env) (cfg : Config) (request : Request) (url : URL) (w : World) :
    Except JsError Response × World :=
  match performSecurityChecks request with
  | .rejected status reason => (Response.create reason status [], w)
  | .allowed =>
    match checkRateLimit cfg request w with
    | (false, w) => (Response.create "Rate Limit Exceeded" 429 [], w)
    | (true, w) =>
      let targetEndpoint := getTargetEndpoint cfg
      match buildProxyRequest env request targetEndpoint url with
      | .error e => (.error e, w)
      | .ok proxyRequest =>
        match forwardRequest env proxyRequest w with
        | (.error e, w) => (.error e, w)
        | (.ok response, w) =>
          let finalResponse := addResponseHeaders response
          let w := logRequest request response targetEndpoint w
          (.ok finalResponse, w)

/-- The function `handleRequest`. An error thrown in the `try` block is answered by the
`catch` block; an error thrown by the constructor in the `catch` block leaves the
function. -/
def handleRequest (env : Env) (cfg : Config) (request : Request) (w : World) :
    Except JsError Response × World :=
  let url := request.url
  if !(startsWith url.pathname "/involve/event") then
    (Response.create "Not Found" 404 [], w)
  else
    match tryBlock env cfg request url w with
    | (.ok response, w) => (.ok response, w)
    | (.error error, w) =>
      (Response.create "Internal Server Error" 500
          [("Content-Type", "text/plain"), ("X-Error", error.message)],
       { w with console := w.console ++ [.error "Worker Error:" error.message] })

/-- The function `handleOptions`. -/
def handleOptions : Response :=
  Response.ofStream none 200 ""
    [("Access-Control-Allow-Origin", "*"),
     ("Access-Control-Allow-Methods", "GET, POST, OPTIONS"),
     ("Access-Control-Allow-Headers", "Content-Type, Authorization"),
     ("Access-Control-Max-Age", "86400")]

/-- Consecutive `checkRateLimit` calls, each at the clock value paired with it. -/
def checkRateLimits (cfg : Config) : List (Request × Nat) → World → List Bool × World
  | [], w => ([], w)
  | (request, t) :: rest, w =>
    let r := checkRateLimit cfg request { w with now := t }
    let rs := checkRateLimits cfg rest r.2
    (r.1 :: rs.1, rs.2)

/-- Consecutive `handleRequest` runs, each with its own platform outcome and clock. -/
def handleRequests (cfg : Config) :
    List (Env × Request × Nat) → World → List (Except JsError Response) × World
  | [], w => ([], w)
  | (env, request, t) :: rest, w =>
    let r := handleRequest env cfg request { w with now := t }
    let rs := handleRequests cfg rest r.2
    (r.1 :: rs.1, rs.2)

end Worker

/-! ## `cloudflare-worker-ready.js` -/

namespace Ready

/-- The constant `CONFIG` of `cloudflare-worker-ready.js`. -/
structure Config where
  ENVIRONMENT : String
  ENDPOINTS : List (String × Option String)
  allowedOrigins : List String
  rateLimitPerMinute : Nat
  requiredParams : List String
  loggingEnabled : Bool
  logLevel : String
  deriving DecidableEq, Repr

/-- The configuration as written in the source. -/
def CONFIG : Config :=
  { ENVIRONMENT := "development"
    ENDPOINTS :=
      [("development",
          some "https://tex-graphic-status-windsor.trycloudflare.com/postback/involve/event"),
       ("production", some "https://your-production-server.com/postback/involve/event"),
       ("fallback", some "https://httpbin.org/anything")]
    allowedOrigins := ["*"]
    rateLimitPerMinute := 500
    requiredParams := ["conversion_id"]
    loggingEnabled := true
    logLevel := "info" }

/-- The result object of `validateRequest`. -/
inductive Validation where
  | valid
  | invalid (error : String) (status : Nat)
  deriving DecidableEq, Repr

/-- The loop of `validateRequest` over the required parameters: the first absent one is
reported. -/
def firstMissing (url : URL) : List String → Option String
  | [] => none
  | param :: rest => if !(url.searchParams.has param) then some param else firstMissing url rest

/-- The function `validateRequest`. -/
def validateRequest (cfg : Config) (request : Request) (url : URL) : Validation :=
  if !(["GET", "POST"].contains request.method) then
    .invalid "Method not allowed" 405
  else
    match firstMissing url cfg.requiredParams with
    | some param => .invalid ("Missing required parameter: " ++ param) 400
    | none => .valid

/-- The result object of `checkRateLimit`. -/
structure RateLimitResult where
  allowed : Bool
  remaining : Nat
  deriving DecidableEq, Repr

/-- The function `checkRateLimit`: the client identifier is read and not used; every
call is allowed. -/
def checkRateLimit (cfg : Config) (_request : Request) : RateLimitResult :=
  { allowed := true, remaining := cfg.rateLimitPerMinute }

/-- The endpoint expression of `buildProxyUrl`:
`CONFIG.ENDPOINTS[CONFIG.ENVIRONMENT] || CONFIG.ENDPOINTS.fallback`. -/
def selectEndpoint (cfg : Config) : JsVal :=
  (getProperty cfg.ENDPOINTS cfg.ENVIRONMENT).or (getProperty cfg.ENDPOINTS "fallback")

/-- The function `buildProxyUrl`; throws when the endpoint is not a URL. The result is
kept in parsed form. -/
def buildProxyUrl (env : Env) (cfg : Config) (originalUrl : URL) : Except JsError URL :=
  let endpoint := selectEndpoint cfg
  match env.newURL endpoint.toStr with
  | .error e => .error e
  | .ok proxyUrl =>
    .ok { proxyUrl with
          searchParams := copyParams proxyUrl.searchParams originalUrl.searchParams.entries }

/-- The function `buildProxyRequest`. -/
def buildProxyRequest (originalRequest : Request) (proxyUrl : URL) : Request :=
  let headers := originalRequest.headers
  let headers :=
    headers.set "X-Forwarded-For" (orElse (originalRequest.headers.get "CF-Connecting-IP") "unknown")
  let headers := headers.set "X-Forwarded-Proto" "https"
  let headers := headers.set "X-Forwarded-Host" originalRequest.url.hostname
  let headers := headers.set "X-Original-URL" originalRequest.url.toString
  let headers := headers.set "X-Worker-Proxy" "ByteC-Network-v1.0"
  { method := originalRequest.method
    url := proxyUrl
    headers := headers
    body := if originalRequest.method = "POST" then originalRequest.body else none
    cfCountry := none }

/-- The function `processResponse`. -/
def processResponse (response : Response) : Response :=
  let newResponse :=
    Response.ofStream response.body response.status response.statusText response.headers.entries
  let h := newResponse.headers
  let h := h.set "Access-Control-Allow-Origin" "*"
  let h := h.set "Access-Control-Allow-Methods" "GET, POST, OPTIONS"
  let h := h.set "Access-Control-Allow-Headers" "Content-Type, Authorization"
  let h := h.set "X-Powered-By" "Cloudflare-Workers"
  let h := h.set "X-ByteC-Proxy" "Active"
  { newResponse with headers := h }

/-- The function `createErrorResponse`. -/
def createErrorResponse (message : String) (status : Nat)
    (extraHeaders : List (String × String)) : Except JsError Response :=
  let headers :=
    spread
      [("Content-Type", "text/plain"), ("Access-Control-Allow-Origin", "*"), ("X-Error", "true")]
      extraHeaders
  Response.create message status headers

/-- The function `logRequest`. -/
def logRequest (cfg : Config) (request : Request) (response : Response) (proxyUrl : URL)
    (duration : Nat) (w : World) : World :=
  if !cfg.loggingEnabled then w
  else
    let logData : LogData :=
      { timestamp := w.now
        method := request.method
        url := request.url.toString
        target := proxyUrl.toString
        status := response.status
        duration := some duration
        userAgent := some (orElse (request.headers.get "User-Agent") "unknown")
        clientIP := some (orElse (request.headers.get "CF-Connecting-IP") "unknown")
        country := orElse (request.headers.get "CF-IPCountry") "unknown" }
    { w with console := w.console ++ [.log "📊 请求日志:" logData] }

/-- The function `logError`. -/
def logError (error : JsError) (request : Request) (duration : Nat) (w : World) : World :=
  let errorLog : ErrorLog :=
    { timestamp := w.now
      error := error.message
      url := request.url.toString
      method := request.method
      duration := duration }
  { w with console := w.console ++ [.errorLog "❌ 错误日志:" errorLog] }

/-- The body of the `try` block of `handleRequest`. -/
def tryBlock (env : Env) (cfg : Config) (request : Request) (url : URL) (startTime : Nat)
    (w : World) : Except JsError Response × World :=
  match validateRequest cfg request url with
  | .invalid error status => (createErrorResponse error status [], w)
  | .valid =>
    let rateLimitResult := checkRateLimit cfg request
    if !rateLimitResult.allowed then
      (createErrorResponse "Rate limit exceeded" 429 [], w)
    else
      match buildProxyUrl env cfg url with
      | .error e => (.error e, w)
      | .ok proxyUrl =>
        let proxyRequest := buildProxyRequest request proxyUrl
        let w := { w with fetched := w.fetched ++ [proxyRequest] }
        match env.fetch proxyRequest with
        | .error e => (.error e, w)
        | .ok response =>
          let finalResponse := processResponse response
          let w := logRequest cfg request response proxyUrl (w.now - startTime) w
          (.ok finalResponse, w)

/-- The function `handleRequest`. An error thrown in the `try` block is answered by the
`catch` block; an error thrown by `createErrorResponse` in the `catch` block leaves the
function. -/
def handleRequest (env : Env) (cfg : Config) (request : Request) (w : World) :
    Except JsError Response × World :=
  let startTime := w.now
  let url := request.url
  if !(includes url.pathname "/involve/event") then
    (createErrorResponse "Path not found" 404 [], w)
  else
    match tryBlock env cfg request url startTime w with
    | (.ok response, w) => (.ok response, w)
    | (.error error, w) =>
      let w := { w with console := w.console ++ [.error "❌ Worker处理错误:" error.message] }
      let w := logError error request (w.now - startTime) w
      (createErrorResponse "Internal server error" 500
          [("X-Error-Message", error.message), ("X-Worker-Version", "1.0.0")], w)

/-- The function `handleOptions`; nothing in the file calls it. -/
def handleOptions : Response :=
  Response.ofStream none 200 ""
    [("Access-Control-Allow-Origin", "*"),
     ("Access-Control-Allow-Methods", "GET, POST, OPTIONS"),
     ("Access-Control-Allow-Headers", "Content-Type, Authorization"),
     ("Access-Control-Max-Age", "86400")]

/-- Consecutive `handleRequest` runs, each with its own platform outcome and clock. -/
def handleRequests (cfg : Config) :
    List (Env × Request × Nat) → World → List (Except JsError Response) × World
  | [], w => ([], w)
  | (env, request, t) :: rest, w =>
    let r := handleRequest env cfg request { w with now := t }
    let rs := handleRequests cfg rest r.2
    (r.1 :: rs.1, rs.2)

end Ready

/-! ## Vocabulary of the statements and sample inputs -/

/-- A process that has handled nothing yet, at clock value 0. -/
def emptyWorld : World :=
  { now := 0, rateLimitCache := [], timers := [], fetched := [], console := [] }

/-- The inbound URL `https://network.bytec.com` + `path` with the given query pairs. -/
def inboundUrl (path : String) (query : List (String × String)) : URL :=
  { protocol := "https:", hostname := "network.bytec.com", port := "", pathname := path,
    searchParams := ⟨query⟩ }

/-- A request without body from the client at 203.0.113.7. -/
def sampleRequest (method path : String) (query : List (String × String)) : Request :=
  { method := method
    url := inboundUrl path query
    headers := ⟨[("CF-Connecting-IP", "203.0.113.7"), ("Accept", "*/*")]⟩
    body := none
    cfCountry := none }

/-- The request `GET /involve/event?conversion_id=abc123`. -/
def sampleGet : Request := sampleRequest "GET" "/involve/event" [("conversion_id", "abc123")]

/-- The URL constructor on the endpoints the two configurations name: each parses to its
host and path, any other string is rejected. -/
def sampleNewURL (s : String) : Except JsError URL :=
  if s = "https://your-ngrok-url.ngrok.io/postback/involve/event" then
    .ok { protocol := "https:", hostname := "your-ngrok-url.ngrok.io", port := "",
          pathname := "/postback/involve/event", searchParams := ⟨[]⟩ }
  else if s = "https://tex-graphic-status-windsor.trycloudflare.com/postback/involve/event" then
    .ok { protocol := "https:", hostname := "tex-graphic-status-windsor.trycloudflare.com",
          port := "", pathname := "/postback/involve/event", searchParams := ⟨[]⟩ }
  else if s = "https://your-production-server.com/postback/involve/event" then
    .ok { protocol := "https:", hostname := "your-production-server.com", port := "",
          pathname := "/postback/involve/event", searchParams := ⟨[]⟩ }
  else if s = "https://httpbin.org/anything" then
    .ok { protocol := "https:", hostname := "httpbin.org", port := "",
          pathname := "/anything", searchParams := ⟨[]⟩ }
  else .error ⟨"Invalid URL"⟩

/-- A platform whose backend answers every request with `response`. -/
def backendAnswering (response : Response) : Env :=
  { newURL := sampleNewURL, fetch := fun _ => .ok response }

/-- A platform whose backend cannot be reached. -/
def backendDown : Env :=
  { newURL := sampleNewURL, fetch := fun _ => .error ⟨"connect ECONNREFUSED"⟩ }

/-- A platform whose URL constructor throws an error with the given message. -/
def brokenUrl (message : String) : Env :=
  { newURL := fun _ => .error ⟨message⟩, fetch := fun _ => .ok ⟨200, "OK", ⟨[]⟩, some "OK"⟩ }

/-- A backend response `200 OK` with body `OK`. -/
def okResponse : Response := Response.ofStream (some "OK") 200 "OK" [("Server", "nginx")]

/-- A backend response `404 Not Found`. -/
def notFoundResponse : Response :=
  Response.ofStream (some "unknown offer") 404 "Not Found" [("Server", "nginx")]

/-- A backend response `429 Too Many Requests`. -/
def busyResponse : Response :=
  Response.ofStream (some "slow down") 429 "Too Many Requests" [("Retry-After", "30")]

/-- The request `buildProxyRequest` of `cloudflare-worker.js` builds from `sampleGet` for
the development endpoint. -/
def sampleOutbound : Request :=
  { method := "GET"
    url :=
      { protocol := "https:", hostname := "your-ngrok-url.ngrok.io", port := "",
        pathname := "/postback/involve/event",
        searchParams := ⟨[("conversion_id", "abc123")]⟩ }
    headers :=
      ⟨[("CF-Connecting-IP", "203.0.113.7"), ("Accept", "*/*"),
        ("X-Forwarded-For", "203.0.113.7"), ("X-Forwarded-Proto", "https"),
        ("X-Forwarded-Host", "network.bytec.com"),
        ("X-Original-URL", "https://network.bytec.com/involve/event?conversion_id=abc123"),
        ("User-Agent", "CloudflareWorkers-ByteC-Proxy/1.0")]⟩
    body := none
    cfCountry := none }

/-- The request `POST /involve/event?conversion_id=abc123` with a body. -/
def samplePost : Request :=
  { sampleGet with method := "POST", body := some "payout=1.50" }

/-- The request `buildProxyRequest` of `cloudflare-worker.js` builds from `samplePost`. -/
def samplePostOutbound : Request :=
  { sampleOutbound with method := "POST", body := some "payout=1.50" }

namespace Worker

/-- The count `checkRateLimit` reads for a client and bucket. -/
def countOf (w : World) (cid : String) (b : Nat) : Nat :=
  (mapGet w.rateLimitCache (rateKey cid b)).getD 0

/-- The request passes the path test and the security checks of `handleRequest`. -/
def Admissible (request : Request) : Prop :=
  startsWith request.url.pathname "/involve/event" = true ∧
    performSecurityChecks request = .allowed

/-- The response of the rate limiter's rejection. -/
def rateLimited : Response := Response.ofText "Rate Limit Exceeded" 429 []

/-- What happens to the process over time: a `checkRateLimit` call at the current clock
value, the platform running the pending timer at a position (a timer not yet due stays
pending), or the clock moving on to a later value. -/
inductive Event where
  | call (request : Request)
  | fire (i : Nat)
  | tick (t : Nat)
  deriving DecidableEq, Repr

/-- The state after one event; the clock never goes back. -/
def step (cfg : Config) (w : World) : Event → World
  | .call request => (checkRateLimit cfg request w).2
  | .fire i => fireTimer i w
  | .tick t => { w with now := max w.now t }

/-- The state after a sequence of events. -/
def run (cfg : Config) : List Event → World → World
  | [], w => w
  | ev :: rest, w => run cfg rest (step cfg w ev)

/-- One when the event is a call of client `cid`, made in state `w` while the clock is in
bucket `b`, that `checkRateLimit` allows; zero otherwise. -/
def allowedNow (cfg : Config) (w : World) (cid : String) (b : Nat) : Event → Nat
  | .call request =>
    if clientIP request = cid ∧ bucket w.now = b ∧ (checkRateLimit cfg request w).1 = true
    then 1 else 0
  | .fire _ => 0
  | .tick _ => 0

/-- The number of calls of client `cid` made while the clock was in bucket `b` that
`checkRateLimit` allowed, along a sequence of events from `w`. -/
def allowedCalls (cfg : Config) : List Event → World → String → Nat → Nat
  | [], _, _, _ => 0
  | ev :: rest, w, cid, b =>
    allowedNow cfg w cid b ev + allowedCalls cfg rest (step cfg w ev) cid b

/-- Every pending timer is due no earlier than the end of the bucket of its key. -/
def TimersLate (w : World) : Prop :=
  ∀ due key, (due, key) ∈ w.timers → ∃ c b, key = rateKey c b ∧ (b + 1) * 60000 ≤ due

/-- The outcome of `handleRequest` for an admitted request: that of the constructor in
the `catch` block, the normalised backend response, or the normalised 503 of
`forwardRequest`. -/
def admittedResponse (env : Env) (cfg : Config) (request : Request) :
    Except JsError Response :=
  match buildProxyRequest env request (getTargetEndpoint cfg) request.url with
  | .error error =>
    Response.create "Internal Server Error" 500
      [("Content-Type", "text/plain"), ("X-Error", error.message)]
  | .ok proxyRequest =>
    match env.fetch proxyRequest with
    | .ok response => .ok (addResponseHeaders response)
    | .error _ =>
      .ok (addResponseHeaders (Response.ofText "Backend Service Unavailable" 503
        [("Content-Type", "text/plain"), ("X-Error-Type", "Backend-Connection-Failed")]))


/-- The source configuration with production switched on and its endpoint left unset. -/
def unsetProductionConfig : Config :=
  { CONFIG with productionEnabled := true, developmentEnabled := false,
                productionEndpoint := none }

end Worker

namespace Ready

/-- The source configuration with the environment key `constructor`, which names no entry
of the endpoints table. -/
def inheritedKeyConfig : Config := { CONFIG with ENVIRONMENT := "constructor" }

/-- The request passes the path test and the validation of `handleRequest`. -/
def Admissible (cfg : Config) (request : Request) : Prop :=
  includes request.url.pathname "/involve/event" = true ∧
    validateRequest cfg request request.url = .valid

/-- The response `handleRequest` would give if `checkRateLimit` denied: the one
`createErrorResponse` builds for `Rate limit exceeded` and 429. -/
def rateLimited : Response :=
  Response.ofText "Rate limit exceeded" 429
    [("Content-Type", "text/plain"), ("Access-Control-Allow-Origin", "*"), ("X-Error", "true")]

end Ready

/-! ## The rate-limit map -/

theorem mapGet_mapSet_self (m : List (String × Nat)) (key : String) (v : Nat) :
    mapGet (mapSet m key v) key = some v := by
  induction m with
  | nil => simp [mapSet, mapGet]
  | cons e t ih =>
    obtain ⟨k, x⟩ := e
    by_cases h : k = key
    · simp [mapSet, mapGet, h]
    · have ih2 := ih
      simp only [mapGet] at ih2 ⊢
      simp [mapSet, h, List.find?_cons, ih2]

theorem mapGet_mapSet_other (m : List (String × Nat)) (key other : String) (v : Nat)
    (h : other ≠ key) : mapGet (mapSet m key v) other = mapGet m other := by
  induction m with
  | nil =>
    have h2 : ¬ key = other := fun e => h e.symm
    simp [mapSet, mapGet, h2]
  | cons e t ih =>
    obtain ⟨k, x⟩ := e
    by_cases hk : k = key
    · subst hk
      have h2 : ¬ k = other := fun e => h e.symm
      simp [mapSet, mapGet, List.find?_cons, h2]
    · simp only [mapGet] at ih ⊢
      by_cases ho : k = other
      · subst ho
        simp [mapSet, hk, List.find?_cons]
      · simp [mapSet, hk, List.find?_cons, ho, ih]

/-! ## The rate limiter of `cloudflare-worker.js` -/

namespace Worker

theorem checkRateLimit_allowed (cfg : Config) (request : Request) (w : World)
    (h : countOf w (clientIP request) (bucket w.now) < cfg.rateLimitPerMinute) :
    checkRateLimit cfg request w =
      (true, { w with
        rateLimitCache :=
          mapSet w.rateLimitCache (rateKey (clientIP request) (bucket w.now))
            (countOf w (clientIP request) (bucket w.now) + 1)
        timers := w.timers ++ [(w.now + 60000, rateKey (clientIP request) (bucket w.now))] }) := by
  unfold checkRateLimit
  simp only [countOf] at h ⊢
  rw [if_neg (by omega)]

theorem checkRateLimit_denied (cfg : Config) (request : Request) (w : World)
    (h : cfg.rateLimitPerMinute ≤ countOf w (clientIP request) (bucket w.now)) :
    checkRateLimit cfg request w = (false, w) := by
  unfold checkRateLimit
  simp only [countOf] at h ⊢
  rw [if_pos (by omega)]


theorem countOf_now (w : World) (t : Nat) (cid : String) (b : Nat) :
    countOf { w with now := t } cid b = countOf w cid b := rfl

/-- The count of the calling client after one `checkRateLimit` call. -/
theorem countOf_checkRateLimit (cfg : Config) (request : Request) (w : World) :
    countOf (checkRateLimit cfg request w).2 (clientIP request) (bucket w.now) =
      if countOf w (clientIP request) (bucket w.now) < cfg.rateLimitPerMinute then
        countOf w (clientIP request) (bucket w.now) + 1
      else countOf w (clientIP request) (bucket w.now) := by
  by_cases h : countOf w (clientIP request) (bucket w.now) < cfg.rateLimitPerMinute
  · rw [checkRateLimit_allowed cfg request w h, if_pos h]
    simp [countOf, mapGet_mapSet_self]
  · rw [checkRateLimit_denied cfg request w (by omega), if_neg h]

theorem checkRateLimit_fst (cfg : Config) (request : Request) (w : World) :
    (checkRateLimit cfg request w).1 =
      decide (countOf w (clientIP request) (bucket w.now) < cfg.rateLimitPerMinute) := by
  by_cases h : countOf w (clientIP request) (bucket w.now) < cfg.rateLimitPerMinute
  · rw [checkRateLimit_allowed cfg request w h]; simp [h]
  · rw [checkRateLimit_denied cfg request w (by omega)]; simp [h]

/-- Results of consecutive calls of one client in one bucket, from a count of `c`. -/
theorem checkRateLimits_fst (cfg : Config) (cid : String) (b : Nat) :
    ∀ (calls : List (Request × Nat)) (w : World),
      (∀ c ∈ calls, clientIP c.1 = cid ∧ bucket c.2 = b) →
      (checkRateLimits cfg calls w).1 =
        (List.range calls.length).map
          (fun i => decide (countOf w cid b + i < cfg.rateLimitPerMinute)) := by
  intro calls
  induction calls with
  | nil => intro w _; simp [checkRateLimits]
  | cons c rest ih =>
    intro w hall
    obtain ⟨request, t⟩ := c
    have hc := hall (request, t) (List.mem_cons_self _ _)
    simp only at hc
    obtain ⟨hcid, hb⟩ := hc
    have hrest : ∀ c ∈ rest, clientIP c.1 = cid ∧ bucket c.2 = b :=
      fun c hc => hall c (List.mem_cons_of_mem _ hc)
    simp only [checkRateLimits, List.length_cons, List.range_succ_eq_map, List.map_cons,
      List.map_map]
    rw [ih _ hrest, checkRateLimit_fst]
    have hcount := countOf_checkRateLimit cfg request { w with now := t }
    simp only [hcid, hb, countOf_now] at hcount ⊢
    congr 1
    apply List.map_congr_left
    intro i _
    simp only [Function.comp, hcount]
    split_ifs with h
    · congr 1; apply propext; constructor <;> intro h2 <;> omega
    · simp only [decide_eq_decide]; constructor <;> intro h2 <;> omega

end Worker

/-- Without headers the constructor has nothing to check. -/
theorem Response.create_nil (text : String) (status : Nat) :
    Response.create text status [] = .ok (Response.ofText text status []) := rfl

/-- The constructor returns when every normalised value is a header value: the response
then carries the normalised values. -/
theorem Response.create_of_valid (text : String) (status : Nat)
    (headers : List (String × String))
    (h : ∀ p ∈ headers, Headers.validValue (Headers.normalizeValue p.2) = true) :
    Response.create text status headers
      = .ok (Response.ofText text status
          (headers.map (fun p => (p.1, Headers.normalizeValue p.2)))) := by
  have hall : (headers.map (fun p => (p.1, Headers.normalizeValue p.2))).all
      (fun p => Headers.validValue p.2) = true := by
    rw [List.all_eq_true]
    intro q hq
    obtain ⟨p, hp, rfl⟩ := List.mem_map.1 hq
    exact h p hp
  simp only [Response.create, hall, if_true]

/-- The constructor throws when some normalised value is not a header value. -/
theorem Response.create_of_invalid (text : String) (status : Nat)
    (headers : List (String × String)) (p : String × String) (hp : p ∈ headers)
    (h : Headers.validValue (Headers.normalizeValue p.2) = false) :
    Response.create text status headers = .error ⟨"Invalid header value"⟩ := by
  have hall : (headers.map (fun p => (p.1, Headers.normalizeValue p.2))).all
      (fun p => Headers.validValue p.2) = false := by
    rw [List.all_eq_false]
    exact ⟨(p.1, Headers.normalizeValue p.2), List.mem_map.2 ⟨p, hp, rfl⟩, by simp [h]⟩
  simp only [Response.create, hall, Bool.false_eq_true, if_false]

/-- What the constructor returns has the status and the body it was given. -/
theorem Response.create_ok (text : String) (status : Nat) (headers : List (String × String))
    (r : Response) (h : Response.create text status headers = .ok r) :
    r = Response.ofText text status (headers.map (fun p => (p.1, Headers.normalizeValue p.2))) ∧
    r.status = status ∧ r.body = some text := by
  simp only [Response.create] at h
  split_ifs at h
  simp only [Except.ok.injEq] at h
  subst h
  exact ⟨rfl, rfl, rfl⟩

namespace Worker

/-- The 503 of `forwardRequest` is built from literal header values. -/
theorem unavailable_created :
    Response.create "Backend Service Unavailable" 503
        [("Content-Type", "text/plain"), ("X-Error-Type", "Backend-Connection-Failed")]
      = .ok (Response.ofText "Backend Service Unavailable" 503
          [("Content-Type", "text/plain"), ("X-Error-Type", "Backend-Connection-Failed")]) := by
  decide

theorem handleRequest_denied (env : Env) (cfg : Config) (request : Request) (w : World)
    (hadm : Admissible request) (h : (checkRateLimit cfg request w).1 = false) :
    handleRequest env cfg request w = (.ok rateLimited, w) := by
  obtain ⟨hp, hs⟩ := hadm
  have hw : checkRateLimit cfg request w = (false, w) := by
    rw [checkRateLimit_fst] at h
    exact checkRateLimit_denied cfg request w (by simpa using h)
  simp [handleRequest, hp, tryBlock, hs, hw, rateLimited, Response.create_nil]

/-- The world an admitted request leaves differs from the one `checkRateLimit` leaves
only in `fetched` and `console`; the outcome is the normalised backend response, the
synthesized 503, or that of the constructor in the `catch` block. -/
theorem handleRequest_admitted (env : Env) (cfg : Config) (request : Request) (w : World)
    (hadm : Admissible request) (h : (checkRateLimit cfg request w).1 = true) :
    (handleRequest env cfg request w).2.rateLimitCache
        = (checkRateLimit cfg request w).2.rateLimitCache ∧
    (handleRequest env cfg request w).2.timers = (checkRateLimit cfg request w).2.timers ∧
    (handleRequest env cfg request w).1 =
      match buildProxyRequest env request (getTargetEndpoint cfg) request.url with
      | .error error =>
        Response.create "Internal Server Error" 500
          [("Content-Type", "text/plain"), ("X-Error", error.message)]
      | .ok proxyRequest =>
        match env.fetch proxyRequest with
        | .ok response => .ok (addResponseHeaders response)
        | .error _ =>
          .ok (addResponseHeaders (Response.ofText "Backend Service Unavailable" 503
            [("Content-Type", "text/plain"), ("X-Error-Type", "Backend-Connection-Failed")])) := by
  obtain ⟨hp, hs⟩ := hadm
  rcases hw : checkRateLimit cfg request w with ⟨a, w1⟩
  rw [hw] at h
  simp only at h
  subst h
  simp only [handleRequest, hp, tryBlock, hs, hw, Bool.not_true, Bool.false_eq_true, if_false]
  cases hb : buildProxyRequest env request (getTargetEndpoint cfg) request.url with
  | error e => simp
  | ok p =>
    simp only [forwardRequest]
    cases hf : env.fetch p with
    | error e => simp [logRequest, unavailable_created]
    | ok r => simp [logRequest]

end Worker

theorem Headers.sameName_refl (n : String) : Headers.sameName n n = true := by
  simp [Headers.sameName]

theorem Headers.has_set (h : Headers) (name value : String) :
    (h.set name value).has name = true := by
  obtain ⟨l⟩ := h
  simp only [Headers.set, Headers.has]
  induction l with
  | nil => simp [Headers.setEntries, Headers.sameName_refl]
  | cons e t ih =>
    obtain ⟨k, x⟩ := e
    by_cases hk : Headers.sameName k name = true
    · simp [Headers.setEntries, hk]
    · have hs : Headers.setEntries ((k, x) :: t) name value
          = (k, x) :: Headers.setEntries t name value := by
        simp [Headers.setEntries, hk]
      rw [hs, List.any_cons, ih, Bool.or_true]

theorem Headers.has_set_of_has (h : Headers) (name value other : String)
    (ho : h.has other = true) : (h.set name value).has other = true := by
  obtain ⟨l⟩ := h
  simp only [Headers.set, Headers.has] at ho ⊢
  induction l with
  | nil => simp at ho
  | cons e t ih =>
    obtain ⟨k, x⟩ := e
    by_cases hk : Headers.sameName k name = true
    · simp only [Headers.setEntries, hk, if_true, List.any_cons] at ho ⊢
      by_cases hko : Headers.sameName k other = true
      · simp [hko]
      · simp only [hko, Bool.false_or] at ho ⊢
        rw [List.any_eq_true] at ho ⊢
        obtain ⟨p, hp, hpo⟩ := ho
        refine ⟨p, ?_, hpo⟩
        rw [List.mem_filter]
        refine ⟨hp, ?_⟩
        have : Headers.sameName p.1 name = false := by
          by_contra hc
          simp only [Bool.not_eq_false] at hc
          apply hko
          simp only [Headers.sameName, beq_iff_eq] at hk hc hpo ⊢
          rw [hk, ← hc, hpo]
        simp [this]
    · have hs : Headers.setEntries ((k, x) :: t) name value
          = (k, x) :: Headers.setEntries t name value := by
        simp [Headers.setEntries, hk]
      rw [hs, List.any_cons]
      rw [List.any_cons] at ho
      by_cases hko : Headers.sameName k other = true
      · rw [hko, Bool.true_or]
      · simp only [hko, Bool.false_or] at ho
        rw [ih ho, Bool.or_true]

namespace Worker


theorem addResponseHeaders_status (r : Response) : (addResponseHeaders r).status = r.status := rfl

theorem addResponseHeaders_has (r : Response) :
    (addResponseHeaders r).headers.has "X-Proxy-Version" = true := by
  simp only [addResponseHeaders]
  exact Headers.has_set _ _ _

theorem admittedResponse_ne (env : Env) (cfg : Config) (request : Request) :
    admittedResponse env cfg request ≠ .ok rateLimited := by
  unfold admittedResponse
  have key : ∀ r, (Except.ok (addResponseHeaders r) : Except JsError Response)
      ≠ .ok rateLimited := by
    intro r h
    simp only [Except.ok.injEq] at h
    have h1 := addResponseHeaders_has r
    rw [h] at h1
    revert h1
    decide
  split
  · intro h
    have := (Response.create_ok _ _ _ _ h).2.1
    simp [Response.ofText, rateLimited] at this
  · split
    · exact key _
    · exact key _

/-- An admitted request is answered 429 only when the backend answers the request built
from it with 429. -/
theorem admittedResponse_status (env : Env) (cfg : Config) (request : Request)
    (resp : Response) (hresp : admittedResponse env cfg request = .ok resp)
    (h : resp.status = 429) :
    ∃ p r, buildProxyRequest env request (getTargetEndpoint cfg) request.url = .ok p ∧
      env.fetch p = .ok r ∧ r.status = 429 := by
  unfold admittedResponse at hresp
  split at hresp
  · have := (Response.create_ok _ _ _ _ hresp).2.1
    omega
  · rename_i p hp
    split at hresp
    · rename_i r hr
      simp only [Except.ok.injEq] at hresp
      subst hresp
      exact ⟨p, r, hp, hr, by simpa [addResponseHeaders_status] using h⟩
    · simp only [Except.ok.injEq] at hresp
      subst hresp
      simp [addResponseHeaders_status, Response.ofText] at h

theorem handleRequest_fst (env : Env) (cfg : Config) (request : Request) (w : World)
    (hadm : Admissible request) :
    (handleRequest env cfg request w).1 =
      if countOf w (clientIP request) (bucket w.now) < cfg.rateLimitPerMinute then
        admittedResponse env cfg request
      else .ok rateLimited := by
  by_cases h : countOf w (clientIP request) (bucket w.now) < cfg.rateLimitPerMinute
  · rw [if_pos h]
    rw [(handleRequest_admitted env cfg request w hadm
      (by rw [checkRateLimit_fst]; simpa using h)).2.2]
    rfl
  · rw [if_neg h, handleRequest_denied env cfg request w hadm
      (by rw [checkRateLimit_fst]; simpa using h)]

theorem countOf_handleRequest (env : Env) (cfg : Config) (request : Request) (w : World)
    (hadm : Admissible request) :
    countOf (handleRequest env cfg request w).2 (clientIP request) (bucket w.now) =
      if countOf w (clientIP request) (bucket w.now) < cfg.rateLimitPerMinute then
        countOf w (clientIP request) (bucket w.now) + 1
      else countOf w (clientIP request) (bucket w.now) := by
  rw [← countOf_checkRateLimit]
  by_cases h : countOf w (clientIP request) (bucket w.now) < cfg.rateLimitPerMinute
  · have h1 := (handleRequest_admitted env cfg request w hadm
      (by rw [checkRateLimit_fst]; simpa using h)).1
    simp only [countOf, h1]
  · rw [handleRequest_denied env cfg request w hadm (by rw [checkRateLimit_fst]; simpa using h),
      checkRateLimit_denied cfg request w (by omega)]

/-- The responses of consecutive admissible requests of one client in one bucket. -/
theorem handleRequests_getElem (cfg : Config) (cid : String) (b : Nat) :
    ∀ (runs : List (Env × Request × Nat)) (w : World),
      (∀ c ∈ runs, Admissible c.2.1 ∧ clientIP c.2.1 = cid ∧ bucket c.2.2 = b) →
      ∀ i : Nat, (handleRequests cfg runs w).1[i]? =
        (runs[i]?).map (fun c =>
          if countOf w cid b + i < cfg.rateLimitPerMinute then admittedResponse c.1 cfg c.2.1
          else .ok rateLimited) := by
  intro runs
  induction runs with
  | nil => intro w _ i; simp [handleRequests]
  | cons c rest ih =>
    intro w hall i
    obtain ⟨env, request, t⟩ := c
    obtain ⟨hadm, hcid, hb⟩ := hall (env, request, t) (List.mem_cons_self _ _)
    simp only at hadm hcid hb
    have hrest : ∀ c ∈ rest, Admissible c.2.1 ∧ clientIP c.2.1 = cid ∧ bucket c.2.2 = b :=
      fun c hc => hall c (List.mem_cons_of_mem _ hc)
    have hfst := handleRequest_fst env cfg request { w with now := t } hadm
    have hcount := countOf_handleRequest env cfg request { w with now := t } hadm
    simp only [hcid, hb, countOf_now] at hfst hcount
    cases i with
    | zero => simp [handleRequests, hfst]
    | succ j =>
      simp only [handleRequests, List.getElem?_cons_succ]
      rw [ih _ hrest j, hcount]
      cases rest[j]? with
      | none => rfl
      | some c =>
        simp only [Option.map_some']
        congr 1
        split_ifs <;> first | rfl | omega


/-- C1 (amended). In `cloudflare-worker.js`, with `L = rateLimitPerMinute`: from a cache
without an entry for the key of client `cid` and bucket `b`, in every run of consecutive
`checkRateLimit` calls of that client in that bucket the calls number 1 to `L` return
allowed and every later call, the one numbered `L + 1` first, returns denied; in every
run of consecutive admissible requests, each request after the `L`-th is answered with
the rate limiter's 429, and each of the first `L` has an outcome that is not that
rejection: a response with status 429 only if the backend answered 429 to the request
`buildProxyRequest` built from it. -/
theorem rate_limit_window (cfg : Config) (cid : String) (b : Nat) (w : World)
    (calls : List (Request × Nat)) (runs : List (Env × Request × Nat))
    (hfresh : mapGet w.rateLimitCache (rateKey cid b) = none)
    (hcalls : ∀ c ∈ calls, clientIP c.1 = cid ∧ bucket c.2 = b)
    (hruns : ∀ c ∈ runs, Admissible c.2.1 ∧ clientIP c.2.1 = cid ∧ bucket c.2.2 = b) :
    (checkRateLimits cfg calls w).1
      = (List.range calls.length).map (fun i => decide (i < cfg.rateLimitPerMinute)) ∧
    (∀ i, cfg.rateLimitPerMinute ≤ i → i < runs.length →
      (handleRequests cfg runs w).1[i]?
        = some (.ok (Response.ofText "Rate Limit Exceeded" 429 []))) ∧
    (∀ i, i < cfg.rateLimitPerMinute → i < runs.length →
      ∃ env request t res,
        runs[i]? = some (env, request, t) ∧
        (handleRequests cfg runs w).1[i]? = some res ∧
        res ≠ .ok (Response.ofText "Rate Limit Exceeded" 429 []) ∧
        (∀ resp, res = .ok resp → resp.status = 429 →
          ∃ p r,
            buildProxyRequest env request (getTargetEndpoint cfg) request.url = .ok p ∧
            env.fetch p = .ok r ∧ r.status = 429)) := by
  have hc0 : countOf w cid b = 0 := by simp [countOf, hfresh]
  refine ⟨?_, ?_, ?_⟩
  · rw [checkRateLimits_fst cfg cid b calls w hcalls, hc0]
    simp only [Nat.zero_add]
  · intro i hi hlt
    rw [handleRequests_getElem cfg cid b runs w hruns, hc0, List.getElem?_eq_getElem hlt,
      Option.map_some', if_neg (by omega)]
    rfl
  · intro i hi hlt
    have hget : runs[i]? = some runs[i] := List.getElem?_eq_getElem hlt
    refine ⟨runs[i].1, runs[i].2.1, runs[i].2.2,
      admittedResponse runs[i].1 cfg runs[i].2.1, hget, ?_, ?_, ?_⟩
    · rw [handleRequests_getElem cfg cid b runs w hruns, hc0, hget, Option.map_some',
        if_pos (by omega)]
    · exact admittedResponse_ne _ _ _
    · intro resp hresp h429
      exact admittedResponse_status _ _ _ resp hresp h429

/-- C1, a concrete window: 1001 requests `GET /involve/event?conversion_id=abc123` of
the client 203.0.113.7 at clock value 0, with a backend answering 200, from an empty
cache and the configured limit of 1000. -/
theorem rate_limit_window_witness :
    (checkRateLimits CONFIG (List.replicate 1001 (sampleGet, 0)) emptyWorld).1
      = (List.range (List.replicate 1001 (sampleGet, 0)).length).map
          (fun i => decide (i < CONFIG.rateLimitPerMinute)) ∧
    (∀ i, CONFIG.rateLimitPerMinute ≤ i →
      i < (List.replicate 1001 (backendAnswering okResponse, sampleGet, 0)).length →
      (handleRequests CONFIG
          (List.replicate 1001 (backendAnswering okResponse, sampleGet, 0)) emptyWorld).1[i]?
        = some (.ok (Response.ofText "Rate Limit Exceeded" 429 []))) ∧
    (∀ i, i < CONFIG.rateLimitPerMinute →
      i < (List.replicate 1001 (backendAnswering okResponse, sampleGet, 0)).length →
      ∃ env request t res,
        (List.replicate 1001 (backendAnswering okResponse, sampleGet, 0))[i]?
          = some (env, request, t) ∧
        (handleRequests CONFIG
            (List.replicate 1001 (backendAnswering okResponse, sampleGet, 0)) emptyWorld).1[i]?
          = some res ∧
        res ≠ .ok (Response.ofText "Rate Limit Exceeded" 429 []) ∧
        (∀ resp, res = .ok resp → resp.status = 429 →
          ∃ p r,
            buildProxyRequest env request (getTargetEndpoint CONFIG) request.url = .ok p ∧
            env.fetch p = .ok r ∧ r.status = 429)) :=
  rate_limit_window CONFIG "203.0.113.7" 0 emptyWorld
    (List.replicate 1001 (sampleGet, 0))
    (List.replicate 1001 (backendAnswering okResponse, sampleGet, 0))
    (by decide)
    (by intro c hc; rw [List.eq_of_mem_replicate hc]; decide)
    (by
      intro c hc
      rw [List.eq_of_mem_replicate hc]
      exact ⟨⟨by decide, by decide⟩, by decide, by decide⟩)

/-- C1 as stated fails: of 1000 requests `GET /involve/event?conversion_id=abc123` of one
client in one bucket, from an empty cache, the 1000th (the `L`-th with `L` = 1000) is
answered 429 when the backend answers 429: the backend status is passed through. -/
theorem limit_th_request_answered_429 :
    Admissible sampleGet ∧
    mapGet emptyWorld.rateLimitCache (rateKey (clientIP sampleGet) (bucket 0)) = none ∧
    CONFIG.rateLimitPerMinute = 1000 ∧
    ∃ resp,
      (handleRequests CONFIG
          (List.replicate 1000 (backendAnswering busyResponse, sampleGet, 0)) emptyWorld).1[999]?
        = some (.ok resp) ∧
      resp.status = 429 := by
  refine ⟨⟨by decide, by decide⟩, by decide, rfl, addResponseHeaders busyResponse, ?_, rfl⟩
  have hruns : ∀ c ∈ List.replicate 1000 (backendAnswering busyResponse, sampleGet, 0),
      Admissible c.2.1 ∧ clientIP c.2.1 = "203.0.113.7" ∧ bucket c.2.2 = 0 := by
    intro c hc
    rw [List.eq_of_mem_replicate hc]
    exact ⟨⟨by decide, by decide⟩, by decide, by decide⟩
  rw [handleRequests_getElem CONFIG "203.0.113.7" 0 _ emptyWorld hruns 999]
  have h0 : countOf emptyWorld "203.0.113.7" 0 = 0 := by decide
  have hst : admittedResponse (backendAnswering busyResponse) CONFIG sampleGet
      = .ok (addResponseHeaders busyResponse) := by
    decide
  have hget : (List.replicate 1000 (backendAnswering busyResponse, sampleGet, 0))[999]?
      = some (backendAnswering busyResponse, sampleGet, 0) := by
    rw [List.getElem?_replicate, if_pos (by decide)]
  have hlt : 0 + 999 < CONFIG.rateLimitPerMinute := by decide
  rw [hget, h0, Option.map_some', if_pos hlt, hst]

end Worker

/-! ## The rate limiter of `cloudflare-worker-ready.js` -/

namespace Ready

theorem processResponse_status (r : Response) : (processResponse r).status = r.status := rfl

theorem processResponse_has (r : Response) :
    (processResponse r).headers.has "X-ByteC-Proxy" = true := by
  simp only [processResponse]
  exact Headers.has_set _ _ _

/-- The error responses without extra headers are built from literal header values. -/
theorem createErrorResponse_plain (message : String) (status : Nat) :
    createErrorResponse message status []
      = .ok (Response.ofText message status
          [("Content-Type", "text/plain"), ("Access-Control-Allow-Origin", "*"),
            ("X-Error", "true")]) := rfl

/-- The outcome of `handleRequest` for an admissible request: that of the `catch` block
when the URL constructor or `fetch` throws, the processed backend response otherwise. -/
theorem ready_response (env : Env) (cfg : Config) (request : Request) (w : World)
    (hadm : Admissible cfg request) :
    (handleRequest env cfg request w).1 =
      match buildProxyUrl env cfg request.url with
      | .error error =>
        createErrorResponse "Internal server error" 500
          [("X-Error-Message", error.message), ("X-Worker-Version", "1.0.0")]
      | .ok proxyUrl =>
        match env.fetch (buildProxyRequest request proxyUrl) with
        | .error error =>
          createErrorResponse "Internal server error" 500
            [("X-Error-Message", error.message), ("X-Worker-Version", "1.0.0")]
        | .ok response => .ok (processResponse response) := by
  obtain ⟨hp, hv⟩ := hadm
  simp only [handleRequest, hp, tryBlock, hv, checkRateLimit, Bool.not_true,
    Bool.false_eq_true, if_false]
  cases hb : buildProxyUrl env cfg request.url with
  | error e => simp
  | ok u =>
    simp only
    cases hf : env.fetch (buildProxyRequest request u) with
    | error e => simp
    | ok r => simp

/-- The outcome of `handleRequest` does not depend on the process state. -/
theorem ready_response_world (env : Env) (cfg : Config) (request : Request) (w w2 : World) :
    (handleRequest env cfg request w).1 = (handleRequest env cfg request w2).1 := by
  simp only [handleRequest]
  split_ifs with hp
  · rfl
  · simp only [tryBlock, checkRateLimit, Bool.not_true, Bool.false_eq_true, if_false]
    cases hv : validateRequest cfg request request.url with
    | invalid e s => simp [createErrorResponse_plain]
    | valid =>
      simp only
      cases hb : buildProxyUrl env cfg request.url with
      | error e => simp
      | ok u =>
        simp only
        cases hf : env.fetch (buildProxyRequest request u) with
        | error e => simp
        | ok r => simp

theorem ready_responses_getElem (cfg : Config) :
    ∀ (runs : List (Env × Request × Nat)) (w : World) (i : Nat),
      (handleRequests cfg runs w).1[i]? =
        (runs[i]?).map (fun c => (handleRequest c.1 cfg c.2.1 emptyWorld).1) := by
  intro runs
  induction runs with
  | nil => intro w i; simp [handleRequests]
  | cons c rest ih =>
    intro w i
    obtain ⟨env, request, t⟩ := c
    cases i with
    | zero =>
      simp only [handleRequests, List.getElem?_cons_zero, Option.map_some']
      rw [ready_response_world env cfg request _ emptyWorld]
    | succ j => simp only [handleRequests, List.getElem?_cons_succ, ih]

theorem createErrorResponse_status (m : String) (s : Nat) (x : List (String × String))
    (r : Response) (h : createErrorResponse m s x = .ok r) : r.status = s :=
  (Response.create_ok _ _ _ _ h).2.1

theorem admitted_ne_rateLimited (env : Env) (cfg : Config) (request : Request) (w : World)
    (hadm : Admissible cfg request) :
    (handleRequest env cfg request w).1 ≠ createErrorResponse "Rate limit exceeded" 429 [] := by
  rw [ready_response env cfg request w hadm, createErrorResponse_plain]
  have h500 : ∀ x r, createErrorResponse "Internal server error" 500 x ≠ .ok r ∨ r.status = 500 := by
    intro x r
    by_cases h : createErrorResponse "Internal server error" 500 x = .ok r
    · exact Or.inr (createErrorResponse_status _ _ _ _ h)
    · exact Or.inl h
  have hne : ∀ x, createErrorResponse "Internal server error" 500 x
      ≠ .ok (Response.ofText "Rate limit exceeded" 429
          [("Content-Type", "text/plain"), ("Access-Control-Allow-Origin", "*"),
            ("X-Error", "true")]) := by
    intro x h
    rcases h500 x _ with h1 | h1
    · exact h1 h
    · simp [Response.ofText] at h1
  have hproc : ∀ r, (Except.ok (processResponse r) : Except JsError Response)
      ≠ .ok (Response.ofText "Rate limit exceeded" 429
          [("Content-Type", "text/plain"), ("Access-Control-Allow-Origin", "*"),
            ("X-Error", "true")]) := by
    intro r h
    simp only [Except.ok.injEq] at h
    have h1 := processResponse_has r
    rw [h] at h1
    revert h1
    decide
  split
  · exact hne _
  · split
    · exact hne _
    · exact hproc _

/-- An admissible request is answered 429 only when the backend answers the request
built from it with 429. -/
theorem admitted_status_429 (env : Env) (cfg : Config) (request : Request) (w : World)
    (hadm : Admissible cfg request) (resp : Response)
    (hresp : (handleRequest env cfg request w).1 = .ok resp) (h : resp.status = 429) :
    ∃ u r, buildProxyUrl env cfg request.url = .ok u ∧
      env.fetch (buildProxyRequest request u) = .ok r ∧ r.status = 429 := by
  rw [ready_response env cfg request w hadm] at hresp
  split at hresp
  · have := createErrorResponse_status _ _ _ _ hresp
    omega
  · rename_i u hu
    split at hresp
    · have := createErrorResponse_status _ _ _ _ hresp
      omega
    · rename_i r hr
      simp only [Except.ok.injEq] at hresp
      subst hresp
      exact ⟨u, r, hu, hr, by simpa [processResponse_status] using h⟩

/-- C2 (amended). In `cloudflare-worker-ready.js`, `checkRateLimit` allows every call;
in any run of consecutive requests, whatever its length, an admissible request has the
outcome it would have in a fresh process: never the rate limiter's 429, and a response
with status 429 only if the backend answered 429 to the request `buildProxyRequest`
built from it. -/
theorem rate_limit_never_denies (cfg : Config) (runs : List (Env × Request × Nat)) (w : World)
    (i : Nat) (env : Env) (request : Request) (t : Nat)
    (hi : runs[i]? = some (env, request, t)) (hadm : Admissible cfg request) :
    (checkRateLimit cfg request).allowed = true ∧
    ∃ res, (handleRequests cfg runs w).1[i]? = some res ∧
      res = (handleRequest env cfg request emptyWorld).1 ∧
      res ≠ createErrorResponse "Rate limit exceeded" 429 [] ∧
      (∀ resp, res = .ok resp → resp.status = 429 →
        ∃ u r, buildProxyUrl env cfg request.url = .ok u ∧
          env.fetch (buildProxyRequest request u) = .ok r ∧ r.status = 429) := by
  refine ⟨rfl, (handleRequest env cfg request emptyWorld).1, ?_, rfl, ?_, ?_⟩
  · rw [ready_responses_getElem, hi]; rfl
  · exact admitted_ne_rateLimited env cfg request emptyWorld hadm
  · intro resp hresp h429
    exact admitted_status_429 env cfg request emptyWorld hadm resp hresp h429

/-- C2, a concrete run: the 501st of 501 requests
`GET /involve/event?conversion_id=abc123` of one client at clock value 0. -/
theorem rate_limit_never_denies_witness :
    (checkRateLimit CONFIG sampleGet).allowed = true ∧
    ∃ res,
      (handleRequests CONFIG
          (List.replicate 501 (backendAnswering okResponse, sampleGet, 0)) emptyWorld).1[500]?
        = some res ∧
      res = (handleRequest (backendAnswering okResponse) CONFIG sampleGet emptyWorld).1 ∧
      res ≠ createErrorResponse "Rate limit exceeded" 429 [] ∧
      (∀ resp, res = .ok resp → resp.status = 429 →
        ∃ u r, buildProxyUrl (backendAnswering okResponse) CONFIG sampleGet.url = .ok u ∧
          (backendAnswering okResponse).fetch (buildProxyRequest sampleGet u) = .ok r ∧
          r.status = 429) :=
  rate_limit_never_denies CONFIG
    (List.replicate 501 (backendAnswering okResponse, sampleGet, 0)) emptyWorld 500
    (backendAnswering okResponse) sampleGet 0
    (by rw [List.getElem?_replicate, if_pos (by decide)])
    ⟨by decide, by decide⟩

/-- C2 as stated fails: with a limit of 500 and a backend answering 200, the 501st of
501 requests `GET /involve/event?conversion_id=abc123` of one client in one window is
answered 200, not 429. -/
theorem request_501_answered_200 :
    CONFIG.rateLimitPerMinute = 500 ∧
    Admissible CONFIG sampleGet ∧
    ∃ resp,
      (handleRequests CONFIG
          (List.replicate 501 (backendAnswering okResponse, sampleGet, 0)) emptyWorld).1[500]?
        = some (.ok resp) ∧
      resp.status = 200 := by
  refine ⟨rfl, ⟨by decide, by decide⟩, processResponse okResponse, ?_, rfl⟩
  rw [ready_responses_getElem, List.getElem?_replicate, if_pos (by decide)]
  decide

end Ready

/-! ## Validation -/

theorem Ready.firstMissing_none (url : URL) (params : List String) :
    Ready.firstMissing url params = none ↔ ∀ p ∈ params, url.searchParams.has p = true := by
  induction params with
  | nil => simp [Ready.firstMissing]
  | cons q rest ih =>
    by_cases hq : url.searchParams.has q = true
    · simp [Ready.firstMissing, hq, ih]
    · simp [Ready.firstMissing, hq]

theorem Ready.firstMissing_split (url : URL) (pre : List String) (p : String)
    (post : List String) (hpre : ∀ q ∈ pre, url.searchParams.has q = true)
    (hp : url.searchParams.has p = false) :
    Ready.firstMissing url (pre ++ p :: post) = some p := by
  induction pre with
  | nil => simp [Ready.firstMissing, hp]
  | cons q rest ih =>
    have hq : url.searchParams.has q = true := hpre q (List.mem_cons_self _ _)
    simp only [List.cons_append, Ready.firstMissing, hq, Bool.not_true, Bool.false_eq_true,
      if_false]
    exact ih (fun r hr => hpre r (List.mem_cons_of_mem _ hr))

theorem contains_get_post (m : String) :
    ["GET", "POST"].contains m = true ↔ (m = "GET" ∨ m = "POST") := by
  simp only [List.contains_cons, List.contains_nil, Bool.or_false, Bool.or_eq_true, beq_iff_eq]

/-- C3. The validator of either file rejects with 405 exactly when the method is neither
GET nor POST; for a GET or POST it rejects with 400 exactly when a required query
parameter is absent, the message naming the first absent one in configured order; and it
accepts exactly when the method is GET or POST and every required parameter is present.
In `cloudflare-worker.js` the required parameters are the single `conversion_id`. -/
theorem validator_contract (cfg : Ready.Config) (request : Request) :
    ((∃ e, Ready.validateRequest cfg request request.url = .invalid e 405) ↔
        ¬ (request.method = "GET" ∨ request.method = "POST")) ∧
    ((request.method = "GET" ∨ request.method = "POST") →
      ((∃ e, Ready.validateRequest cfg request request.url = .invalid e 400) ↔
        ∃ p ∈ cfg.requiredParams, request.url.searchParams.has p = false)) ∧
    ((request.method = "GET" ∨ request.method = "POST") →
      ∀ pre p post, cfg.requiredParams = pre ++ p :: post →
        (∀ q ∈ pre, request.url.searchParams.has q = true) →
        request.url.searchParams.has p = false →
        Ready.validateRequest cfg request request.url
          = .invalid ("Missing required parameter: " ++ p) 400) ∧
    (Ready.validateRequest cfg request request.url = .valid ↔
      (request.method = "GET" ∨ request.method = "POST") ∧
        ∀ p ∈ cfg.requiredParams, request.url.searchParams.has p = true) ∧
    ((∃ r, Worker.performSecurityChecks request = .rejected 405 r) ↔
        ¬ (request.method = "GET" ∨ request.method = "POST")) ∧
    ((request.method = "GET" ∨ request.method = "POST") →
      ((∃ r, Worker.performSecurityChecks request = .rejected 400 r) ↔
        request.url.searchParams.has "conversion_id" = false)) ∧
    ((request.method = "GET" ∨ request.method = "POST") →
      request.url.searchParams.has "conversion_id" = false →
      Worker.performSecurityChecks request
        = .rejected 400 "Missing required parameter: conversion_id") ∧
    (Worker.performSecurityChecks request = .allowed ↔
      (request.method = "GET" ∨ request.method = "POST") ∧
        request.url.searchParams.has "conversion_id" = true) := by
  by_cases hm : request.method = "GET" ∨ request.method = "POST"
  · have hc : ["GET", "POST"].contains request.method = true := (contains_get_post _).2 hm
    have hR : Ready.validateRequest cfg request request.url =
        match Ready.firstMissing request.url cfg.requiredParams with
        | some param => .invalid ("Missing required parameter: " ++ param) 400
        | none => .valid := by
      simp only [Ready.validateRequest, hc, Bool.not_true, Bool.false_eq_true, if_false]
    have hW : Worker.performSecurityChecks request =
        if request.url.searchParams.has "conversion_id" = true then .allowed
        else .rejected 400 "Missing required parameter: conversion_id" := by
      by_cases hh : request.url.searchParams.has "conversion_id" = true
      · simp only [Worker.performSecurityChecks, hc, hh, Bool.not_true, Bool.false_eq_true,
          if_false, if_true]
      · have hh2 : request.url.searchParams.has "conversion_id" = false := by simpa using hh
        simp only [Worker.performSecurityChecks, hc, hh2, Bool.not_true, Bool.not_false,
          Bool.false_eq_true, if_false, if_true]
    refine ⟨?_, ?_, ?_, ?_, ?_, ?_, ?_, ?_⟩
    · rw [hR]
      constructor
      · rintro ⟨e, he⟩
        cases hf : Ready.firstMissing request.url cfg.requiredParams with
        | none => rw [hf] at he; simp at he
        | some p => rw [hf] at he; simp at he
      · intro h; exact absurd hm h
    · intro _
      rw [hR]
      cases hf : Ready.firstMissing request.url cfg.requiredParams with
      | none =>
        have hall := (Ready.firstMissing_none _ _).1 hf
        constructor
        · rintro ⟨e, he⟩; simp at he
        · rintro ⟨p, hp, hpf⟩
          rw [hall p hp] at hpf
          simp at hpf
      | some p =>
        constructor
        · intro _
          by_contra hne
          have hall : ∀ q ∈ cfg.requiredParams, request.url.searchParams.has q = true := by
            intro q hq
            by_contra hqf
            exact hne ⟨q, hq, by simpa using hqf⟩
          rw [(Ready.firstMissing_none _ _).2 hall] at hf
          simp at hf
        · intro _; exact ⟨_, rfl⟩
    · intro _ pre p post hsplit hpre hp
      rw [hR, hsplit, Ready.firstMissing_split _ pre p post hpre hp]
    · rw [hR]
      cases hf : Ready.firstMissing request.url cfg.requiredParams with
      | none =>
        simp only [true_iff]
        exact ⟨hm, (Ready.firstMissing_none _ _).1 hf⟩
      | some p =>
        constructor
        · intro h; simp at h
        · rintro ⟨_, hall⟩
          rw [(Ready.firstMissing_none _ _).2 hall] at hf
          simp at hf
    · rw [hW]
      constructor
      · rintro ⟨r, hr⟩
        split_ifs at hr
        simp at hr
      · intro h; exact absurd hm h
    · intro _
      rw [hW]
      by_cases hh : request.url.searchParams.has "conversion_id" = true
      · simp [hh]
      · simp [hh]
    · intro _ hh
      rw [hW]
      simp [hh]
    · rw [hW]
      by_cases hh : request.url.searchParams.has "conversion_id" = true
      · simp [hh, hm]
      · simp [hh]
  · have hc : ["GET", "POST"].contains request.method = false := by
      cases h : ["GET", "POST"].contains request.method with
      | false => rfl
      | true => exact absurd ((contains_get_post _).1 h) hm
    have hR : Ready.validateRequest cfg request request.url
        = .invalid "Method not allowed" 405 := by
      simp only [Ready.validateRequest, hc, Bool.not_false, if_true]
    have hW : Worker.performSecurityChecks request = .rejected 405 "Method Not Allowed" := by
      simp only [Worker.performSecurityChecks, hc, Bool.not_false, if_true]
    refine ⟨?_, ?_, ?_, ?_, ?_, ?_, ?_, ?_⟩
    · exact ⟨fun _ => hm, fun _ => ⟨_, hR⟩⟩
    · intro h; exact absurd h hm
    · intro h; exact absurd h hm
    · rw [hR]; simp [hm]
    · exact ⟨fun _ => hm, fun _ => ⟨_, hW⟩⟩
    · intro h; exact absurd h hm
    · intro h; exact absurd h hm
    · rw [hW]; simp [hm]

/-! ## Path test, method test and preflight -/

/-- A string that starts with `p` includes `p`. -/
theorem includes_of_startsWith (s p : String) (h : startsWith s p = true) :
    includes s p = true := by
  simp only [startsWith, includes] at h ⊢
  rw [List.any_eq_true]
  refine ⟨s.data, ?_, h⟩
  cases hs : s.data with
  | nil => simp
  | cons c t => simp

/-- The outcome of `handleRequest` of `cloudflare-worker-ready.js` on a path without
`/involve/event`. -/
theorem Ready.ready_status_off_path (env : Env) (cfg : Ready.Config) (request : Request) (w : World)
    (h : includes request.url.pathname "/involve/event" = false) :
    (Ready.handleRequest env cfg request w).1
      = .ok (Response.ofText "Path not found" 404
          [("Content-Type", "text/plain"), ("Access-Control-Allow-Origin", "*"),
            ("X-Error", "true")]) := by
  simp only [Ready.handleRequest, h, Bool.not_false, if_true, Ready.createErrorResponse_plain]

/-- The outcome of `handleRequest` of `cloudflare-worker.js` on a path that does not
start with `/involve/event`. -/
theorem Worker.worker_status_off_path (env : Env) (cfg : Worker.Config) (request : Request) (w : World)
    (h : startsWith request.url.pathname "/involve/event" = false) :
    (Worker.handleRequest env cfg request w).1 = .ok (Response.ofText "Not Found" 404 []) := by
  simp only [Worker.handleRequest, h, Bool.not_false, if_true, Response.create_nil]

/-- C4. A request whose path does not contain `/involve/event` is answered 404 by
`handleRequest` of both files, whatever its method, query, headers, the configuration,
the platform and the process state. -/
theorem not_found_off_path (env : Env) (rcfg : Ready.Config) (wcfg : Worker.Config)
    (request : Request) (w : World)
    (h : includes request.url.pathname "/involve/event" = false) :
    (∃ resp, (Ready.handleRequest env rcfg request w).1 = .ok resp ∧ resp.status = 404) ∧
    (∃ resp, (Worker.handleRequest env wcfg request w).1 = .ok resp ∧ resp.status = 404) := by
  refine ⟨⟨_, Ready.ready_status_off_path env rcfg request w h, rfl⟩, ?_⟩
  refine ⟨_, Worker.worker_status_off_path env wcfg request w ?_, rfl⟩
  cases hs : startsWith request.url.pathname "/involve/event" with
  | false => rfl
  | true =>
    rw [includes_of_startsWith _ _ hs] at h
    exact absurd h (by decide)

/-- C4, a concrete request: `DELETE /health` is answered 404 by both handlers. -/
theorem not_found_off_path_witness :
    (∃ resp, (Ready.handleRequest backendDown Ready.CONFIG (sampleRequest "DELETE" "/health" [])
        emptyWorld).1 = .ok resp ∧ resp.status = 404) ∧
    (∃ resp, (Worker.handleRequest backendDown Worker.CONFIG (sampleRequest "DELETE" "/health" [])
        emptyWorld).1 = .ok resp ∧ resp.status = 404) :=
  not_found_off_path backendDown Ready.CONFIG Worker.CONFIG (sampleRequest "DELETE" "/health" [])
    emptyWorld (by decide)

/-- The status of either handler for a method that is neither GET nor POST on a path that
passes the path test. -/
theorem Ready.ready_status_bad_method (env : Env) (cfg : Ready.Config) (request : Request)
    (w : World) (hm : ¬ (request.method = "GET" ∨ request.method = "POST"))
    (hp : includes request.url.pathname "/involve/event" = true) :
    (Ready.handleRequest env cfg request w).1
      = .ok (Response.ofText "Method not allowed" 405
          [("Content-Type", "text/plain"), ("Access-Control-Allow-Origin", "*"),
            ("X-Error", "true")]) := by
  have hc : ["GET", "POST"].contains request.method = false := by
    cases h : ["GET", "POST"].contains request.method with
    | false => rfl
    | true => exact absurd ((contains_get_post _).1 h) hm
  simp only [Ready.handleRequest, hp, Bool.not_true, Bool.false_eq_true, if_false,
    Ready.tryBlock, Ready.validateRequest, hc, Bool.not_false, if_true,
    Ready.createErrorResponse_plain]

theorem Worker.worker_status_bad_method (env : Env) (cfg : Worker.Config) (request : Request)
    (w : World) (hm : ¬ (request.method = "GET" ∨ request.method = "POST"))
    (hp : startsWith request.url.pathname "/involve/event" = true) :
    Worker.handleRequest env cfg request w
      = (.ok (Response.ofText "Method Not Allowed" 405 []), w) := by
  have hc : ["GET", "POST"].contains request.method = false := by
    cases h : ["GET", "POST"].contains request.method with
    | false => rfl
    | true => exact absurd ((contains_get_post _).1 h) hm
  simp only [Worker.handleRequest, hp, Bool.not_true, Bool.false_eq_true, if_false,
    Worker.tryBlock, Worker.performSecurityChecks, hc, Bool.not_false, if_true,
    Response.create_nil]

/-- C5 (amended). For a method outside GET, POST and OPTIONS, `handleRequest` answers
405 when the path passes the handler's path test (contains `/involve/event` in
`cloudflare-worker-ready.js`, starts with it in `cloudflare-worker.js`) and 404 when
it does not. -/
theorem method_not_allowed_on_path (env : Env) (rcfg : Ready.Config) (wcfg : Worker.Config)
    (request : Request) (w : World)
    (hm : request.method ≠ "GET" ∧ request.method ≠ "POST" ∧ request.method ≠ "OPTIONS") :
    (∃ resp, (Ready.handleRequest env rcfg request w).1 = .ok resp ∧
      resp.status
        = (if includes request.url.pathname "/involve/event" = true then 405 else 404)) ∧
    (∃ resp, (Worker.handleRequest env wcfg request w).1 = .ok resp ∧
      resp.status
        = (if startsWith request.url.pathname "/involve/event" = true then 405 else 404)) := by
  have hm2 : ¬ (request.method = "GET" ∨ request.method = "POST") := by
    rintro (h | h)
    · exact hm.1 h
    · exact hm.2.1 h
  constructor
  · by_cases hp : includes request.url.pathname "/involve/event" = true
    · rw [if_pos hp, Ready.ready_status_bad_method env rcfg request w hm2 hp]
      exact ⟨_, rfl, rfl⟩
    · rw [if_neg hp]
      exact ⟨_, Ready.ready_status_off_path env rcfg request w (by simpa using hp), rfl⟩
  · by_cases hp : startsWith request.url.pathname "/involve/event" = true
    · rw [if_pos hp, Worker.worker_status_bad_method env wcfg request w hm2 hp]
      exact ⟨_, rfl, rfl⟩
    · rw [if_neg hp]
      exact ⟨_, Worker.worker_status_off_path env wcfg request w (by simpa using hp), rfl⟩

/-- C5, concrete requests: `DELETE /involve/event?conversion_id=abc123` is answered 405
by both handlers. -/
theorem method_not_allowed_on_path_witness :
    (∃ resp, (Ready.handleRequest backendDown Ready.CONFIG
        (sampleRequest "DELETE" "/involve/event" [("conversion_id", "abc123")])
        emptyWorld).1 = .ok resp ∧
      resp.status
        = (if includes (sampleRequest "DELETE" "/involve/event"
              [("conversion_id", "abc123")]).url.pathname "/involve/event" = true
            then 405 else 404)) ∧
    (∃ resp, (Worker.handleRequest backendDown Worker.CONFIG
        (sampleRequest "DELETE" "/involve/event" [("conversion_id", "abc123")])
        emptyWorld).1 = .ok resp ∧
      resp.status
        = (if startsWith (sampleRequest "DELETE" "/involve/event"
              [("conversion_id", "abc123")]).url.pathname "/involve/event" = true
            then 405 else 404)) :=
  method_not_allowed_on_path backendDown Ready.CONFIG Worker.CONFIG
    (sampleRequest "DELETE" "/involve/event" [("conversion_id", "abc123")]) emptyWorld
    (by decide)

/-- C5 as stated fails: `DELETE /health` has a method outside GET, POST and OPTIONS and
is answered 404, not 405, by both handlers. -/
theorem delete_off_path_answered_404 :
    (sampleRequest "DELETE" "/health" []).method ≠ "GET" ∧
    (sampleRequest "DELETE" "/health" []).method ≠ "POST" ∧
    (sampleRequest "DELETE" "/health" []).method ≠ "OPTIONS" ∧
    (∃ resp, (Ready.handleRequest backendDown Ready.CONFIG (sampleRequest "DELETE" "/health" [])
        emptyWorld).1 = .ok resp ∧ resp.status = 404) ∧
    (∃ resp, (Worker.handleRequest backendDown Worker.CONFIG (sampleRequest "DELETE" "/health" [])
        emptyWorld).1 = .ok resp ∧ resp.status = 404) :=
  ⟨by decide, by decide, by decide,
    ⟨Response.ofText "Path not found" 404
      [("Content-Type", "text/plain"), ("Access-Control-Allow-Origin", "*"),
        ("X-Error", "true")], by decide, rfl⟩,
    ⟨Response.ofText "Not Found" 404 [], by decide, rfl⟩⟩

/-- C6 at the failing input: the preflight `OPTIONS /involve/event?conversion_id=abc123`
is taken through validation by `handleRequest` of both files and answered 405 with a
text body; the response of `handleOptions` (200, no body, the three CORS headers) is
not what the handler returns. -/
theorem options_answered_405 :
    (Ready.handleRequest (backendAnswering okResponse) Ready.CONFIG
        (sampleRequest "OPTIONS" "/involve/event" [("conversion_id", "abc123")]) emptyWorld).1
      = Ready.createErrorResponse "Method not allowed" 405 [] ∧
    (Worker.handleRequest (backendAnswering okResponse) Worker.CONFIG
        (sampleRequest "OPTIONS" "/involve/event" [("conversion_id", "abc123")]) emptyWorld).1
      = .ok (Response.ofText "Method Not Allowed" 405 []) ∧
    (∃ resp, Ready.createErrorResponse "Method not allowed" 405 [] = .ok resp ∧
      resp.status = 405 ∧ resp.body = some "Method not allowed" ∧
      resp.headers.get "Access-Control-Allow-Methods" = none) ∧
    (Response.ofText "Method Not Allowed" 405 []).status = 405 ∧
    (Response.ofText "Method Not Allowed" 405 []).body = some "Method Not Allowed" ∧
    (Response.ofText "Method Not Allowed" 405 []).headers.get
        "Access-Control-Allow-Origin" = none ∧
    Ready.handleOptions.status = 200 ∧ Ready.handleOptions.body = none ∧
    Worker.handleOptions.status = 200 ∧ Worker.handleOptions.body = none :=
  ⟨by decide, by decide,
    ⟨Response.ofText "Method not allowed" 405
      [("Content-Type", "text/plain"), ("Access-Control-Allow-Origin", "*"),
        ("X-Error", "true")], by decide, by decide, by decide, by decide⟩,
    by decide, by decide, by decide, by decide, by decide, by decide, by decide⟩

/-! ## The outbound query -/

/-- C7 at the failing input: for the inbound query
`conversion_id=abc123&sub=a&sub=b` the outbound URL of both builders carries `sub` once,
with the value `b`; the inbound pair `sub=a` is not on it. -/
theorem repeated_key_dropped :
    (∃ u, Ready.buildProxyUrl (backendAnswering okResponse) Ready.CONFIG
        (inboundUrl "/involve/event" [("conversion_id", "abc123"), ("sub", "a"), ("sub", "b")])
          = .ok u ∧
      u.searchParams.entries = [("conversion_id", "abc123"), ("sub", "b")] ∧
      u.searchParams.getAll "sub" = ["b"] ∧ ("sub", "a") ∉ u.searchParams.entries) ∧
    (∃ r, Worker.buildProxyRequest (backendAnswering okResponse)
        (sampleRequest "GET" "/involve/event"
          [("conversion_id", "abc123"), ("sub", "a"), ("sub", "b")])
        (Worker.getTargetEndpoint Worker.CONFIG)
        (inboundUrl "/involve/event" [("conversion_id", "abc123"), ("sub", "a"), ("sub", "b")])
          = .ok r ∧
      r.url.searchParams.entries = [("conversion_id", "abc123"), ("sub", "b")] ∧
      r.url.searchParams.getAll "sub" = ["b"] ∧ ("sub", "a") ∉ r.url.searchParams.entries) :=
  ⟨⟨_, rfl, by decide, by decide, by decide⟩, ⟨_, rfl, by decide, by decide, by decide⟩⟩

/-! ## Header overwrites -/

theorem Headers.sameName_iff (a b : String) :
    Headers.sameName a b = true ↔ lower a = lower b := by
  simp [Headers.sameName]

theorem Headers.sameName_trans_left (k n m : String) (hkn : Headers.sameName k n = true) :
    Headers.sameName k m = Headers.sameName n m := by
  rw [Headers.sameName_iff] at hkn
  simp only [Headers.sameName, hkn]

theorem Headers.filter_setEntries (l : List (String × String)) (n v m : String) :
    ((Headers.setEntries l n v).filter (fun p => Headers.sameName p.1 m)).map Prod.snd
      = if Headers.sameName n m = true then [v]
        else (l.filter (fun p => Headers.sameName p.1 m)).map Prod.snd := by
  induction l with
  | nil =>
    by_cases h : Headers.sameName n m = true
    · simp [Headers.setEntries, h]
    · simp [Headers.setEntries, h]
  | cons e t ih =>
    obtain ⟨k, x⟩ := e
    by_cases hk : Headers.sameName k n = true
    · have hkm := Headers.sameName_trans_left k n m hk
      by_cases h : Headers.sameName n m = true
      · have hnil : (t.filter (fun p => !Headers.sameName p.1 n)).filter
            (fun p => Headers.sameName p.1 m) = [] := by
          rw [List.filter_eq_nil_iff]
          intro p hp hpm
          rw [List.mem_filter] at hp
          have h1 : Headers.sameName p.1 n = true := by
            rw [Headers.sameName_iff] at hpm h ⊢
            rw [hpm, h]
          simp [h1] at hp
        simp only [Headers.setEntries, hk, if_true, List.filter_cons, hkm, h, hnil,
          List.map_cons, List.map_nil]
      · have hfil : (t.filter (fun p => !Headers.sameName p.1 n)).filter
            (fun p => Headers.sameName p.1 m) = t.filter (fun p => Headers.sameName p.1 m) := by
          rw [List.filter_filter]
          apply List.filter_congr
          intro p _
          by_cases hpm : Headers.sameName p.1 m = true
          · have h1 : Headers.sameName p.1 n = false := by
              cases hpn : Headers.sameName p.1 n with
              | false => rfl
              | true =>
                exfalso; apply h
                rw [Headers.sameName_iff] at hpm hpn ⊢
                rw [← hpn, hpm]
            simp [hpm, h1]
          · simp [hpm]
        simp only [Headers.setEntries, hk, if_true, List.filter_cons, hkm, h, hfil,
          Bool.false_eq_true, if_false]
    · have hs : Headers.setEntries ((k, x) :: t) n v = (k, x) :: Headers.setEntries t n v := by
        simp [Headers.setEntries, hk]
      rw [hs]
      by_cases h : Headers.sameName n m = true
      · have hkm : Headers.sameName k m = false := by
          cases hkm : Headers.sameName k m with
          | false => rfl
          | true =>
            exfalso; apply hk
            rw [Headers.sameName_iff] at hkm h ⊢
            rw [hkm, h]
        rw [List.filter_cons]
        simp only [hkm, Bool.false_eq_true, if_false]
        rw [ih, if_pos h, if_pos h]
      · rw [if_neg h] at ih ⊢
        rw [List.filter_cons, List.filter_cons]
        by_cases hkm : Headers.sameName k m = true
        · simp only [hkm, if_true, List.map_cons, ih]
        · simp only [hkm, Bool.false_eq_true, if_false, ih]

theorem Headers.getAll_set (h : Headers) (n v m : String) :
    (h.set n v).getAll m = if Headers.sameName n m = true then [v] else h.getAll m := by
  simp only [Headers.getAll, Headers.set]
  exact Headers.filter_setEntries h.entries n v m

theorem Headers.get_set_same (h : Headers) (n v m : String) (hs : Headers.sameName n m = true) :
    (h.set n v).get m = some v := by
  simp only [Headers.get, Headers.getAll_set, hs, if_true]
  simp [String.intercalate, String.intercalate.go]

theorem Headers.get_set_other (h : Headers) (n v m : String)
    (hs : Headers.sameName n m = false) : (h.set n v).get m = h.get m := by
  simp only [Headers.get, Headers.getAll_set, hs, Bool.false_eq_true, if_false]

/-! ## The outbound headers, method and body -/

/-- The headers `buildProxyRequest` of `cloudflare-worker.js` puts on its request. -/
theorem Worker.buildProxyRequest_ok (env : Env) (request : Request)
    (endpoint : Option String) (url : URL) (out : Request)
    (h : Worker.buildProxyRequest env request endpoint url = .ok out) :
    out.method = request.method ∧
    out.body = (if request.method = "POST" then request.body else none) ∧
    out.headers =
      (((((request.headers.set "X-Forwarded-For"
              (orElse (request.headers.get "CF-Connecting-IP") "unknown")).set
            "X-Forwarded-Proto" "https").set
          "X-Forwarded-Host" url.hostname).set
        "X-Original-URL" url.toString).set "User-Agent"
        (Headers.normalizeValue ("CloudflareWorkers-ByteC-Proxy/1.0 " ++
          orElse (((((request.headers.set "X-Forwarded-For"
              (orElse (request.headers.get "CF-Connecting-IP") "unknown")).set
            "X-Forwarded-Proto" "https").set
          "X-Forwarded-Host" url.hostname).set
        "X-Original-URL" url.toString).get "User-Agent") ""))) := by
  unfold Worker.buildProxyRequest at h
  cases hu : env.newURL (endpoint.getD "undefined") with
  | error e => rw [hu] at h; simp at h
  | ok u =>
    rw [hu] at h
    simp only [Except.ok.injEq] at h
    subst h
    exact ⟨rfl, rfl, rfl⟩

theorem orElse_some (v d : String) (hv : v ≠ "") : orElse (some v) d = v := by
  simp [orElse, hv]

theorem orElse_absent (o : Option String) (d : String) (h : o = none ∨ o = some "") :
    orElse o d = d := by
  rcases h with h | h <;> simp [orElse, h]

/-- C8. The request built by `buildProxyRequest` of either file has `X-Forwarded-For`
equal to the inbound `CF-Connecting-IP` value when that is present and non-empty and to
`unknown` otherwise, `X-Forwarded-Proto` equal to `https`, `X-Forwarded-Host` equal to
the inbound hostname and `X-Original-URL` equal to the inbound URL; every header whose
name differs, ignoring case, from the names the builder sets reads as on the inbound
request. -/
theorem proxy_request_headers (env : Env) (request : Request) (endpoint : Option String)
    (proxyUrl : URL) (out : Request)
    (h : Worker.buildProxyRequest env request endpoint request.url = .ok out) :
    (∀ o ∈ [out, Ready.buildProxyRequest request proxyUrl],
      (∀ v, request.headers.get "CF-Connecting-IP" = some v → v ≠ "" →
        o.headers.get "X-Forwarded-For" = some v) ∧
      (request.headers.get "CF-Connecting-IP" = none ∨
          request.headers.get "CF-Connecting-IP" = some "" →
        o.headers.get "X-Forwarded-For" = some "unknown") ∧
      o.headers.get "X-Forwarded-Proto" = some "https" ∧
      o.headers.get "X-Forwarded-Host" = some request.url.hostname ∧
      o.headers.get "X-Original-URL" = some request.url.toString) ∧
    (∀ name,
      (∀ n ∈ ["X-Forwarded-For", "X-Forwarded-Proto", "X-Forwarded-Host", "X-Original-URL",
          "User-Agent"], Headers.sameName n name = false) →
      out.headers.get name = request.headers.get name ∧
        out.headers.getAll name = request.headers.getAll name) ∧
    (∀ name,
      (∀ n ∈ ["X-Forwarded-For", "X-Forwarded-Proto", "X-Forwarded-Host", "X-Original-URL",
          "X-Worker-Proxy"], Headers.sameName n name = false) →
      (Ready.buildProxyRequest request proxyUrl).headers.get name = request.headers.get name ∧
        (Ready.buildProxyRequest request proxyUrl).headers.getAll name
          = request.headers.getAll name) := by
  obtain ⟨_, _, hh⟩ := Worker.buildProxyRequest_ok env request endpoint request.url out h
  have hxff : ∀ (H : Headers) (a b c d va vb vc vd : String),
      Headers.sameName a "X-Forwarded-For" = false →
      Headers.sameName b "X-Forwarded-For" = false →
      Headers.sameName c "X-Forwarded-For" = false →
      Headers.sameName d "X-Forwarded-For" = false →
      ∀ x, (((((H.set "X-Forwarded-For" x).set a va).set b vb).set c vc).set d vd).get
        "X-Forwarded-For" = some x := by
    intro H a b c d va vb vc vd ha hb hc hd x
    rw [Headers.get_set_other _ _ _ _ hd, Headers.get_set_other _ _ _ _ hc,
      Headers.get_set_other _ _ _ _ hb, Headers.get_set_other _ _ _ _ ha,
      Headers.get_set_same _ _ _ _ (by decide)]
  refine ⟨?_, ?_, ?_⟩
  · intro o ho
    simp only [List.mem_cons, List.mem_singleton, List.not_mem_nil, or_false] at ho
    rcases ho with rfl | rfl
    · rw [hh]
      refine ⟨?_, ?_, ?_, ?_, ?_⟩
      · intro v hv hne
        rw [hxff _ _ _ _ _ _ _ _ _ (by decide) (by decide) (by decide) (by decide), hv,
          orElse_some v _ hne]
      · intro hv
        rw [hxff _ _ _ _ _ _ _ _ _ (by decide) (by decide) (by decide) (by decide),
          orElse_absent _ _ hv]
      · rw [Headers.get_set_other _ _ _ _ (by decide), Headers.get_set_other _ _ _ _ (by decide),
          Headers.get_set_other _ _ _ _ (by decide), Headers.get_set_same _ _ _ _ (by decide)]
      · rw [Headers.get_set_other _ _ _ _ (by decide), Headers.get_set_other _ _ _ _ (by decide),
          Headers.get_set_same _ _ _ _ (by decide)]
      · rw [Headers.get_set_other _ _ _ _ (by decide), Headers.get_set_same _ _ _ _ (by decide)]
    · simp only [Ready.buildProxyRequest]
      refine ⟨?_, ?_, ?_, ?_, ?_⟩
      · intro v hv hne
        rw [hxff _ _ _ _ _ _ _ _ _ (by decide) (by decide) (by decide) (by decide), hv,
          orElse_some v _ hne]
      · intro hv
        rw [hxff _ _ _ _ _ _ _ _ _ (by decide) (by decide) (by decide) (by decide),
          orElse_absent _ _ hv]
      · rw [Headers.get_set_other _ _ _ _ (by decide), Headers.get_set_other _ _ _ _ (by decide),
          Headers.get_set_other _ _ _ _ (by decide), Headers.get_set_same _ _ _ _ (by decide)]
      · rw [Headers.get_set_other _ _ _ _ (by decide), Headers.get_set_other _ _ _ _ (by decide),
          Headers.get_set_same _ _ _ _ (by decide)]
      · rw [Headers.get_set_other _ _ _ _ (by decide), Headers.get_set_same _ _ _ _ (by decide)]
  · intro name hn
    have h1 := hn "X-Forwarded-For" (by simp)
    have h2 := hn "X-Forwarded-Proto" (by simp)
    have h3 := hn "X-Forwarded-Host" (by simp)
    have h4 := hn "X-Original-URL" (by simp)
    have h5 := hn "User-Agent" (by simp)
    rw [hh]
    constructor
    · rw [Headers.get_set_other _ _ _ _ h5, Headers.get_set_other _ _ _ _ h4,
        Headers.get_set_other _ _ _ _ h3, Headers.get_set_other _ _ _ _ h2,
        Headers.get_set_other _ _ _ _ h1]
    · simp only [Headers.getAll_set, h1, h2, h3, h4, h5, Bool.false_eq_true, if_false]
  · intro name hn
    have h1 := hn "X-Forwarded-For" (by simp)
    have h2 := hn "X-Forwarded-Proto" (by simp)
    have h3 := hn "X-Forwarded-Host" (by simp)
    have h4 := hn "X-Original-URL" (by simp)
    have h5 := hn "X-Worker-Proxy" (by simp)
    simp only [Ready.buildProxyRequest]
    constructor
    · rw [Headers.get_set_other _ _ _ _ h5, Headers.get_set_other _ _ _ _ h4,
        Headers.get_set_other _ _ _ _ h3, Headers.get_set_other _ _ _ _ h2,
        Headers.get_set_other _ _ _ _ h1]
    · simp only [Headers.getAll_set, h1, h2, h3, h4, h5, Bool.false_eq_true, if_false]

/-- C8, a concrete request: `sampleGet` carries `CF-Connecting-IP: 203.0.113.7` and
`Accept`; both builders are run on it. -/
theorem proxy_request_headers_witness :
    (∀ o ∈ [sampleOutbound, Ready.buildProxyRequest sampleGet sampleOutbound.url],
      (∀ v, sampleGet.headers.get "CF-Connecting-IP" = some v → v ≠ "" →
        o.headers.get "X-Forwarded-For" = some v) ∧
      (sampleGet.headers.get "CF-Connecting-IP" = none ∨
          sampleGet.headers.get "CF-Connecting-IP" = some "" →
        o.headers.get "X-Forwarded-For" = some "unknown") ∧
      o.headers.get "X-Forwarded-Proto" = some "https" ∧
      o.headers.get "X-Forwarded-Host" = some sampleGet.url.hostname ∧
      o.headers.get "X-Original-URL" = some sampleGet.url.toString) ∧
    (∀ name,
      (∀ n ∈ ["X-Forwarded-For", "X-Forwarded-Proto", "X-Forwarded-Host", "X-Original-URL",
          "User-Agent"], Headers.sameName n name = false) →
      sampleOutbound.headers.get name = sampleGet.headers.get name ∧
        sampleOutbound.headers.getAll name = sampleGet.headers.getAll name) ∧
    (∀ name,
      (∀ n ∈ ["X-Forwarded-For", "X-Forwarded-Proto", "X-Forwarded-Host", "X-Original-URL",
          "X-Worker-Proxy"], Headers.sameName n name = false) →
      (Ready.buildProxyRequest sampleGet sampleOutbound.url).headers.get name
          = sampleGet.headers.get name ∧
        (Ready.buildProxyRequest sampleGet sampleOutbound.url).headers.getAll name
          = sampleGet.headers.getAll name) :=
  proxy_request_headers (backendAnswering okResponse) sampleGet
    (Worker.getTargetEndpoint Worker.CONFIG) sampleOutbound.url sampleOutbound rfl

/-- C9. The request built by `buildProxyRequest` of either file has the method of the
inbound request; its body is the inbound body when the method is POST and absent
otherwise. -/
theorem proxy_request_method_body (env : Env) (request : Request) (endpoint : Option String)
    (proxyUrl : URL) (out : Request)
    (h : Worker.buildProxyRequest env request endpoint request.url = .ok out) :
    (out.method = request.method ∧
      (request.method = "POST" → out.body = request.body) ∧
      (request.method ≠ "POST" → out.body = none)) ∧
    ((Ready.buildProxyRequest request proxyUrl).method = request.method ∧
      (request.method = "POST" →
        (Ready.buildProxyRequest request proxyUrl).body = request.body) ∧
      (request.method ≠ "POST" → (Ready.buildProxyRequest request proxyUrl).body = none)) := by
  obtain ⟨hm, hb, _⟩ := Worker.buildProxyRequest_ok env request endpoint request.url out h
  refine ⟨⟨hm, ?_, ?_⟩, ⟨rfl, ?_, ?_⟩⟩
  · intro hp; rw [hb, if_pos hp]
  · intro hp; rw [hb, if_neg hp]
  · intro hp; simp only [Ready.buildProxyRequest, hp, if_true]
  · intro hp; simp only [Ready.buildProxyRequest, hp, if_false]

/-- C9, concrete requests: a POST with a body, run through both builders. -/
theorem proxy_request_method_body_witness :
    (samplePostOutbound.method = samplePost.method ∧
      (samplePost.method = "POST" → samplePostOutbound.body = samplePost.body) ∧
      (samplePost.method ≠ "POST" → samplePostOutbound.body = none)) ∧
    ((Ready.buildProxyRequest samplePost sampleOutbound.url).method = samplePost.method ∧
      (samplePost.method = "POST" →
        (Ready.buildProxyRequest samplePost sampleOutbound.url).body = samplePost.body) ∧
      (samplePost.method ≠ "POST" →
        (Ready.buildProxyRequest samplePost sampleOutbound.url).body = none)) :=
  proxy_request_method_body (backendAnswering okResponse) samplePost
    (Worker.getTargetEndpoint Worker.CONFIG) sampleOutbound.url samplePostOutbound rfl

/-- C10. `forwardRequest` of `cloudflare-worker.js` passes its request to `fetch` once
and returns without throwing: the backend response itself when `fetch` answers, whatever
its status, and on a transport failure a response with status 503, body
`Backend Service Unavailable` and header `X-Error-Type: Backend-Connection-Failed`. The
rate-limit cache and the timers are left as they were. -/
theorem forward_request_contract (env : Env) (proxyRequest : Request) (w : World) :
    (Worker.forwardRequest env proxyRequest w).2.fetched = w.fetched ++ [proxyRequest] ∧
    (∃ r, (Worker.forwardRequest env proxyRequest w).1 = .ok r) ∧
    (∀ r, env.fetch proxyRequest = .ok r →
      (Worker.forwardRequest env proxyRequest w).1 = .ok r) ∧
    (∀ e, env.fetch proxyRequest = .error e →
      ∃ r, (Worker.forwardRequest env proxyRequest w).1 = .ok r ∧
        r.status = 503 ∧ r.body = some "Backend Service Unavailable" ∧
        r.headers.get "X-Error-Type" = some "Backend-Connection-Failed") ∧
    (Worker.forwardRequest env proxyRequest w).2.rateLimitCache = w.rateLimitCache ∧
    (Worker.forwardRequest env proxyRequest w).2.timers = w.timers := by
  unfold Worker.forwardRequest
  cases hf : env.fetch proxyRequest with
  | ok r =>
    refine ⟨rfl, ⟨r, rfl⟩, ?_, ?_, rfl, rfl⟩
    · intro r2 h2
      rw [← h2]
    · intro e he
      simp at he
  | error e =>
    refine ⟨rfl, ⟨_, rfl⟩, ?_, ?_, rfl, rfl⟩
    · intro r2 h2
      simp at h2
    · intro e2 _
      exact ⟨_, rfl, rfl, rfl, by decide⟩

/-! ## Query parameters that do not repeat -/

theorem URLSearchParams.params_filter_setEntries (l : List (String × String)) (n v m : String) :
    ((URLSearchParams.setEntries l n v).filter (fun e => e.1 == m)).map Prod.snd
      = if n = m then [v] else (l.filter (fun e => e.1 == m)).map Prod.snd := by
  induction l with
  | nil =>
    by_cases h : n = m
    · simp [URLSearchParams.setEntries, h]
    · simp [URLSearchParams.setEntries, h]
  | cons e t ih =>
    obtain ⟨k, x⟩ := e
    by_cases hk : k = n
    · subst hk
      by_cases h : k = m
      · subst h
        have hnil : (t.filter (fun e => !(e.1 == k))).filter (fun e => e.1 == k) = [] := by
          rw [List.filter_eq_nil_iff]
          intro p hp hpk
          rw [List.mem_filter] at hp
          simp only [beq_iff_eq] at hpk
          simp [hpk] at hp
        simp only [URLSearchParams.setEntries, beq_self_eq_true, if_true, List.filter_cons,
          hnil, List.map_cons, List.map_nil]
      · have hfil : (t.filter (fun e => !(e.1 == k))).filter (fun e => e.1 == m)
            = t.filter (fun e => e.1 == m) := by
          rw [List.filter_filter]
          apply List.filter_congr
          intro p _
          by_cases hpm : p.1 = m
          · have : ¬ p.1 = k := fun hpk => h (hpk ▸ hpm)
            simp [hpm, this]
            intro hmk
            exact this (hpm.trans hmk)
          · simp [hpm]
        have hkm : (k == m) = false := by simpa using h
        simp only [URLSearchParams.setEntries, beq_self_eq_true, if_true, List.filter_cons,
          hkm, Bool.false_eq_true, if_false, hfil, h]
    · have hkn : (k == n) = false := by simpa using hk
      have hs : URLSearchParams.setEntries ((k, x) :: t) n v
          = (k, x) :: URLSearchParams.setEntries t n v := by
        simp [URLSearchParams.setEntries, hk]
      rw [hs]
      by_cases h : n = m
      · subst h
        rw [List.filter_cons]
        simp only [hkn, Bool.false_eq_true, if_false]
        rw [ih]
        simp
      · rw [if_neg h] at ih ⊢
        rw [List.filter_cons, List.filter_cons]
        by_cases hkm : (k == m) = true
        · simp only [hkm, if_true, List.map_cons, ih]
        · simp only [hkm, Bool.false_eq_true, if_false, ih]

theorem URLSearchParams.params_getAll_set (p : URLSearchParams) (n v m : String) :
    (p.set n v).getAll m = if n = m then [v] else p.getAll m := by
  simp only [URLSearchParams.getAll, URLSearchParams.set]
  exact URLSearchParams.params_filter_setEntries p.entries n v m

/-- After the copy loop a key of the inbound query has one value on the target, that of
its last inbound occurrence; a key the inbound query lacks keeps the target's values. -/
theorem copyParams_getAll (inbound : List (String × String)) :
    ∀ (target : URLSearchParams) (k : String),
      (copyParams target inbound).getAll k =
        match (inbound.filter (fun e => e.1 == k)).getLast? with
        | some e => [e.2]
        | none => target.getAll k := by
  induction inbound with
  | nil => intro target k; simp [copyParams]
  | cons kv rest ih =>
    intro target k
    have hstep : copyParams target (kv :: rest) = copyParams (target.set kv.1 kv.2) rest := rfl
    rw [hstep, ih (target.set kv.1 kv.2) k, List.filter_cons]
    by_cases hk : kv.1 = k
    · have hb : (kv.1 == k) = true := by simpa using hk
      simp only [hb, if_true]
      cases hr : rest.filter (fun e => e.1 == k) with
      | nil => simp [URLSearchParams.params_getAll_set, hk]
      | cons a t =>
        have hl : (kv :: a :: t).getLast? = (a :: t).getLast? := by
          simp [List.getLast?_cons_cons]
        rw [hl]
        cases hl2 : (a :: t).getLast? with
        | none => simp at hl2
        | some e => rfl
    · have hb : (kv.1 == k) = false := by simpa using hk
      simp only [hb, Bool.false_eq_true, if_false]
      cases hr : (rest.filter (fun e => e.1 == k)).getLast? with
      | none => simp [URLSearchParams.params_getAll_set, hk]
      | some e => rfl

/-- When a key occurs once in the inbound query, with value `v`, the outbound URL of either builder carries that key with exactly the value `v`,
whatever the endpoint's own query holds. -/
theorem single_key_carried (env : Env) (cfg : Ready.Config) (request : Request)
    (endpoint : Option String) (k v : String) (u : URL) (out : Request)
    (hk : request.url.searchParams.entries.filter (fun e => e.1 == k) = [(k, v)])
    (hu : Ready.buildProxyUrl env cfg request.url = .ok u)
    (hout : Worker.buildProxyRequest env request endpoint request.url = .ok out) :
    u.searchParams.getAll k = [v] ∧ u.searchParams.get k = some v ∧
    out.url.searchParams.getAll k = [v] ∧ out.url.searchParams.get k = some v := by
  have hcopy : ∀ target, (copyParams target request.url.searchParams.entries).getAll k = [v] := by
    intro target
    rw [copyParams_getAll, hk]
    rfl
  have h1 : u.searchParams.getAll k = [v] := by
    simp only [Ready.buildProxyUrl] at hu
    cases hn : env.newURL (Ready.selectEndpoint cfg).toStr with
    | error e => rw [hn] at hu; simp at hu
    | ok t =>
      rw [hn] at hu
      simp only [Except.ok.injEq] at hu
      subst hu
      exact hcopy _
  have h2 : out.url.searchParams.getAll k = [v] := by
    unfold Worker.buildProxyRequest at hout
    cases hn : env.newURL (endpoint.getD "undefined") with
    | error e => rw [hn] at hout; simp at hout
    | ok t =>
      rw [hn] at hout
      simp only [Except.ok.injEq] at hout
      subst hout
      exact hcopy _
  refine ⟨h1, ?_, h2, ?_⟩
  · simp [URLSearchParams.get, h1]
  · simp [URLSearchParams.get, h2]

/-- The builders run on `sampleGet`, whose query holds `conversion_id` once. -/
theorem single_key_carried_witness :
    sampleOutbound.url.searchParams.getAll "conversion_id" = ["abc123"] ∧
    sampleOutbound.url.searchParams.get "conversion_id" = some "abc123" ∧
    sampleOutbound.url.searchParams.getAll "conversion_id" = ["abc123"] ∧
    sampleOutbound.url.searchParams.get "conversion_id" = some "abc123" :=
  single_key_carried
    { newURL := fun _ => sampleNewURL "https://your-ngrok-url.ngrok.io/postback/involve/event"
      fetch := fun _ => .ok okResponse }
    Ready.CONFIG sampleGet (Worker.getTargetEndpoint Worker.CONFIG) "conversion_id" "abc123"
    sampleOutbound.url sampleOutbound (by decide) rfl rfl

/-! ## Backend failures and internal faults -/

/-- The outcome of `handleRequest` of `cloudflare-worker.js` for an admitted request
whose `fetch` fails. -/
theorem Worker.worker_fetch_failed (env : Env) (cfg : Worker.Config) (request : Request)
    (w : World) (hadm : Worker.Admissible request)
    (hrl : (Worker.checkRateLimit cfg request w).1 = true)
    (hurl : ∃ u, env.newURL ((Worker.getTargetEndpoint cfg).getD "undefined") = .ok u)
    (hdown : ∀ p, ∃ e, env.fetch p = .error e) :
    (Worker.handleRequest env cfg request w).1 =
      .ok (Worker.addResponseHeaders (Response.ofText "Backend Service Unavailable" 503
        [("Content-Type", "text/plain"), ("X-Error-Type", "Backend-Connection-Failed")])) := by
  rw [(Worker.handleRequest_admitted env cfg request w hadm hrl).2.2]
  obtain ⟨u, hu⟩ := hurl
  have hb : ∃ p, Worker.buildProxyRequest env request (Worker.getTargetEndpoint cfg) request.url
      = .ok p := by
    simp only [Worker.buildProxyRequest, hu]
    exact ⟨_, rfl⟩
  obtain ⟨p, hp⟩ := hb
  obtain ⟨e, he⟩ := hdown p
  rw [hp]
  simp only [he]

/-- The outcome of `handleRequest` of `cloudflare-worker-ready.js` for an admissible
request whose `fetch` fails with `e`. -/
theorem Ready.ready_fetch_failed (env : Env) (cfg : Ready.Config) (request : Request)
    (w : World) (hadm : Ready.Admissible cfg request)
    (hurl : ∃ u, env.newURL (Ready.selectEndpoint cfg).toStr = .ok u)
    (e : JsError) (hdown : ∀ p, env.fetch p = .error e) :
    (Ready.handleRequest env cfg request w).1 =
      Ready.createErrorResponse "Internal server error" 500
        [("X-Error-Message", e.message), ("X-Worker-Version", "1.0.0")] := by
  rw [Ready.ready_response env cfg request w hadm]
  obtain ⟨u, hu⟩ := hurl
  simp only [Ready.buildProxyUrl, hu, hdown]

/-- The headers `createErrorResponse` hands to the constructor in the `catch` block. -/
theorem Ready.error_response_spread (m : String) :
    spread
      [("Content-Type", "text/plain"), ("Access-Control-Allow-Origin", "*"), ("X-Error", "true")]
      [("X-Error-Message", m), ("X-Worker-Version", "1.0.0")]
      = [("Content-Type", "text/plain"), ("Access-Control-Allow-Origin", "*"),
          ("X-Error", "true"), ("X-Error-Message", m), ("X-Worker-Version", "1.0.0")] := by
  have h1 : ("Content-Type" == "X-Error-Message") = false := by decide
  have h2 : ("Access-Control-Allow-Origin" == "X-Error-Message") = false := by decide
  have h3 : ("X-Error" == "X-Error-Message") = false := by decide
  have h4 : ("Content-Type" == "X-Worker-Version") = false := by decide
  have h5 : ("Access-Control-Allow-Origin" == "X-Worker-Version") = false := by decide
  have h6 : ("X-Error" == "X-Worker-Version") = false := by decide
  have h7 : ("X-Error-Message" == "X-Worker-Version") = false := by decide
  simp only [spread, List.foldl_cons, List.foldl_nil, List.any_cons, List.any_nil, h1, h2, h3,
    h4, h5, h6, h7, Bool.or_false, Bool.false_eq_true, if_false, List.cons_append,
    List.nil_append, Bool.or_self]

/-- The outcome of `createErrorResponse` with the extra headers of the `catch` block: a
response carrying the normalised message when that is a header value, a thrown error
otherwise. -/
theorem Ready.ready_fault_created (message : String) (status : Nat) (m : String) :
    Ready.createErrorResponse message status
        [("X-Error-Message", m), ("X-Worker-Version", "1.0.0")]
      = if Headers.validValue (Headers.normalizeValue m) = true then
          .ok (Response.ofText message status
            [("Content-Type", "text/plain"), ("Access-Control-Allow-Origin", "*"),
              ("X-Error", "true"), ("X-Error-Message", Headers.normalizeValue m),
              ("X-Worker-Version", "1.0.0")])
        else .error ⟨"Invalid header value"⟩ := by
  have n1 : Headers.normalizeValue "text/plain" = "text/plain" := by decide
  have n2 : Headers.normalizeValue "*" = "*" := by decide
  have n3 : Headers.normalizeValue "true" = "true" := by decide
  have n4 : Headers.normalizeValue "1.0.0" = "1.0.0" := by decide
  have v1 : Headers.validValue "text/plain" = true := by decide
  have v2 : Headers.validValue "*" = true := by decide
  have v3 : Headers.validValue "true" = true := by decide
  have v4 : Headers.validValue "1.0.0" = true := by decide
  simp only [Ready.createErrorResponse, Ready.error_response_spread, Response.create,
    List.map_cons, List.map_nil, List.all_cons, List.all_nil, n1, n2, n3, n4, v1, v2, v3, v4,
    Bool.and_true, Bool.true_and]

/-- The outcome of the constructor in the `catch` block of `cloudflare-worker.js`. -/
theorem Worker.worker_fault_created (m : String) :
    Response.create "Internal Server Error" 500
        [("Content-Type", "text/plain"), ("X-Error", m)]
      = if Headers.validValue (Headers.normalizeValue m) = true then
          .ok (Response.ofText "Internal Server Error" 500
            [("Content-Type", "text/plain"), ("X-Error", Headers.normalizeValue m)])
        else .error ⟨"Invalid header value"⟩ := by
  have n1 : Headers.normalizeValue "text/plain" = "text/plain" := by decide
  have v1 : Headers.validValue "text/plain" = true := by decide
  simp only [Response.create, List.map_cons, List.map_nil, List.all_cons, List.all_nil, n1, v1,
    Bool.and_true, Bool.true_and]

/-- The header list of an error response built with the extra headers of the `catch`
block, for a header value `v`. -/
theorem Ready.error_response_headers (message : String) (status : Nat) (v : String) :
    (Response.ofText message status
        [("Content-Type", "text/plain"), ("Access-Control-Allow-Origin", "*"),
          ("X-Error", "true"), ("X-Error-Message", v), ("X-Worker-Version", "1.0.0")]).headers
      = ⟨[("Content-Type", "text/plain"), ("Access-Control-Allow-Origin", "*"),
          ("X-Error", "true"), ("X-Error-Message", v), ("X-Worker-Version", "1.0.0")]⟩ := by
  have hh : Headers.has ⟨[("Content-Type", "text/plain"), ("Access-Control-Allow-Origin", "*"),
      ("X-Error", "true"), ("X-Error-Message", v), ("X-Worker-Version", "1.0.0")]⟩
      "Content-Type" = true := by
    simp only [Headers.has, List.any_cons, Headers.sameName_refl, Bool.true_or]
  simp only [Response.ofText, hh, if_true]

theorem Ready.error_response_get (message : String) (status : Nat) (v : String) :
    (Response.ofText message status
        [("Content-Type", "text/plain"), ("Access-Control-Allow-Origin", "*"),
          ("X-Error", "true"), ("X-Error-Message", v),
          ("X-Worker-Version", "1.0.0")]).headers.get "X-Error-Message"
      = some v := by
  have h1 : Headers.sameName "Content-Type" "X-Error-Message" = false := by decide
  have h2 : Headers.sameName "Access-Control-Allow-Origin" "X-Error-Message" = false := by decide
  have h3 : Headers.sameName "X-Error" "X-Error-Message" = false := by decide
  have h4 : Headers.sameName "X-Error-Message" "X-Error-Message" = true := by decide
  have h5 : Headers.sameName "X-Worker-Version" "X-Error-Message" = false := by decide
  rw [Ready.error_response_headers]
  simp only [Headers.get, Headers.getAll, List.filter_cons, h1, h2, h3, h4, h5,
    Bool.false_eq_true, if_false, if_true, List.filter_nil, List.map_cons, List.map_nil]
  simp [String.intercalate, String.intercalate.go]

theorem Ready.error_response_marker (message : String) (status : Nat) (v : String) :
    (Response.ofText message status
        [("Content-Type", "text/plain"), ("Access-Control-Allow-Origin", "*"),
          ("X-Error", "true"), ("X-Error-Message", v),
          ("X-Worker-Version", "1.0.0")]).headers.get "X-Error" = some "true" ∧
    (Response.ofText message status
        [("Content-Type", "text/plain"), ("Access-Control-Allow-Origin", "*"),
          ("X-Error", "true"), ("X-Error-Message", v),
          ("X-Worker-Version", "1.0.0")]).headers.get "X-Error-Type" = none := by
  have h1 : Headers.sameName "Content-Type" "X-Error" = false := by decide
  have h2 : Headers.sameName "Access-Control-Allow-Origin" "X-Error" = false := by decide
  have h3 : Headers.sameName "X-Error" "X-Error" = true := by decide
  have h4 : Headers.sameName "X-Error-Message" "X-Error" = false := by decide
  have h5 : Headers.sameName "X-Worker-Version" "X-Error" = false := by decide
  have k1 : Headers.sameName "Content-Type" "X-Error-Type" = false := by decide
  have k2 : Headers.sameName "Access-Control-Allow-Origin" "X-Error-Type" = false := by decide
  have k3 : Headers.sameName "X-Error" "X-Error-Type" = false := by decide
  have k4 : Headers.sameName "X-Error-Message" "X-Error-Type" = false := by decide
  have k5 : Headers.sameName "X-Worker-Version" "X-Error-Type" = false := by decide
  rw [Ready.error_response_headers]
  constructor
  · simp only [Headers.get, Headers.getAll, List.filter_cons, h1, h2, h3, h4, h5,
      Bool.false_eq_true, if_false, if_true, List.filter_nil, List.map_cons, List.map_nil]
    simp [String.intercalate, String.intercalate.go]
  · simp only [Headers.get, Headers.getAll, List.filter_cons, k1, k2, k3, k4, k5,
      Bool.false_eq_true, if_false, List.filter_nil, List.map_nil]

/-- C11 (amended). A valid GET request handled twice while the backend cannot be
reached: `handleRequest` of `cloudflare-worker.js` answers 503 both times, with the same
response and `X-Error-Type: Backend-Connection-Failed`, when the client is under its
limit at both attempts; `handleRequest` of `cloudflare-worker-ready.js` never answers
503: the outcome of each attempt is that of `createErrorResponse` in the `catch` block,
which is a response with status 500, `X-Error: true`, no `X-Error-Type` and the
normalised message of the transport error in `X-Error-Message` when that is a header
value, and a thrown error, so no response, when it is not. -/
theorem backend_down_twice (env1 env2 : Env) (wcfg : Worker.Config) (rcfg : Ready.Config)
    (request : Request) (w : World) (t1 t2 : Nat) (e1 e2 : JsError)
    (hW : Worker.Admissible request) (hR : Ready.Admissible rcfg request)
    (hrl1 : (Worker.checkRateLimit wcfg request { w with now := t1 }).1 = true)
    (hrl2 : (Worker.checkRateLimit wcfg request
      { (Worker.handleRequest env1 wcfg request { w with now := t1 }).2 with now := t2 }).1 = true)
    (hWu1 : ∃ u, env1.newURL ((Worker.getTargetEndpoint wcfg).getD "undefined") = .ok u)
    (hWu2 : ∃ u, env2.newURL ((Worker.getTargetEndpoint wcfg).getD "undefined") = .ok u)
    (hRu1 : ∃ u, env1.newURL (Ready.selectEndpoint rcfg).toStr = .ok u)
    (hRu2 : ∃ u, env2.newURL (Ready.selectEndpoint rcfg).toStr = .ok u)
    (hdown1 : ∀ p, env1.fetch p = .error e1) (hdown2 : ∀ p, env2.fetch p = .error e2) :
    (∃ r1 r2,
      (Worker.handleRequests wcfg [(env1, request, t1), (env2, request, t2)] w).1
        = [.ok r1, .ok r2] ∧
      r1.status = 503 ∧ r2.status = 503 ∧ r1 = r2 ∧
      r1.headers.get "X-Error-Type" = some "Backend-Connection-Failed" ∧
      r2.headers.get "X-Error-Type" = some "Backend-Connection-Failed") ∧
    (∃ res1 res2,
      (Ready.handleRequests rcfg [(env1, request, t1), (env2, request, t2)] w).1
        = [res1, res2] ∧
      ∀ a ∈ [(res1, e1), (res2, e2)],
        a.1 = Ready.createErrorResponse "Internal server error" 500
          [("X-Error-Message", a.2.message), ("X-Worker-Version", "1.0.0")] ∧
        (Headers.validValue (Headers.normalizeValue a.2.message) = true →
          ∃ r, a.1 = .ok r ∧ r.status = 500 ∧
            r.headers.get "X-Error" = some "true" ∧
            r.headers.get "X-Error-Type" = none ∧
            r.headers.get "X-Error-Message" = some (Headers.normalizeValue a.2.message)) ∧
        (Headers.validValue (Headers.normalizeValue a.2.message) = false →
          ∃ e, a.1 = .error e)) := by
  constructor
  · refine ⟨Worker.addResponseHeaders (Response.ofText "Backend Service Unavailable" 503
        [("Content-Type", "text/plain"), ("X-Error-Type", "Backend-Connection-Failed")]),
      Worker.addResponseHeaders (Response.ofText "Backend Service Unavailable" 503
        [("Content-Type", "text/plain"), ("X-Error-Type", "Backend-Connection-Failed")]),
      ?_, rfl, rfl, rfl, by decide, by decide⟩
    simp only [Worker.handleRequests]
    rw [Worker.worker_fetch_failed env1 wcfg request _ hW hrl1 hWu1 (fun p => ⟨e1, hdown1 p⟩),
      Worker.worker_fetch_failed env2 wcfg request _ hW hrl2 hWu2 (fun p => ⟨e2, hdown2 p⟩)]
  · have key : ∀ m : String,
        (Headers.validValue (Headers.normalizeValue m) = true →
          ∃ r, Ready.createErrorResponse "Internal server error" 500
              [("X-Error-Message", m), ("X-Worker-Version", "1.0.0")] = .ok r ∧
            r.status = 500 ∧
            r.headers.get "X-Error" = some "true" ∧
            r.headers.get "X-Error-Type" = none ∧
            r.headers.get "X-Error-Message" = some (Headers.normalizeValue m)) ∧
        (Headers.validValue (Headers.normalizeValue m) = false →
          ∃ e, Ready.createErrorResponse "Internal server error" 500
              [("X-Error-Message", m), ("X-Worker-Version", "1.0.0")] = .error e) := by
      intro m
      constructor
      · intro hv
        refine ⟨_, by rw [Ready.ready_fault_created, if_pos hv], rfl,
          (Ready.error_response_marker _ _ _).1, (Ready.error_response_marker _ _ _).2,
          Ready.error_response_get _ _ _⟩
      · intro hv
        exact ⟨_, by rw [Ready.ready_fault_created, if_neg (by simp [hv])]⟩
    refine ⟨_, _, rfl, ?_⟩
    intro a ha
    simp only [List.mem_cons, List.mem_singleton, List.not_mem_nil, or_false] at ha
    rcases ha with rfl | rfl
    · have h := Ready.ready_fetch_failed env1 rcfg request { w with now := t1 } hR hRu1 e1 hdown1
      simp only
      rw [h]
      exact ⟨rfl, key e1.message⟩
    · have h := Ready.ready_fetch_failed env2 rcfg request
        { (Ready.handleRequest env1 rcfg request { w with now := t1 }).2 with now := t2 }
        hR hRu2 e2 hdown2
      simp only
      rw [h]
      exact ⟨rfl, key e2.message⟩

/-- C11, a concrete pair of attempts: `sampleGet` at clock values 0 and 1000 with an
unreachable backend, from an empty cache. -/
theorem backend_down_twice_witness :
    (∃ r1 r2,
      (Worker.handleRequests Worker.CONFIG
          [(backendDown, sampleGet, 0), (backendDown, sampleGet, 1000)] emptyWorld).1
        = [.ok r1, .ok r2] ∧
      r1.status = 503 ∧ r2.status = 503 ∧ r1 = r2 ∧
      r1.headers.get "X-Error-Type" = some "Backend-Connection-Failed" ∧
      r2.headers.get "X-Error-Type" = some "Backend-Connection-Failed") ∧
    (∃ res1 res2,
      (Ready.handleRequests Ready.CONFIG
          [(backendDown, sampleGet, 0), (backendDown, sampleGet, 1000)] emptyWorld).1
        = [res1, res2] ∧
      ∀ a ∈ [(res1, JsError.mk "connect ECONNREFUSED"),
          (res2, JsError.mk "connect ECONNREFUSED")],
        a.1 = Ready.createErrorResponse "Internal server error" 500
          [("X-Error-Message", a.2.message), ("X-Worker-Version", "1.0.0")] ∧
        (Headers.validValue (Headers.normalizeValue a.2.message) = true →
          ∃ r, a.1 = .ok r ∧ r.status = 500 ∧
            r.headers.get "X-Error" = some "true" ∧
            r.headers.get "X-Error-Type" = none ∧
            r.headers.get "X-Error-Message" = some (Headers.normalizeValue a.2.message)) ∧
        (Headers.validValue (Headers.normalizeValue a.2.message) = false →
          ∃ e, a.1 = .error e)) :=
  backend_down_twice backendDown backendDown Worker.CONFIG Ready.CONFIG sampleGet emptyWorld
    0 1000 ⟨"connect ECONNREFUSED"⟩ ⟨"connect ECONNREFUSED"⟩
    ⟨by decide, by decide⟩ ⟨by decide, by decide⟩ (by decide) (by decide)
    ⟨_, rfl⟩ ⟨_, rfl⟩ ⟨_, rfl⟩ ⟨_, rfl⟩ (fun _ => rfl) (fun _ => rfl)

/-- C11 as stated fails for `cloudflare-worker-ready.js`: the valid request `sampleGet`,
handled twice while the backend cannot be reached, is answered 500 both times, not 503,
and carries no `X-Error-Type`. -/
theorem ready_backend_down_answered_500 :
    Ready.Admissible Ready.CONFIG sampleGet ∧
    ∃ r1 r2,
      (Ready.handleRequests Ready.CONFIG
          [(backendDown, sampleGet, 0), (backendDown, sampleGet, 1000)] emptyWorld).1
        = [.ok r1, .ok r2] ∧
      r1.status = 500 ∧ r2.status = 500 ∧
      r1.headers.get "X-Error-Type" = none ∧ r2.headers.get "X-Error-Type" = none ∧
      r1.headers.get "X-Error-Message" = some "connect ECONNREFUSED" ∧
      r2.headers.get "X-Error-Message" = some "connect ECONNREFUSED" :=
  ⟨⟨by decide, by decide⟩,
    Response.ofText "Internal server error" 500
      [("Content-Type", "text/plain"), ("Access-Control-Allow-Origin", "*"),
        ("X-Error", "true"), ("X-Error-Message", "connect ECONNREFUSED"),
        ("X-Worker-Version", "1.0.0")],
    Response.ofText "Internal server error" 500
      [("Content-Type", "text/plain"), ("Access-Control-Allow-Origin", "*"),
        ("X-Error", "true"), ("X-Error-Message", "connect ECONNREFUSED"),
        ("X-Worker-Version", "1.0.0")],
    by decide, by decide, by decide, by decide, by decide, by decide, by decide⟩

/-! ## Response normalisation and error responses -/

/-- C12. The normalizer of either file returns the status, status text and body of the
backend response; every header whose name differs, ignoring case, from the names the
normalizer sets reads as on the backend response. -/
theorem normalizer_frame (response : Response) :
    ((Ready.processResponse response).status = response.status ∧
      (Ready.processResponse response).statusText = response.statusText ∧
      (Ready.processResponse response).body = response.body ∧
      ∀ name,
        (∀ n ∈ ["Access-Control-Allow-Origin", "Access-Control-Allow-Methods",
            "Access-Control-Allow-Headers", "X-Powered-By", "X-ByteC-Proxy"],
          Headers.sameName n name = false) →
        (Ready.processResponse response).headers.get name = response.headers.get name ∧
          (Ready.processResponse response).headers.getAll name
            = response.headers.getAll name) ∧
    ((Worker.addResponseHeaders response).status = response.status ∧
      (Worker.addResponseHeaders response).statusText = response.statusText ∧
      (Worker.addResponseHeaders response).body = response.body ∧
      ∀ name,
        (∀ n ∈ ["Access-Control-Allow-Origin", "Access-Control-Allow-Methods",
            "Access-Control-Allow-Headers", "X-Frame-Options", "X-Content-Type-Options",
            "X-Proxy-By", "X-Proxy-Version"],
          Headers.sameName n name = false) →
        (Worker.addResponseHeaders response).headers.get name = response.headers.get name ∧
          (Worker.addResponseHeaders response).headers.getAll name
            = response.headers.getAll name) := by
  refine ⟨⟨rfl, rfl, rfl, ?_⟩, ⟨rfl, rfl, rfl, ?_⟩⟩
  · intro name hn
    have h1 := hn "Access-Control-Allow-Origin" (by simp)
    have h2 := hn "Access-Control-Allow-Methods" (by simp)
    have h3 := hn "Access-Control-Allow-Headers" (by simp)
    have h4 := hn "X-Powered-By" (by simp)
    have h5 := hn "X-ByteC-Proxy" (by simp)
    simp only [Ready.processResponse, Response.ofStream]
    constructor
    · rw [Headers.get_set_other _ _ _ _ h5, Headers.get_set_other _ _ _ _ h4,
        Headers.get_set_other _ _ _ _ h3, Headers.get_set_other _ _ _ _ h2,
        Headers.get_set_other _ _ _ _ h1]
    · simp only [Headers.getAll_set, h1, h2, h3, h4, h5, Bool.false_eq_true, if_false]
  · intro name hn
    have h1 := hn "Access-Control-Allow-Origin" (by simp)
    have h2 := hn "Access-Control-Allow-Methods" (by simp)
    have h3 := hn "Access-Control-Allow-Headers" (by simp)
    have h4 := hn "X-Frame-Options" (by simp)
    have h5 := hn "X-Content-Type-Options" (by simp)
    have h6 := hn "X-Proxy-By" (by simp)
    have h7 := hn "X-Proxy-Version" (by simp)
    simp only [Worker.addResponseHeaders, Response.ofStream]
    constructor
    · rw [Headers.get_set_other _ _ _ _ h7, Headers.get_set_other _ _ _ _ h6,
        Headers.get_set_other _ _ _ _ h5, Headers.get_set_other _ _ _ _ h4,
        Headers.get_set_other _ _ _ _ h3, Headers.get_set_other _ _ _ _ h2,
        Headers.get_set_other _ _ _ _ h1]
    · simp only [Headers.getAll_set, h1, h2, h3, h4, h5, h6, h7, Bool.false_eq_true, if_false]

/-- The three CORS headers after `processResponse`. -/
theorem Ready.processResponse_cors (response : Response) :
    (Ready.processResponse response).headers.getAll "Access-Control-Allow-Origin" = ["*"] ∧
    (Ready.processResponse response).headers.getAll "Access-Control-Allow-Methods"
      = ["GET, POST, OPTIONS"] ∧
    (Ready.processResponse response).headers.getAll "Access-Control-Allow-Headers"
      = ["Content-Type, Authorization"] := by
  have a1 : Headers.sameName "X-ByteC-Proxy" "Access-Control-Allow-Origin" = false := by decide
  have a2 : Headers.sameName "X-Powered-By" "Access-Control-Allow-Origin" = false := by decide
  have a3 : Headers.sameName "Access-Control-Allow-Headers" "Access-Control-Allow-Origin"
      = false := by decide
  have a4 : Headers.sameName "Access-Control-Allow-Methods" "Access-Control-Allow-Origin"
      = false := by decide
  have b1 : Headers.sameName "X-ByteC-Proxy" "Access-Control-Allow-Methods" = false := by decide
  have b2 : Headers.sameName "X-Powered-By" "Access-Control-Allow-Methods" = false := by decide
  have b3 : Headers.sameName "Access-Control-Allow-Headers" "Access-Control-Allow-Methods"
      = false := by decide
  have c1 : Headers.sameName "X-ByteC-Proxy" "Access-Control-Allow-Headers" = false := by decide
  have c2 : Headers.sameName "X-Powered-By" "Access-Control-Allow-Headers" = false := by decide
  simp only [Ready.processResponse, Response.ofStream, Headers.getAll_set, a1, a2, a3, a4, b1, b2,
    b3, c1, c2, Headers.sameName_refl, Bool.false_eq_true, if_false, if_true, and_self]

/-- The three CORS headers after `addResponseHeaders`. -/
theorem Worker.addResponseHeaders_cors (response : Response) :
    (Worker.addResponseHeaders response).headers.getAll "Access-Control-Allow-Origin" = ["*"] ∧
    (Worker.addResponseHeaders response).headers.getAll "Access-Control-Allow-Methods"
      = ["GET, POST, OPTIONS"] ∧
    (Worker.addResponseHeaders response).headers.getAll "Access-Control-Allow-Headers"
      = ["Content-Type, Authorization"] := by
  have a1 : Headers.sameName "X-Proxy-Version" "Access-Control-Allow-Origin" = false := by decide
  have a2 : Headers.sameName "X-Proxy-By" "Access-Control-Allow-Origin" = false := by decide
  have a3 : Headers.sameName "X-Content-Type-Options" "Access-Control-Allow-Origin" = false := by
    decide
  have a4 : Headers.sameName "X-Frame-Options" "Access-Control-Allow-Origin" = false := by decide
  have a5 : Headers.sameName "Access-Control-Allow-Headers" "Access-Control-Allow-Origin"
      = false := by decide
  have a6 : Headers.sameName "Access-Control-Allow-Methods" "Access-Control-Allow-Origin"
      = false := by decide
  have b1 : Headers.sameName "X-Proxy-Version" "Access-Control-Allow-Methods" = false := by decide
  have b2 : Headers.sameName "X-Proxy-By" "Access-Control-Allow-Methods" = false := by decide
  have b3 : Headers.sameName "X-Content-Type-Options" "Access-Control-Allow-Methods" = false := by
    decide
  have b4 : Headers.sameName "X-Frame-Options" "Access-Control-Allow-Methods" = false := by decide
  have b5 : Headers.sameName "Access-Control-Allow-Headers" "Access-Control-Allow-Methods"
      = false := by decide
  have c1 : Headers.sameName "X-Proxy-Version" "Access-Control-Allow-Headers" = false := by decide
  have c2 : Headers.sameName "X-Proxy-By" "Access-Control-Allow-Headers" = false := by decide
  have c3 : Headers.sameName "X-Content-Type-Options" "Access-Control-Allow-Headers" = false := by
    decide
  have c4 : Headers.sameName "X-Frame-Options" "Access-Control-Allow-Headers" = false := by decide
  simp only [Worker.addResponseHeaders, Response.ofStream, Headers.getAll_set, a1, a2, a3, a4, a5,
    a6, b1, b2, b3, b4, b5, c1, c2, c3, c4, Headers.sameName_refl, Bool.false_eq_true, if_false,
    if_true, and_self]

theorem Headers.get_of_getAll_single (h : Headers) (name v : String)
    (hv : h.getAll name = [v]) : h.get name = some v := by
  simp only [Headers.get, hv]
  simp [String.intercalate, String.intercalate.go]

/-- C13. Whatever headers the backend response carries, the normalized response of either
file carries `Access-Control-Allow-Origin`, `Access-Control-Allow-Methods` and
`Access-Control-Allow-Headers` once each, with the values `*`, `GET, POST, OPTIONS` and
`Content-Type, Authorization`; so the response to an admitted request whose backend
answers carries `Access-Control-Allow-Origin: *`, as it does for
`GET /involve/event?conversion_id=abc123` with a backend answering 200 `OK`. -/
theorem cors_headers_set (response : Response) (env : Env) (wcfg : Worker.Config)
    (rcfg : Ready.Config) (request : Request) (w : World) :
    (∀ out ∈ [Ready.processResponse response, Worker.addResponseHeaders response],
      out.headers.getAll "Access-Control-Allow-Origin" = ["*"] ∧
      out.headers.getAll "Access-Control-Allow-Methods" = ["GET, POST, OPTIONS"] ∧
      out.headers.getAll "Access-Control-Allow-Headers" = ["Content-Type, Authorization"] ∧
      out.headers.get "Access-Control-Allow-Origin" = some "*" ∧
      out.headers.get "Access-Control-Allow-Methods" = some "GET, POST, OPTIONS" ∧
      out.headers.get "Access-Control-Allow-Headers" = some "Content-Type, Authorization") ∧
    (Worker.Admissible request → (Worker.checkRateLimit wcfg request w).1 = true →
      ∀ p r, Worker.buildProxyRequest env request (Worker.getTargetEndpoint wcfg) request.url
          = .ok p → env.fetch p = .ok r →
        (Worker.handleRequest env wcfg request w).1 = .ok (Worker.addResponseHeaders r) ∧
        ∃ resp, (Worker.handleRequest env wcfg request w).1 = .ok resp ∧
          resp.headers.getAll "Access-Control-Allow-Origin" = ["*"]) ∧
    (Ready.Admissible rcfg request →
      ∀ u r, Ready.buildProxyUrl env rcfg request.url = .ok u →
        env.fetch (Ready.buildProxyRequest request u) = .ok r →
        (Ready.handleRequest env rcfg request w).1 = .ok (Ready.processResponse r) ∧
        ∃ resp, (Ready.handleRequest env rcfg request w).1 = .ok resp ∧
          resp.headers.getAll "Access-Control-Allow-Origin" = ["*"]) ∧
    (∀ res ∈ [(Worker.handleRequest (backendAnswering okResponse) Worker.CONFIG sampleGet
          emptyWorld).1,
        (Ready.handleRequest (backendAnswering okResponse) Ready.CONFIG sampleGet
          emptyWorld).1],
      ∃ resp, res = .ok resp ∧ resp.status = 200 ∧ resp.body = some "OK" ∧
        resp.headers.getAll "Access-Control-Allow-Origin" = ["*"]) := by
  refine ⟨?_, ?_, ?_, ?_⟩
  · intro out hout
    simp only [List.mem_cons, List.mem_singleton, List.not_mem_nil, or_false] at hout
    rcases hout with rfl | rfl
    · obtain ⟨h1, h2, h3⟩ := Ready.processResponse_cors response
      exact ⟨h1, h2, h3, Headers.get_of_getAll_single _ _ _ h1,
        Headers.get_of_getAll_single _ _ _ h2, Headers.get_of_getAll_single _ _ _ h3⟩
    · obtain ⟨h1, h2, h3⟩ := Worker.addResponseHeaders_cors response
      exact ⟨h1, h2, h3, Headers.get_of_getAll_single _ _ _ h1,
        Headers.get_of_getAll_single _ _ _ h2, Headers.get_of_getAll_single _ _ _ h3⟩
  · intro hadm hrl p r hp hf
    have hresp : (Worker.handleRequest env wcfg request w).1
        = .ok (Worker.addResponseHeaders r) := by
      rw [(Worker.handleRequest_admitted env wcfg request w hadm hrl).2.2, hp]
      simp only [hf]
    exact ⟨hresp, _, hresp, (Worker.addResponseHeaders_cors r).1⟩
  · intro hadm u r hu hf
    have hresp : (Ready.handleRequest env rcfg request w).1
        = .ok (Ready.processResponse r) := by
      rw [Ready.ready_response env rcfg request w hadm, hu]
      simp only [hf]
    exact ⟨hresp, _, hresp, (Ready.processResponse_cors r).1⟩
  · intro res hres
    simp only [List.mem_cons, List.mem_singleton, List.not_mem_nil, or_false] at hres
    rcases hres with rfl | rfl
    · exact ⟨Worker.addResponseHeaders okResponse, by decide, by decide, by decide, by decide⟩
    · exact ⟨Ready.processResponse okResponse, by decide, by decide, by decide, by decide⟩

/-- The header `X-Error` of the response of the `catch` block of `cloudflare-worker.js`,
for a header value `v`. -/
theorem Worker.fault_header (v : String) :
    (Response.ofText "Internal Server Error" 500
        [("Content-Type", "text/plain"), ("X-Error", v)]).headers.get "X-Error" = some v := by
  have h1 : Headers.sameName "Content-Type" "X-Error" = false := by decide
  have h2 : Headers.sameName "X-Error" "X-Error" = true := by decide
  have hh : Headers.has ⟨[("Content-Type", "text/plain"), ("X-Error", v)]⟩
      "Content-Type" = true := by
    simp only [Headers.has, List.any_cons, Headers.sameName_refl, Bool.true_or]
  simp only [Response.ofText, hh, if_true, Headers.get, Headers.getAll, List.filter_cons, h1,
    h2, Bool.false_eq_true, if_false, List.filter_nil, List.map_cons, List.map_nil]
  simp [String.intercalate, String.intercalate.go]

/-- C14 (amended). A fault raised inside the `try` block of `handleRequest` has the
outcome of the constructor in the `catch` block, called with status 500, a fixed body
and the error message as the value of one header (`X-Error` in `cloudflare-worker.js`,
`X-Error-Message` in `cloudflare-worker-ready.js`). When the normalised message is a
header value the client receives status 500, the fixed body and the normalised message
in that header; otherwise the constructor throws and `handleRequest` returns no
response. Two messages with the same normalised form give the same outcome, as
`out of memory` with and without a trailing space do; two accepted messages with
different normalised forms give different responses; a message with a line break gives
no response. -/
theorem fault_response (env : Env) (wcfg : Worker.Config) (rcfg : Ready.Config)
    (request : Request) (w : World) :
    (startsWith request.url.pathname "/involve/event" = true →
      ∀ error w2, Worker.tryBlock env wcfg request request.url w = (.error error, w2) →
        (Worker.handleRequest env wcfg request w).1
          = Response.create "Internal Server Error" 500
              [("Content-Type", "text/plain"), ("X-Error", error.message)] ∧
        (Headers.validValue (Headers.normalizeValue error.message) = true →
          ∃ resp, (Worker.handleRequest env wcfg request w).1 = .ok resp ∧
            resp.status = 500 ∧ resp.body = some "Internal Server Error" ∧
            resp.headers.get "X-Error" = some (Headers.normalizeValue error.message)) ∧
        (Headers.validValue (Headers.normalizeValue error.message) = false →
          ∃ e, (Worker.handleRequest env wcfg request w).1 = .error e)) ∧
    (includes request.url.pathname "/involve/event" = true →
      ∀ error w2, Ready.tryBlock env rcfg request request.url w.now w = (.error error, w2) →
        (Ready.handleRequest env rcfg request w).1
          = Ready.createErrorResponse "Internal server error" 500
              [("X-Error-Message", error.message), ("X-Worker-Version", "1.0.0")] ∧
        (Headers.validValue (Headers.normalizeValue error.message) = true →
          ∃ resp, (Ready.handleRequest env rcfg request w).1 = .ok resp ∧
            resp.status = 500 ∧ resp.body = some "Internal server error" ∧
            resp.headers.get "X-Error-Message"
              = some (Headers.normalizeValue error.message)) ∧
        (Headers.validValue (Headers.normalizeValue error.message) = false →
          ∃ e, (Ready.handleRequest env rcfg request w).1 = .error e)) ∧
    (∀ m1 m2 : String, Headers.normalizeValue m1 = Headers.normalizeValue m2 →
      Response.create "Internal Server Error" 500
          [("Content-Type", "text/plain"), ("X-Error", m1)]
        = Response.create "Internal Server Error" 500
            [("Content-Type", "text/plain"), ("X-Error", m2)] ∧
      Ready.createErrorResponse "Internal server error" 500
          [("X-Error-Message", m1), ("X-Worker-Version", "1.0.0")]
        = Ready.createErrorResponse "Internal server error" 500
            [("X-Error-Message", m2), ("X-Worker-Version", "1.0.0")]) ∧
    (∀ m1 m2 : String, Headers.validValue (Headers.normalizeValue m1) = true →
      Headers.validValue (Headers.normalizeValue m2) = true →
      Headers.normalizeValue m1 ≠ Headers.normalizeValue m2 →
      Response.create "Internal Server Error" 500
          [("Content-Type", "text/plain"), ("X-Error", m1)]
        ≠ Response.create "Internal Server Error" 500
            [("Content-Type", "text/plain"), ("X-Error", m2)] ∧
      Ready.createErrorResponse "Internal server error" 500
          [("X-Error-Message", m1), ("X-Worker-Version", "1.0.0")]
        ≠ Ready.createErrorResponse "Internal server error" 500
            [("X-Error-Message", m2), ("X-Worker-Version", "1.0.0")]) ∧
    ((Worker.handleRequest (brokenUrl "out of memory ") Worker.CONFIG sampleGet emptyWorld).1
        = (Worker.handleRequest (brokenUrl "out of memory") Worker.CONFIG sampleGet
            emptyWorld).1 ∧
      (Ready.handleRequest (brokenUrl "out of memory ") Ready.CONFIG sampleGet emptyWorld).1
        = (Ready.handleRequest (brokenUrl "out of memory") Ready.CONFIG sampleGet
            emptyWorld).1) ∧
    ((∃ e, (Worker.handleRequest (brokenUrl "Invalid URL:\nhttps://") Worker.CONFIG sampleGet
        emptyWorld).1 = .error e) ∧
      (∃ e, (Ready.handleRequest (brokenUrl "Invalid URL:\nhttps://") Ready.CONFIG sampleGet
        emptyWorld).1 = .error e)) := by
  refine ⟨?_, ?_, ?_, ?_, ⟨by decide, by decide⟩,
    ⟨⟨⟨"Invalid header value"⟩, by decide⟩, ⟨⟨"Invalid header value"⟩, by decide⟩⟩⟩
  · intro hp error w2 ht
    have hresp : (Worker.handleRequest env wcfg request w).1
        = Response.create "Internal Server Error" 500
            [("Content-Type", "text/plain"), ("X-Error", error.message)] := by
      simp only [Worker.handleRequest, hp, Bool.not_true, Bool.false_eq_true, if_false, ht]
    refine ⟨hresp, ?_, ?_⟩
    · intro hv
      rw [hresp, Worker.worker_fault_created, if_pos hv]
      exact ⟨_, rfl, rfl, rfl, Worker.fault_header _⟩
    · intro hv
      rw [hresp, Worker.worker_fault_created, if_neg (by simp [hv])]
      exact ⟨_, rfl⟩
  · intro hp error w2 ht
    have hresp : (Ready.handleRequest env rcfg request w).1
        = Ready.createErrorResponse "Internal server error" 500
            [("X-Error-Message", error.message), ("X-Worker-Version", "1.0.0")] := by
      simp only [Ready.handleRequest, hp, Bool.not_true, Bool.false_eq_true, if_false, ht]
    refine ⟨hresp, ?_, ?_⟩
    · intro hv
      rw [hresp, Ready.ready_fault_created, if_pos hv]
      exact ⟨_, rfl, rfl, rfl, Ready.error_response_get _ _ _⟩
    · intro hv
      rw [hresp, Ready.ready_fault_created, if_neg (by simp [hv])]
      exact ⟨_, rfl⟩
  · intro m1 m2 h
    rw [Worker.worker_fault_created, Worker.worker_fault_created, Ready.ready_fault_created, Ready.ready_fault_created, h]
    exact ⟨rfl, rfl⟩
  · intro m1 m2 h1 h2 hne
    rw [Worker.worker_fault_created, Worker.worker_fault_created, Ready.ready_fault_created, Ready.ready_fault_created,
      if_pos h1, if_pos h2, if_pos h1, if_pos h2]
    constructor
    · intro h
      simp only [Except.ok.injEq] at h
      have hg := congrArg (fun r => r.headers.get "X-Error") h
      simp only [Worker.fault_header, Option.some.injEq] at hg
      exact hne hg
    · intro h
      simp only [Except.ok.injEq] at h
      have hg := congrArg (fun r => r.headers.get "X-Error-Message") h
      simp only [Ready.error_response_get, Option.some.injEq] at hg
      exact hne hg

/-- C14 as stated fails: two faults that differ only in their message (the URL
constructor throwing `Invalid URL` or `out of memory` for `sampleGet`) are answered with
different responses by both handlers; the message is the value of a response header. -/
theorem fault_message_in_response :
    (Worker.handleRequest (brokenUrl "Invalid URL") Worker.CONFIG sampleGet emptyWorld).1
      ≠ (Worker.handleRequest (brokenUrl "out of memory") Worker.CONFIG sampleGet emptyWorld).1 ∧
    (Ready.handleRequest (brokenUrl "Invalid URL") Ready.CONFIG sampleGet emptyWorld).1
      ≠ (Ready.handleRequest (brokenUrl "out of memory") Ready.CONFIG sampleGet emptyWorld).1 ∧
    (∃ r1 r2,
      (Worker.handleRequest (brokenUrl "Invalid URL") Worker.CONFIG sampleGet emptyWorld).1
        = .ok r1 ∧
      (Worker.handleRequest (brokenUrl "out of memory") Worker.CONFIG sampleGet emptyWorld).1
        = .ok r2 ∧
      r1.status = 500 ∧ r2.status = 500 ∧
      r1.headers.get "X-Error" = some "Invalid URL" ∧
      r2.headers.get "X-Error" = some "out of memory") ∧
    (∃ r1 r2,
      (Ready.handleRequest (brokenUrl "Invalid URL") Ready.CONFIG sampleGet emptyWorld).1
        = .ok r1 ∧
      (Ready.handleRequest (brokenUrl "out of memory") Ready.CONFIG sampleGet emptyWorld).1
        = .ok r2 ∧
      r1.status = 500 ∧ r2.status = 500 ∧
      r1.headers.get "X-Error-Message" = some "Invalid URL" ∧
      r2.headers.get "X-Error-Message" = some "out of memory") :=
  ⟨by decide, by decide,
    ⟨Response.ofText "Internal Server Error" 500
        [("Content-Type", "text/plain"), ("X-Error", "Invalid URL")],
      Response.ofText "Internal Server Error" 500
        [("Content-Type", "text/plain"), ("X-Error", "out of memory")],
      by decide, by decide, by decide, by decide, by decide, by decide⟩,
    ⟨Response.ofText "Internal server error" 500
        [("Content-Type", "text/plain"), ("Access-Control-Allow-Origin", "*"),
          ("X-Error", "true"), ("X-Error-Message", "Invalid URL"),
          ("X-Worker-Version", "1.0.0")],
      Response.ofText "Internal server error" 500
        [("Content-Type", "text/plain"), ("Access-Control-Allow-Origin", "*"),
          ("X-Error", "true"), ("X-Error-Message", "out of memory"),
          ("X-Worker-Version", "1.0.0")],
      by decide, by decide, by decide, by decide, by decide, by decide⟩⟩

theorem Ready.plain_error_headers (message : String) (status : Nat) :
    (Response.ofText message status
        [("Content-Type", "text/plain"), ("Access-Control-Allow-Origin", "*"),
          ("X-Error", "true")]).headers
      = ⟨[("Content-Type", "text/plain"), ("Access-Control-Allow-Origin", "*"),
          ("X-Error", "true")]⟩ := by
  rfl

/-- The three fixed headers of an error response, without extra headers and with the
extra headers of the `catch` block. -/
theorem Ready.error_response_fixed (message : String) (status : Nat) (v : String) :
    ∀ r ∈ [Response.ofText message status
          [("Content-Type", "text/plain"), ("Access-Control-Allow-Origin", "*"),
            ("X-Error", "true")],
        Response.ofText message status
          [("Content-Type", "text/plain"), ("Access-Control-Allow-Origin", "*"),
            ("X-Error", "true"), ("X-Error-Message", v), ("X-Worker-Version", "1.0.0")]],
      r.status = status ∧ r.body = some message ∧
      r.headers.getAll "X-Error" = ["true"] ∧
      r.headers.getAll "Access-Control-Allow-Origin" = ["*"] ∧
      r.headers.getAll "Content-Type" = ["text/plain"] ∧
      r.headers.get "X-Error" = some "true" ∧
      r.headers.get "Access-Control-Allow-Origin" = some "*" ∧
      r.headers.get "Content-Type" = some "text/plain" := by
  have a1 : Headers.sameName "Content-Type" "X-Error" = false := by decide
  have a2 : Headers.sameName "Access-Control-Allow-Origin" "X-Error" = false := by decide
  have a4 : Headers.sameName "X-Error-Message" "X-Error" = false := by decide
  have a5 : Headers.sameName "X-Worker-Version" "X-Error" = false := by decide
  have b1 : Headers.sameName "Content-Type" "Access-Control-Allow-Origin" = false := by decide
  have b3 : Headers.sameName "X-Error" "Access-Control-Allow-Origin" = false := by decide
  have b4 : Headers.sameName "X-Error-Message" "Access-Control-Allow-Origin" = false := by decide
  have b5 : Headers.sameName "X-Worker-Version" "Access-Control-Allow-Origin" = false := by decide
  have c2 : Headers.sameName "Access-Control-Allow-Origin" "Content-Type" = false := by decide
  have c3 : Headers.sameName "X-Error" "Content-Type" = false := by decide
  have c4 : Headers.sameName "X-Error-Message" "Content-Type" = false := by decide
  have c5 : Headers.sameName "X-Worker-Version" "Content-Type" = false := by decide
  intro r hr
  simp only [List.mem_cons, List.mem_singleton, List.not_mem_nil, or_false] at hr
  have key : r.headers.getAll "X-Error" = ["true"] ∧
      r.headers.getAll "Access-Control-Allow-Origin" = ["*"] ∧
      r.headers.getAll "Content-Type" = ["text/plain"] := by
    rcases hr with rfl | rfl
    · rw [Ready.plain_error_headers]
      simp only [Headers.getAll, List.filter_cons, a1, a2, b1, b3, c2, c3, Headers.sameName_refl,
        Bool.false_eq_true, if_false, if_true, List.filter_nil, List.map_cons, List.map_nil,
        and_self]
    · rw [Ready.error_response_headers]
      simp only [Headers.getAll, List.filter_cons, a1, a2, a4, a5, b1, b3, b4, b5, c2, c3, c4, c5,
        Headers.sameName_refl, Bool.false_eq_true, if_false, if_true, List.filter_nil,
        List.map_cons, List.map_nil, and_self]
  obtain ⟨k1, k2, k3⟩ := key
  have hsb : r.status = status ∧ r.body = some message := by
    rcases hr with rfl | rfl <;> exact ⟨rfl, rfl⟩
  exact ⟨hsb.1, hsb.2, k1, k2, k3, Headers.get_of_getAll_single _ _ _ k1,
    Headers.get_of_getAll_single _ _ _ k2, Headers.get_of_getAll_single _ _ _ k3⟩

/-- C15. In `cloudflare-worker-ready.js` a response of `handleRequest` is either the
processed backend response or an error response with status 404, 405, 400 or 500 (the
429 of the rate limiter has the same form) that carries `X-Error: true`,
`Access-Control-Allow-Origin: *` and `Content-Type: text/plain`, each once; no response
is returned only when the `catch` block is reached with an error message that is not a
header value; the extra headers of the `catch` block leave the three as they are. -/
theorem error_responses_marked (env : Env) (cfg : Ready.Config) (request : Request)
    (w : World) :
    ((∃ u r, Ready.buildProxyUrl env cfg request.url = .ok u ∧
        env.fetch (Ready.buildProxyRequest request u) = .ok r ∧
        (Ready.handleRequest env cfg request w).1 = .ok (Ready.processResponse r)) ∨
      (∃ resp, (Ready.handleRequest env cfg request w).1 = .ok resp ∧
        resp.status ∈ [404, 405, 400, 500] ∧
        resp.headers.getAll "X-Error" = ["true"] ∧
        resp.headers.getAll "Access-Control-Allow-Origin" = ["*"] ∧
        resp.headers.getAll "Content-Type" = ["text/plain"] ∧
        resp.headers.get "X-Error" = some "true" ∧
        resp.headers.get "Access-Control-Allow-Origin" = some "*" ∧
        resp.headers.get "Content-Type" = some "text/plain") ∨
      (∃ error w2 e,
        Ready.tryBlock env cfg request request.url w.now w = (.error error, w2) ∧
        Headers.validValue (Headers.normalizeValue error.message) = false ∧
        (Ready.handleRequest env cfg request w).1 = .error e)) ∧
    (Ready.createErrorResponse "Rate limit exceeded" 429 [] = .ok Ready.rateLimited ∧
      Ready.rateLimited.status = 429 ∧ Ready.rateLimited.headers.get "X-Error" = some "true" ∧
      Ready.rateLimited.headers.get "Access-Control-Allow-Origin" = some "*" ∧
      Ready.rateLimited.headers.get "Content-Type" = some "text/plain") ∧
    (∀ message status m,
      ∃ plain, Ready.createErrorResponse message status [] = .ok plain ∧
        ∀ resp, Ready.createErrorResponse message status
            [("X-Error-Message", m), ("X-Worker-Version", "1.0.0")] = .ok resp →
          resp.headers.get "X-Error" = plain.headers.get "X-Error" ∧
          resp.headers.get "Access-Control-Allow-Origin"
            = plain.headers.get "Access-Control-Allow-Origin" ∧
          resp.headers.get "Content-Type" = plain.headers.get "Content-Type") := by
  have fixed : ∀ (message : String) (status : Nat) (v : String) (r : Response),
      (r = Response.ofText message status
          [("Content-Type", "text/plain"), ("Access-Control-Allow-Origin", "*"),
            ("X-Error", "true")] ∨
        r = Response.ofText message status
          [("Content-Type", "text/plain"), ("Access-Control-Allow-Origin", "*"),
            ("X-Error", "true"), ("X-Error-Message", v), ("X-Worker-Version", "1.0.0")]) →
      status ∈ [404, 405, 400, 500] →
      (r.status ∈ [404, 405, 400, 500] ∧
        r.headers.getAll "X-Error" = ["true"] ∧
        r.headers.getAll "Access-Control-Allow-Origin" = ["*"] ∧
        r.headers.getAll "Content-Type" = ["text/plain"] ∧
        r.headers.get "X-Error" = some "true" ∧
        r.headers.get "Access-Control-Allow-Origin" = some "*" ∧
        r.headers.get "Content-Type" = some "text/plain") := by
    intro message status v r hr hs
    have h := Ready.error_response_fixed message status v r (by
      simp only [List.mem_cons, List.mem_singleton, List.not_mem_nil, or_false]; exact hr)
    obtain ⟨h1, _, h3, h4, h5, h6, h7, h8⟩ := h
    exact ⟨by rw [h1]; exact hs, h3, h4, h5, h6, h7, h8⟩
  have caught : ∀ (error : JsError) (w2 : World),
      Ready.tryBlock env cfg request request.url w.now w = (.error error, w2) →
      (Ready.handleRequest env cfg request w).1
        = Ready.createErrorResponse "Internal server error" 500
            [("X-Error-Message", error.message), ("X-Worker-Version", "1.0.0")] →
      (∃ resp, (Ready.handleRequest env cfg request w).1 = .ok resp ∧
        resp.status ∈ [404, 405, 400, 500] ∧
        resp.headers.getAll "X-Error" = ["true"] ∧
        resp.headers.getAll "Access-Control-Allow-Origin" = ["*"] ∧
        resp.headers.getAll "Content-Type" = ["text/plain"] ∧
        resp.headers.get "X-Error" = some "true" ∧
        resp.headers.get "Access-Control-Allow-Origin" = some "*" ∧
        resp.headers.get "Content-Type" = some "text/plain") ∨
      (∃ error w2 e,
        Ready.tryBlock env cfg request request.url w.now w = (.error error, w2) ∧
        Headers.validValue (Headers.normalizeValue error.message) = false ∧
        (Ready.handleRequest env cfg request w).1 = .error e) := by
    intro error w2 ht hresp
    cases hv : Headers.validValue (Headers.normalizeValue error.message) with
    | true =>
      left
      rw [Ready.ready_fault_created, if_pos hv] at hresp
      exact ⟨_, hresp, fixed _ 500 (Headers.normalizeValue error.message) _ (Or.inr rfl)
        (by simp)⟩
    | false =>
      right
      rw [Ready.ready_fault_created, if_neg (by simp [hv])] at hresp
      exact ⟨error, w2, _, ht, hv, hresp⟩
  refine ⟨?_, ⟨rfl, by decide, by decide, by decide, by decide⟩, ?_⟩
  · by_cases hp : includes request.url.pathname "/involve/event" = true
    · cases hv : Ready.validateRequest cfg request request.url with
      | invalid e s =>
        right; left
        have hresp : (Ready.handleRequest env cfg request w).1
            = .ok (Response.ofText e s
                [("Content-Type", "text/plain"), ("Access-Control-Allow-Origin", "*"),
                  ("X-Error", "true")]) := by
          simp only [Ready.handleRequest, hp, Bool.not_true, Bool.false_eq_true, if_false,
            Ready.tryBlock, hv, Ready.createErrorResponse_plain]
        have hs : s ∈ [404, 405, 400, 500] := by
          simp only [Ready.validateRequest] at hv
          split_ifs at hv
          · simp only [Ready.Validation.invalid.injEq] at hv
            rw [← hv.2]; simp
          · split at hv
            · simp only [Ready.Validation.invalid.injEq] at hv
              rw [← hv.2]; simp
            · simp at hv
        exact ⟨_, hresp, fixed e s "" _ (Or.inl rfl) hs⟩
      | valid =>
        have hresp := Ready.ready_response env cfg request w ⟨hp, hv⟩
        cases hb : Ready.buildProxyUrl env cfg request.url with
        | error e =>
          right
          rw [hb] at hresp
          have ht : Ready.tryBlock env cfg request request.url w.now w = (.error e, w) := by
            simp only [Ready.tryBlock, hv, Ready.checkRateLimit, Bool.not_true,
              Bool.false_eq_true, if_false, hb]
          exact caught e w ht hresp
        | ok u =>
          rw [hb] at hresp
          cases hf : env.fetch (Ready.buildProxyRequest request u) with
          | error e =>
            right
            simp only [hf] at hresp
            have ht : Ready.tryBlock env cfg request request.url w.now w
                = (.error e,
                    { w with fetched := w.fetched ++ [Ready.buildProxyRequest request u] }) := by
              simp only [Ready.tryBlock, hv, Ready.checkRateLimit, Bool.not_true,
                Bool.false_eq_true, if_false, hb, hf]
            exact caught e _ ht hresp
          | ok r =>
            left
            simp only [hf] at hresp
            exact ⟨u, r, rfl, hf, hresp⟩
    · right; left
      have hresp : (Ready.handleRequest env cfg request w).1
          = .ok (Response.ofText "Path not found" 404
              [("Content-Type", "text/plain"), ("Access-Control-Allow-Origin", "*"),
                ("X-Error", "true")]) := by
        simp only [Ready.handleRequest, hp, Bool.not_false, if_true,
          Ready.createErrorResponse_plain]
      exact ⟨_, hresp, fixed _ 404 "" _ (Or.inl rfl) (by simp)⟩
  · intro message status m
    refine ⟨_, Ready.createErrorResponse_plain message status, ?_⟩
    intro resp hresp
    rw [Ready.ready_fault_created] at hresp
    split_ifs at hresp
    simp only [Except.ok.injEq] at hresp
    subst hresp
    have h1 := Ready.error_response_fixed message status (Headers.normalizeValue m)
      (Response.ofText message status
        [("Content-Type", "text/plain"), ("Access-Control-Allow-Origin", "*"),
          ("X-Error", "true")]) (by simp)
    have h2 := Ready.error_response_fixed message status (Headers.normalizeValue m)
      (Response.ofText message status
        [("Content-Type", "text/plain"), ("Access-Control-Allow-Origin", "*"),
          ("X-Error", "true"), ("X-Error-Message", Headers.normalizeValue m),
          ("X-Worker-Version", "1.0.0")]) (by simp)
    obtain ⟨_, _, _, _, _, a6, a7, a8⟩ := h1
    obtain ⟨_, _, _, _, _, b6, b7, b8⟩ := h2
    exact ⟨by rw [a6, b6], by rw [a7, b7], by rw [a8, b8]⟩

/-! ## Endpoint selection -/

/-- In a table with distinct keys the lookup of a key finds the entry that holds it. -/
theorem find_of_mem_nodup (l : List (String × Option String)) (k : String) (v : Option String)
    (hnd : (l.map Prod.fst).Nodup) (hmem : (k, v) ∈ l) :
    l.find? (fun e => e.1 == k) = some (k, v) := by
  induction l with
  | nil => simp at hmem
  | cons e t ih =>
    simp only [List.map_cons, List.nodup_cons] at hnd
    rcases List.mem_cons.1 hmem with h | h
    · subst h
      simp [List.find?_cons]
    · have hne : ¬ e.1 = k := by
        intro he
        apply hnd.1
        rw [he]
        exact List.mem_map_of_mem Prod.fst h
      have hb : (e.1 == k) = false := by simpa using hne
      rw [List.find?_cons, hb]
      exact ih hnd.2 h

theorem find_none_of_not_key (l : List (String × Option String)) (k : String)
    (h : k ∉ l.map Prod.fst) : l.find? (fun e => e.1 == k) = none := by
  rw [List.find?_eq_none]
  intro e he hk
  apply h
  simp only [beq_iff_eq] at hk
  rw [← hk]
  exact List.mem_map_of_mem Prod.fst he

theorem getProperty_of_mem (l : List (String × Option String)) (k : String) (v : Option String)
    (hnd : (l.map Prod.fst).Nodup) (hmem : (k, v) ∈ l) :
    getProperty l k = match v with
      | some s => .str s
      | none => .undefined := by
  simp only [getProperty, find_of_mem_nodup l k v hnd hmem]
  cases v <;> rfl

/-- The endpoint `buildProxyUrl` of `cloudflare-worker-ready.js` selects, for a table
with a populated `fallback` entry: the table's URL for the environment key when the key
names an entry with a non-empty URL, and the fallback URL when the entry's URL is unset
or empty, or when the key names no entry and is not a name every object inherits;
scheme, host and path of the built URL are those of the selected endpoint, whatever the
request. -/
theorem endpoint_selection (env : Env) (cfg : Ready.Config) (fallbackUrl : String)
    (hkeys : (cfg.ENDPOINTS.map Prod.fst).Nodup)
    (hfb : ("fallback", some fallbackUrl) ∈ cfg.ENDPOINTS) (hne : fallbackUrl ≠ "") :
    (∀ url, (cfg.ENVIRONMENT, some url) ∈ cfg.ENDPOINTS → url ≠ "" →
      Ready.selectEndpoint cfg = .str url) ∧
    ((cfg.ENVIRONMENT, none) ∈ cfg.ENDPOINTS ∨ (cfg.ENVIRONMENT, some "") ∈ cfg.ENDPOINTS ∨
        (cfg.ENVIRONMENT ∉ cfg.ENDPOINTS.map Prod.fst ∧
          cfg.ENVIRONMENT ∉ objectPrototypeKeys) →
      Ready.selectEndpoint cfg = .str fallbackUrl ∧
        (Ready.selectEndpoint cfg).truthy = true) ∧
    (∀ originalUrl : URL,
      (Ready.buildProxyUrl env cfg originalUrl).map
          (fun u => (u.protocol, u.hostname, u.port, u.pathname))
        = (env.newURL (Ready.selectEndpoint cfg).toStr).map
            (fun u => (u.protocol, u.hostname, u.port, u.pathname))) := by
  have hfall : getProperty cfg.ENDPOINTS "fallback" = .str fallbackUrl :=
    getProperty_of_mem _ _ _ hkeys hfb
  refine ⟨?_, ?_, ?_⟩
  · intro url hmem hurl
    have h := getProperty_of_mem _ _ _ hkeys hmem
    simp only at h
    simp [Ready.selectEndpoint, h, JsVal.or, JsVal.truthy, hurl]
  · intro hcase
    have hsel : Ready.selectEndpoint cfg = .str fallbackUrl := by
      rcases hcase with h | h | ⟨h1, h2⟩
      · have h := getProperty_of_mem _ _ _ hkeys h
        simp only at h
        simp [Ready.selectEndpoint, h, JsVal.or, JsVal.truthy, hfall]
      · have h := getProperty_of_mem _ _ _ hkeys h
        simp only at h
        simp [Ready.selectEndpoint, h, JsVal.or, JsVal.truthy, hfall]
      · have hc : objectPrototypeKeys.contains cfg.ENVIRONMENT = false := by
          cases hcc : objectPrototypeKeys.contains cfg.ENVIRONMENT with
          | false => rfl
          | true =>
            exfalso; apply h2
            exact List.elem_iff.1 hcc
        have h : getProperty cfg.ENDPOINTS cfg.ENVIRONMENT = .undefined := by
          simp only [getProperty, find_none_of_not_key _ _ h1, hc, Bool.false_eq_true, if_false]
        simp [Ready.selectEndpoint, h, JsVal.or, JsVal.truthy, hfall]
    refine ⟨hsel, ?_⟩
    rw [hsel]
    simp [JsVal.truthy, hne]
  · intro originalUrl
    simp only [Ready.buildProxyUrl]
    cases env.newURL (Ready.selectEndpoint cfg).toStr with
    | error e => rfl
    | ok u => rfl

/-- The selection for the source configuration, whose key `development` names a
populated entry. -/
theorem endpoint_selection_witness :
    (∀ url, (Ready.CONFIG.ENVIRONMENT, some url) ∈ Ready.CONFIG.ENDPOINTS → url ≠ "" →
      Ready.selectEndpoint Ready.CONFIG = .str url) ∧
    ((Ready.CONFIG.ENVIRONMENT, none) ∈ Ready.CONFIG.ENDPOINTS ∨
        (Ready.CONFIG.ENVIRONMENT, some "") ∈ Ready.CONFIG.ENDPOINTS ∨
        (Ready.CONFIG.ENVIRONMENT ∉ Ready.CONFIG.ENDPOINTS.map Prod.fst ∧
          Ready.CONFIG.ENVIRONMENT ∉ objectPrototypeKeys) →
      Ready.selectEndpoint Ready.CONFIG = .str "https://httpbin.org/anything" ∧
        (Ready.selectEndpoint Ready.CONFIG).truthy = true) ∧
    (∀ originalUrl : URL,
      (Ready.buildProxyUrl (backendAnswering okResponse) Ready.CONFIG originalUrl).map
          (fun u => (u.protocol, u.hostname, u.port, u.pathname))
        = ((backendAnswering okResponse).newURL (Ready.selectEndpoint Ready.CONFIG).toStr).map
            (fun u => (u.protocol, u.hostname, u.port, u.pathname))) :=
  endpoint_selection (backendAnswering okResponse) Ready.CONFIG "https://httpbin.org/anything"
    (by decide) (by decide) (by decide)

/-- C16 at the failing input: with the environment key `constructor`, which names no
entry of the table, and a populated fallback, the endpoint `buildProxyUrl` selects is the
member every object inherits under that name, not the fallback URL; the URL constructor
rejects it, `buildProxyUrl` throws, and `handleRequest` answers the request
`GET /involve/event?conversion_id=abc123` with status 500 although the fallback endpoint
is a URL and its backend answers. -/
theorem inherited_key_not_fallback :
    Ready.inheritedKeyConfig.ENVIRONMENT = "constructor" ∧
    Ready.inheritedKeyConfig.ENVIRONMENT ∉ Ready.inheritedKeyConfig.ENDPOINTS.map Prod.fst ∧
    ("fallback", some "https://httpbin.org/anything") ∈ Ready.inheritedKeyConfig.ENDPOINTS ∧
    Ready.selectEndpoint Ready.inheritedKeyConfig = .inherited "constructor" ∧
    Ready.selectEndpoint Ready.inheritedKeyConfig ≠ .str "https://httpbin.org/anything" ∧
    (Ready.buildProxyUrl (backendAnswering okResponse) Ready.inheritedKeyConfig
        sampleGet.url).toOption = none ∧
    (∃ resp,
      (Ready.handleRequest (backendAnswering okResponse) Ready.inheritedKeyConfig sampleGet
        emptyWorld).1 = .ok resp ∧
      resp.status = 500 ∧ resp.headers.get "X-Error-Message" = some "Invalid URL") ∧
    (∃ u, (backendAnswering okResponse).newURL "https://httpbin.org/anything" = .ok u) :=
  ⟨by decide, by decide, by decide, by decide, by decide, by decide,
    ⟨Response.ofText "Internal server error" 500
        [("Content-Type", "text/plain"), ("Access-Control-Allow-Origin", "*"),
          ("X-Error", "true"), ("X-Error-Message", "Invalid URL"),
          ("X-Worker-Version", "1.0.0")],
      by decide, by decide, by decide⟩,
    ⟨_, rfl⟩⟩

/-- C17 (amended). `getTargetEndpoint` of `cloudflare-worker.js` returns the production
endpoint when production is enabled, otherwise the development endpoint when development
is enabled, otherwise the fallback endpoint, each as configured; the result is a
populated URL when the endpoint of an enabled environment is populated along with the
fallback. -/
theorem target_endpoint (cfg : Worker.Config) :
    (cfg.productionEnabled = true → Worker.getTargetEndpoint cfg = cfg.productionEndpoint) ∧
    (cfg.productionEnabled = false → cfg.developmentEnabled = true →
      Worker.getTargetEndpoint cfg = cfg.developmentEndpoint) ∧
    (cfg.productionEnabled = false → cfg.developmentEnabled = false →
      Worker.getTargetEndpoint cfg = cfg.fallbackEndpoint) ∧
    ((∃ s, cfg.fallbackEndpoint = some s ∧ s ≠ "") →
      (cfg.productionEnabled = true → ∃ s, cfg.productionEndpoint = some s ∧ s ≠ "") →
      (cfg.productionEnabled = false → cfg.developmentEnabled = true →
        ∃ s, cfg.developmentEndpoint = some s ∧ s ≠ "") →
      ∃ s, Worker.getTargetEndpoint cfg = some s ∧ s ≠ "") := by
  refine ⟨?_, ?_, ?_, ?_⟩
  · intro hp; simp [Worker.getTargetEndpoint, hp]
  · intro hp hd; simp [Worker.getTargetEndpoint, hp, hd]
  · intro hp hd; simp [Worker.getTargetEndpoint, hp, hd]
  · intro hf hprod hdev
    cases hp : cfg.productionEnabled with
    | true =>
      obtain ⟨s, hs, hne⟩ := hprod hp
      exact ⟨s, by simp [Worker.getTargetEndpoint, hp, hs], hne⟩
    | false =>
      cases hd : cfg.developmentEnabled with
      | true =>
        obtain ⟨s, hs, hne⟩ := hdev hp hd
        exact ⟨s, by simp [Worker.getTargetEndpoint, hp, hd, hs], hne⟩
      | false =>
        obtain ⟨s, hs, hne⟩ := hf
        exact ⟨s, by simp [Worker.getTargetEndpoint, hp, hd, hs], hne⟩

/-- C17 as stated fails: with production enabled, its endpoint unset and the fallback
populated, `getTargetEndpoint` returns the unset endpoint, not the fallback. -/
theorem unset_production_not_fallback :
    Worker.unsetProductionConfig.productionEnabled = true ∧
    Worker.unsetProductionConfig.productionEndpoint = none ∧
    Worker.unsetProductionConfig.fallbackEndpoint = some "https://httpbin.org/anything" ∧
    Worker.getTargetEndpoint Worker.unsetProductionConfig = none ∧
    Worker.getTargetEndpoint Worker.unsetProductionConfig
      ≠ Worker.unsetProductionConfig.fallbackEndpoint := by
  decide

/-! ## The rate-limit key -/

/-- The value of a decimal digit character. -/
theorem digitChar_value : ∀ k, k < 10 →
    (Nat.digitChar k).toNat - 48 = k ∧ Nat.digitChar k ≠ '_' := by
  decide

/-- The digits `Nat.toDigitsCore` puts in front of its accumulator spell the number and
hold no underscore. -/
theorem toDigitsCore_spec : ∀ (fuel n : Nat) (ds : List Char), n < fuel →
    ∃ P : List Char, Nat.toDigitsCore 10 fuel n ds = P ++ ds ∧
      P.foldl (fun a c => a * 10 + (c.toNat - 48)) 0 = n ∧ ∀ c ∈ P, c ≠ '_' := by
  intro fuel
  induction fuel with
  | zero => intro n ds h; omega
  | succ f ih =>
    intro n ds h
    have hd := digitChar_value (n % 10) (Nat.mod_lt _ (by decide))
    by_cases h0 : n / 10 = 0
    · refine ⟨[Nat.digitChar (n % 10)], ?_, ?_, ?_⟩
      · simp [Nat.toDigitsCore, h0]
      · simp only [List.foldl_cons, List.foldl_nil, Nat.zero_mul, Nat.zero_add, hd.1]
        omega
      · intro c hc
        simp only [List.mem_singleton] at hc
        rw [hc]; exact hd.2
    · obtain ⟨P, hP, hval, hno⟩ := ih (n / 10) (Nat.digitChar (n % 10) :: ds) (by omega)
      refine ⟨P ++ [Nat.digitChar (n % 10)], ?_, ?_, ?_⟩
      · simp [Nat.toDigitsCore, h0, hP]
      · rw [List.foldl_append, hval]
        simp only [List.foldl_cons, List.foldl_nil, hd.1]
        omega
      · intro c hc
        rcases List.mem_append.1 hc with h1 | h1
        · exact hno c h1
        · simp only [List.mem_singleton] at h1
          rw [h1]; exact hd.2

/-- The decimal rendering of a number: its characters spell the number and hold no
underscore. -/
theorem repr_spec (n : Nat) :
    (Nat.repr n).data.foldl (fun a c => a * 10 + (c.toNat - 48)) 0 = n ∧
      ∀ c ∈ (Nat.repr n).data, c ≠ '_' := by
  obtain ⟨P, hP, hval, hno⟩ := toDigitsCore_spec (n + 1) n [] (by omega)
  have hdata : (Nat.repr n).data = P := by
    simp [Nat.repr, Nat.toDigits, hP, List.asString]
  rw [hdata]
  exact ⟨hval, hno⟩

theorem repr_injective (a b : Nat) (h : Nat.repr a = Nat.repr b) : a = b := by
  have ha := (repr_spec a).1
  have hb := (repr_spec b).1
  rw [h] at ha
  rw [← ha, hb]

/-- Two lists cut at a separator that occurs in neither tail are equal only part by
part. -/
theorem split_at_separator (x : Char) : ∀ (l1 l2 p1 p2 : List Char),
    x ∉ p1 → x ∉ p2 → l1 ++ x :: p1 = l2 ++ x :: p2 → l1 = l2 ∧ p1 = p2 := by
  intro l1
  induction l1 with
  | nil =>
    intro l2 p1 p2 h1 h2 h
    cases l2 with
    | nil =>
      simp only [List.nil_append, List.cons.injEq, true_and] at h
      exact ⟨rfl, h⟩
    | cons y t =>
      simp only [List.nil_append, List.cons_append, List.cons.injEq] at h
      exfalso; apply h1
      rw [h.2]
      simp
  | cons a t ih =>
    intro l2 p1 p2 h1 h2 h
    cases l2 with
    | nil =>
      simp only [List.nil_append, List.cons_append, List.cons.injEq] at h
      exfalso; apply h2
      rw [← h.2]
      simp
    | cons y t2 =>
      simp only [List.cons_append, List.cons.injEq] at h
      obtain ⟨hl, hp⟩ := ih t2 p1 p2 h1 h2 h.2
      exact ⟨by rw [h.1, hl], hp⟩

theorem Worker.rateKey_data (c : String) (b : Nat) :
    (Worker.rateKey c b).data = c.data ++ '_' :: (Nat.repr b).data := by
  simp only [Worker.rateKey, String.data_append, List.append_assoc]
  rfl

/-- C18. The key `checkRateLimit` of `cloudflare-worker.js` builds from a client
identifier and a bucket index determines both: two keys are equal exactly when the
identifiers are equal and the buckets are equal, whatever characters the identifiers
hold; the bucket is the clock value divided by 60000, rounded down. -/
theorem rate_key_injective (c1 c2 : String) (b1 b2 : Nat) :
    (Worker.rateKey c1 b1 = Worker.rateKey c2 b2 ↔ c1 = c2 ∧ b1 = b2) ∧
    (∀ now, Worker.bucket now = now / 60000) ∧
    (∀ (cfg : Worker.Config) (r1 r2 : Request) (w1 w2 : World),
      (Worker.checkRateLimit cfg r1 w1).1 = true → (Worker.checkRateLimit cfg r2 w2).1 = true →
      (((Worker.checkRateLimit cfg r1 w1).2.timers.getLast?.map Prod.snd
          = (Worker.checkRateLimit cfg r2 w2).2.timers.getLast?.map Prod.snd) ↔
        Worker.clientIP r1 = Worker.clientIP r2 ∧
          Worker.bucket w1.now = Worker.bucket w2.now)) := by
  have hinj : Worker.rateKey c1 b1 = Worker.rateKey c2 b2 ↔ c1 = c2 ∧ b1 = b2 := by
    constructor
    · intro h
      have hd := congrArg String.data h
      rw [Worker.rateKey_data, Worker.rateKey_data] at hd
      obtain ⟨hc, hb⟩ := split_at_separator '_' _ _ _ _
        (fun hm => (repr_spec b1).2 _ hm rfl) (fun hm => (repr_spec b2).2 _ hm rfl) hd
      refine ⟨String.ext hc, repr_injective _ _ (String.ext hb)⟩
    · rintro ⟨rfl, rfl⟩; rfl
  refine ⟨hinj, fun _ => rfl, ?_⟩
  intro cfg r1 r2 w1 w2 h1 h2
  rw [Worker.checkRateLimit_fst] at h1 h2
  rw [Worker.checkRateLimit_allowed cfg r1 w1 (by simpa using h1),
    Worker.checkRateLimit_allowed cfg r2 w2 (by simpa using h2)]
  simp only [List.getLast?_append, List.getLast?_singleton, Option.or, Option.map_some',
    Option.some.injEq]
  constructor
  · intro h
    have hd := congrArg String.data h
    rw [Worker.rateKey_data, Worker.rateKey_data] at hd
    obtain ⟨hc, hb⟩ := split_at_separator '_' _ _ _ _
      (fun hm => (repr_spec _).2 _ hm rfl) (fun hm => (repr_spec _).2 _ hm rfl) hd
    exact ⟨String.ext hc, repr_injective _ _ (String.ext hb)⟩
  · rintro ⟨hc, hb⟩
    rw [hc, hb]

/-! ## Expiry timers -/

theorem mapGet_cons (k : String) (x : Nat) (t : List (String × Nat)) (other : String) :
    mapGet ((k, x) :: t) other = if k = other then some x else mapGet t other := by
  by_cases h : k = other
  · simp [mapGet, List.find?_cons, h]
  · simp [mapGet, List.find?_cons, h]

theorem mapDelete_cons (k : String) (x : Nat) (t : List (String × Nat)) (key : String) :
    mapDelete ((k, x) :: t) key
      = if k = key then mapDelete t key else (k, x) :: mapDelete t key := by
  by_cases h : k = key
  · simp [mapDelete, List.filter_cons, h]
  · simp [mapDelete, List.filter_cons, h]

theorem mapGet_mapDelete_other (m : List (String × Nat)) (key other : String)
    (h : other ≠ key) : mapGet (mapDelete m key) other = mapGet m other := by
  induction m with
  | nil => rfl
  | cons e t ih =>
    obtain ⟨k, x⟩ := e
    rw [mapDelete_cons, mapGet_cons]
    by_cases hk : k = key
    · have hko : ¬ k = other := fun e => h (e.symm.trans hk)
      rw [if_pos hk, if_neg hko, ih]
    · rw [if_neg hk, mapGet_cons, ih]

namespace Worker

theorem rateKey_ne (c1 c2 : String) (b1 b2 : Nat) (h : ¬ (c1 = c2 ∧ b1 = b2)) :
    rateKey c1 b1 ≠ rateKey c2 b2 := by
  intro he
  have hd := congrArg String.data he
  rw [rateKey_data, rateKey_data] at hd
  obtain ⟨hc, hb⟩ := split_at_separator '_' _ _ _ _
    (fun hm => (repr_spec b1).2 _ hm rfl) (fun hm => (repr_spec b2).2 _ hm rfl) hd
  exact h ⟨String.ext hc, repr_injective _ _ (String.ext hb)⟩

/-- The timer an allowed call registers is due at the end of its bucket or later. -/
theorem bucket_end_le (t : Nat) : (bucket t + 1) * 60000 ≤ t + 60000 := by
  simp only [bucket]
  have := Nat.div_mul_le_self t (60 * 1000)
  omega

theorem bucket_mono (a b : Nat) (h : a ≤ b) : bucket a ≤ bucket b :=
  Nat.div_le_div_right h

theorem timersLate_step (cfg : Config) (w : World) (ev : Event) (h : TimersLate w) :
    TimersLate (step cfg w ev) := by
  cases ev with
  | call request =>
    simp only [step]
    by_cases hc : countOf w (clientIP request) (bucket w.now) < cfg.rateLimitPerMinute
    · rw [checkRateLimit_allowed cfg request w hc]
      intro due key hmem
      simp only [List.mem_append, List.mem_singleton, Prod.mk.injEq] at hmem
      rcases hmem with hm | ⟨hd, hk⟩
      · exact h due key hm
      · exact ⟨clientIP request, bucket w.now, hk, by rw [hd]; exact bucket_end_le _⟩
    · rw [checkRateLimit_denied cfg request w (by omega)]
      exact h
  | fire i =>
    simp only [step, fireTimer]
    split
    · rename_i due key _
      split_ifs
      · intro d k hmem
        exact h d k (List.mem_of_mem_eraseIdx hmem)
      · exact h
    · exact h
  | tick t => exact h

theorem timersLate_run (cfg : Config) : ∀ (events : List Event) (w : World),
    TimersLate w → TimersLate (run cfg events w) := by
  intro events
  induction events with
  | nil => intro w h; exact h
  | cons ev rest ih => intro w h; exact ih _ (timersLate_step cfg w ev h)

theorem now_le_step (cfg : Config) (w : World) (ev : Event) : w.now ≤ (step cfg w ev).now := by
  cases ev with
  | call request =>
    simp only [step]
    by_cases hc : countOf w (clientIP request) (bucket w.now) < cfg.rateLimitPerMinute
    · rw [checkRateLimit_allowed cfg request w hc]
    · rw [checkRateLimit_denied cfg request w (by omega)]
  | fire i =>
    simp only [step, fireTimer]
    split
    · split_ifs <;> exact Nat.le_refl _
    · exact Nat.le_refl _
  | tick t => exact Nat.le_max_left _ _

theorem now_le_run (cfg : Config) : ∀ (events : List Event) (w : World),
    w.now ≤ (run cfg events w).now := by
  intro events
  induction events with
  | nil => intro w; exact Nat.le_refl _
  | cons ev rest ih => intro w; exact Nat.le_trans (now_le_step cfg w ev) (ih _)

/-- Running a timer leaves every counter of the current bucket and of later buckets. -/
theorem fireTimer_keeps (w : World) (i : Nat) (h : TimersLate w) (c : String) (b : Nat)
    (hb : bucket w.now ≤ b) :
    mapGet (fireTimer i w).rateLimitCache (rateKey c b) = mapGet w.rateLimitCache (rateKey c b) := by
  simp only [fireTimer]
  split
  · rename_i due key hget
    split_ifs with hdue
    · obtain ⟨c2, b2, hkey, hlate⟩ := h due key (List.get?_mem hget)
      simp only
      apply mapGet_mapDelete_other
      rw [hkey]
      apply rateKey_ne
      rintro ⟨_, hbb⟩
      have h1 : b2 + 1 ≤ bucket w.now := by
        simp only [bucket]
        rw [Nat.le_div_iff_mul_le (by decide)]
        omega
      omega
    · rfl
  · rfl

/-- The count of a client in a bucket that has not ended grows by the allowed calls. -/
theorem countOf_run (cfg : Config) : ∀ (events : List Event) (w : World), TimersLate w →
    ∀ (c : String) (b : Nat), bucket (run cfg events w).now ≤ b →
      countOf (run cfg events w) c b = countOf w c b + allowedCalls cfg events w c b := by
  intro events
  induction events with
  | nil => intro w _ c b _; simp [run, allowedCalls]
  | cons ev rest ih =>
    intro w h c b hb
    have hb1 : bucket (step cfg w ev).now ≤ b :=
      Nat.le_trans (bucket_mono _ _ (now_le_run cfg rest _)) hb
    have hb0 : bucket w.now ≤ b := Nat.le_trans (bucket_mono _ _ (now_le_step cfg w ev)) hb1
    have hrec := ih (step cfg w ev) (timersLate_step cfg w ev h) c b hb
    simp only [run, allowedCalls]
    rw [hrec]
    have hstep : countOf (step cfg w ev) c b = countOf w c b + allowedNow cfg w c b ev := by
      cases ev with
      | call request =>
        simp only [step, allowedNow]
        by_cases hc : countOf w (clientIP request) (bucket w.now) < cfg.rateLimitPerMinute
        · have hfst : (checkRateLimit cfg request w).1 = true := by
            rw [checkRateLimit_fst]; simpa using hc
          by_cases hsame : clientIP request = c ∧ bucket w.now = b
          · obtain ⟨h1, h2⟩ := hsame
            rw [if_pos ⟨h1, h2, hfst⟩, ← h1, ← h2, countOf_checkRateLimit, if_pos hc]
          · have hif : ¬ (clientIP request = c ∧ bucket w.now = b ∧
                (checkRateLimit cfg request w).1 = true) := fun hh => hsame ⟨hh.1, hh.2.1⟩
            rw [if_neg hif, checkRateLimit_allowed cfg request w hc]
            simp only [countOf, Nat.add_zero]
            rw [mapGet_mapSet_other]
            exact rateKey_ne _ _ _ _ (fun hh => hsame ⟨hh.1.symm, hh.2.symm⟩)
        · have hfst : ¬ (checkRateLimit cfg request w).1 = true := by
            rw [checkRateLimit_fst]; simpa using hc
          have hif : ¬ (clientIP request = c ∧ bucket w.now = b ∧
                (checkRateLimit cfg request w).1 = true) := fun hh => hfst hh.2.2
          rw [if_neg hif, checkRateLimit_denied cfg request w (by omega)]
          rfl
      | fire i =>
        simp only [step, countOf, allowedNow, Nat.add_zero]
        rw [fireTimer_keeps w i h c b hb0]
      | tick t => rfl
    rw [hstep]
    omega

theorem timersLate_empty : TimersLate emptyWorld := by
  intro due key hmem
  simp [emptyWorld] at hmem

/-- C19. In `cloudflare-worker.js`, in any state reached from an empty process by
`checkRateLimit` calls, timer runs and clock advances: an allowed call at clock value `t`
registers the removal of its key for `t + 60000`, which is not before the end of the
bucket of `t`; every pending timer is due no earlier than the end of the bucket of its
key; running any pending timer, on time or late, leaves the counters of the current and
of later buckets as they are; and the count of a client in the current bucket is the
number of its calls allowed so far in that bucket. -/
theorem expiry_never_early (cfg : Config) (events : List Event) (request : Request) (i : Nat) :
    ((checkRateLimit cfg request (run cfg events emptyWorld)).1 = true →
      (checkRateLimit cfg request (run cfg events emptyWorld)).2.timers
        = (run cfg events emptyWorld).timers ++
          [((run cfg events emptyWorld).now + 60000,
            rateKey (clientIP request) (bucket (run cfg events emptyWorld).now))] ∧
      (bucket (run cfg events emptyWorld).now + 1) * 60000
        ≤ (run cfg events emptyWorld).now + 60000) ∧
    (∀ due key, (due, key) ∈ (run cfg events emptyWorld).timers →
      ∃ c b, key = rateKey c b ∧ (b + 1) * 60000 ≤ due) ∧
    (∀ c b, bucket (run cfg events emptyWorld).now ≤ b →
      mapGet (fireTimer i (run cfg events emptyWorld)).rateLimitCache (rateKey c b)
        = mapGet (run cfg events emptyWorld).rateLimitCache (rateKey c b)) ∧
    (∀ c, countOf (run cfg events emptyWorld) c (bucket (run cfg events emptyWorld).now)
      = allowedCalls cfg events emptyWorld c (bucket (run cfg events emptyWorld).now)) := by
  have hlate := timersLate_run cfg events emptyWorld timersLate_empty
  refine ⟨?_, hlate, ?_, ?_⟩
  · intro hall
    rw [checkRateLimit_fst] at hall
    rw [checkRateLimit_allowed cfg request _ (by simpa using hall)]
    exact ⟨rfl, bucket_end_le _⟩
  · intro c b hb
    exact fireTimer_keeps _ i hlate c b hb
  · intro c
    rw [countOf_run cfg events emptyWorld timersLate_empty c _ (Nat.le_refl _)]
    simp [countOf, emptyWorld, mapGet]

end Worker

/-! ## The effect of `handleRequest` on the cache -/

namespace Worker

/-- The cache after `handleRequest`: that of `checkRateLimit` for an admissible request,
the unchanged cache otherwise. -/
theorem handleRequest_cache (env : Env) (cfg : Config) (request : Request) (w : World) :
    (¬ Admissible request → handleRequest env cfg request w
      = ((handleRequest env cfg request w).1, w)) ∧
    (Admissible request →
      (handleRequest env cfg request w).2.rateLimitCache
        = (checkRateLimit cfg request w).2.rateLimitCache) := by
  constructor
  · intro hna
    by_cases hp : startsWith request.url.pathname "/involve/event" = true
    · cases hs : performSecurityChecks request with
      | allowed => exact absurd ⟨hp, hs⟩ hna
      | rejected status reason =>
        simp only [handleRequest, hp, Bool.not_true, Bool.false_eq_true, if_false, tryBlock, hs,
          Response.create_nil]
    · simp only [handleRequest, hp, Bool.not_false, if_true]
  · intro hadm
    by_cases hc : countOf w (clientIP request) (bucket w.now) < cfg.rateLimitPerMinute
    · exact (handleRequest_admitted env cfg request w hadm
        (by rw [checkRateLimit_fst]; simpa using hc)).1
    · rw [handleRequest_denied env cfg request w hadm (by rw [checkRateLimit_fst]; simpa using hc),
        checkRateLimit_denied cfg request w (by omega)]

/-- One `handleRequest` keeps every stored count between 1 and the limit. -/
theorem handleRequest_bounds (env : Env) (cfg : Config) (request : Request) (w : World)
    (hinv : ∀ key n, mapGet w.rateLimitCache key = some n → 1 ≤ n ∧ n ≤ cfg.rateLimitPerMinute) :
    ∀ key n, mapGet (handleRequest env cfg request w).2.rateLimitCache key = some n →
      1 ≤ n ∧ n ≤ cfg.rateLimitPerMinute := by
  intro key n hget
  by_cases hadm : Admissible request
  · by_cases hc : countOf w (clientIP request) (bucket w.now) < cfg.rateLimitPerMinute
    · rw [(handleRequest_cache env cfg request w).2 hadm,
        checkRateLimit_allowed cfg request w hc] at hget
      simp only at hget
      by_cases hkey : key = rateKey (clientIP request) (bucket w.now)
      · rw [hkey, mapGet_mapSet_self] at hget
        simp only [Option.some.injEq] at hget
        omega
      · rw [mapGet_mapSet_other _ _ _ _ hkey] at hget
        exact hinv key n hget
    · rw [handleRequest_denied env cfg request w hadm
        (by rw [checkRateLimit_fst]; simpa using hc)] at hget
      exact hinv key n hget
  · rw [(handleRequest_cache env cfg request w).1 hadm] at hget
    exact hinv key n hget

theorem handleRequests_bounds (cfg : Config) : ∀ (runs : List (Env × Request × Nat)) (w : World),
    (∀ key n, mapGet w.rateLimitCache key = some n → 1 ≤ n ∧ n ≤ cfg.rateLimitPerMinute) →
    ∀ key n, mapGet (handleRequests cfg runs w).2.rateLimitCache key = some n →
      1 ≤ n ∧ n ≤ cfg.rateLimitPerMinute := by
  intro runs
  induction runs with
  | nil => intro w h; exact h
  | cons c rest ih =>
    intro w h
    obtain ⟨env, request, t⟩ := c
    simp only [handleRequests]
    exact ih _ (handleRequest_bounds env cfg request { w with now := t } h)

end Worker

/-- C20 (amended). In `cloudflare-worker.js`, `handleRequest` leaves the process state as
it is for a request it rejects itself: 404 of the path test, 405 and 400 of the security
checks, 429 of the rate limiter. For every other request it changes one entry of
`rateLimitCache`, that of the key of the client and bucket, raising its count by one,
whatever the platform then does. Counts between 1 and `rateLimitPerMinute` stay so. -/
theorem cache_effect (env : Env) (cfg : Worker.Config) (request : Request) (w : World) :
    (startsWith request.url.pathname "/involve/event" = false →
      Worker.handleRequest env cfg request w
        = (.ok (Response.ofText "Not Found" 404 []), w)) ∧
    (startsWith request.url.pathname "/involve/event" = true →
      ∀ status reason, Worker.performSecurityChecks request = .rejected status reason →
        Worker.handleRequest env cfg request w
            = (.ok (Response.ofText reason status []), w) ∧
          (status = 405 ∨ status = 400)) ∧
    (Worker.Admissible request → (Worker.checkRateLimit cfg request w).1 = false →
      Worker.handleRequest env cfg request w
        = (.ok (Response.ofText "Rate Limit Exceeded" 429 []), w)) ∧
    (Worker.Admissible request → (Worker.checkRateLimit cfg request w).1 = true →
      (Worker.handleRequest env cfg request w).2.rateLimitCache
        = mapSet w.rateLimitCache
            (Worker.rateKey (Worker.clientIP request) (Worker.bucket w.now))
            (Worker.countOf w (Worker.clientIP request) (Worker.bucket w.now) + 1) ∧
      mapGet (Worker.handleRequest env cfg request w).2.rateLimitCache
          (Worker.rateKey (Worker.clientIP request) (Worker.bucket w.now))
        = some (Worker.countOf w (Worker.clientIP request) (Worker.bucket w.now) + 1) ∧
      ∀ key, key ≠ Worker.rateKey (Worker.clientIP request) (Worker.bucket w.now) →
        mapGet (Worker.handleRequest env cfg request w).2.rateLimitCache key
          = mapGet w.rateLimitCache key) ∧
    ((∀ key n, mapGet w.rateLimitCache key = some n → 1 ≤ n ∧ n ≤ cfg.rateLimitPerMinute) →
      ∀ key n, mapGet (Worker.handleRequest env cfg request w).2.rateLimitCache key = some n →
        1 ≤ n ∧ n ≤ cfg.rateLimitPerMinute) ∧
    (∀ (runs : List (Env × Request × Nat)) key n,
      mapGet (Worker.handleRequests cfg runs emptyWorld).2.rateLimitCache key = some n →
        1 ≤ n ∧ n ≤ cfg.rateLimitPerMinute) := by
  have hallowed : Worker.Admissible request → (Worker.checkRateLimit cfg request w).1 = true →
      (Worker.handleRequest env cfg request w).2.rateLimitCache
        = mapSet w.rateLimitCache
            (Worker.rateKey (Worker.clientIP request) (Worker.bucket w.now))
            (Worker.countOf w (Worker.clientIP request) (Worker.bucket w.now) + 1) := by
    intro hadm hrl
    rw [(Worker.handleRequest_cache env cfg request w).2 hadm]
    rw [Worker.checkRateLimit_fst] at hrl
    rw [Worker.checkRateLimit_allowed cfg request w (by simpa using hrl)]
  refine ⟨?_, ?_, ?_, ?_, ?_, ?_⟩
  · intro hp
    simp only [Worker.handleRequest, hp, Bool.not_false, if_true, Response.create_nil]
  · intro hp status reason hs
    refine ⟨?_, ?_⟩
    · simp only [Worker.handleRequest, hp, Bool.not_true, Bool.false_eq_true, if_false,
        Worker.tryBlock, hs, Response.create_nil]
    · simp only [Worker.performSecurityChecks] at hs
      split_ifs at hs
      · simp only [Worker.SecurityCheck.rejected.injEq] at hs
        exact Or.inl hs.1.symm
      · simp only [Worker.SecurityCheck.rejected.injEq] at hs
        exact Or.inr hs.1.symm
  · intro hadm hrl
    exact Worker.handleRequest_denied env cfg request w hadm hrl
  · intro hadm hrl
    refine ⟨hallowed hadm hrl, ?_, ?_⟩
    · rw [hallowed hadm hrl, mapGet_mapSet_self]
    · intro key hkey
      rw [hallowed hadm hrl, mapGet_mapSet_other _ _ _ _ hkey]
  · intro hinv
    exact Worker.handleRequest_bounds env cfg request w hinv
  · intro runs
    apply Worker.handleRequests_bounds cfg runs emptyWorld
    intro key n h
    simp [emptyWorld, mapGet] at h

/-- C20 as stated fails: `sampleGet` is admitted, the backend answers 404, so
`handleRequest` answers 404, and the cache has gained the entry of the client. -/
theorem backend_404_consumes_budget :
    (∃ resp,
      (Worker.handleRequest (backendAnswering notFoundResponse) Worker.CONFIG sampleGet
        emptyWorld).1 = .ok resp ∧
      resp.status = 404) ∧
    emptyWorld.rateLimitCache = [] ∧
    (Worker.handleRequest (backendAnswering notFoundResponse) Worker.CONFIG sampleGet
        emptyWorld).2.rateLimitCache = [("203.0.113.7_0", 1)] :=
  ⟨⟨Worker.addResponseHeaders notFoundResponse, by decide, by decide⟩, by decide, by decide⟩

end Postback
